import Mathlib

/-!
# data-cleaning-basics: the client's state and request layer

A shallow embedding of the React client under `src/frontend/src`:

* `context/AppContext.jsx`  : the application context (`AppState`, `setDataset`,
  `addCleaningLog`);
* `services/api.js`         : the HTTP wrappers (`fetchPreview`, `cleanMissing`, ...,
  `downloadCleaned`, `downloadReport`);
* `pages/Upload.jsx`        : `onDrop`, the clear button and `handleUpload`;
* `pages/CleanDashboard.jsx`: `loadSummary`, `runAction`, `handleReset` and the strategy
  drop-down;
* `components/QualityScore.jsx`, `components/DataTable.jsx`, the file label of
  `components/Navbar.jsx` and the correlation heatmap of `pages/Visualize.jsx`: what they
  render;
* `pages/Export.jsx` and `pages/Visualize.jsx`: `refreshSummary`, `loadData` and the mount
  effects;
* the server behind the endpoints, which is not among the sources, as far as the
  specification describes it (datasets, sessions, `removeDuplicates`, `normalize`).

Component state is passed explicitly.  An asynchronous handler is a function of the
state it closes over and of the outcomes of the requests it awaits; it returns the new
state together with the trace of the effects it performed, in program order.
-/

namespace DataCleaning

/-! ## JavaScript values -/

/-- The JavaScript values the client handles: JSON payloads of the server, `undefined`, and
the built-in functions a property read reaches through the prototype of an object.  A number
is given by a rational and stands for the double nearest to it, which is what `JSON.parse`
makes of its literal (`Infinity` when the literal is too large); `NaN` is not a JSON value. -/
inductive Val where
  | undefined
  | null
  | bool (b : Bool)
  | num (n : ℚ)
  | str (s : String)
  | obj (fields : List (String × Val))
  | arr (items : List Val)
  | fn (name : String)
  deriving Repr

/-- An object literal: its own properties in insertion order. -/
abbrev Obj := List (String × Val)

/-! ### Numbers as doubles, and `Number::toString` -/

/-- The power `b ^ e` of a natural base with an integer exponent. -/
def powInt (b : ℕ) (e : ℤ) : ℚ :=
  if 0 ≤ e then ((b ^ e.toNat : ℕ) : ℚ) else 1 / ((b ^ (-e).toNat : ℕ) : ℚ)

/-- The integer nearest to `x`, the even one on a tie. -/
def roundHalfEven (x : ℚ) : ℤ :=
  let f := ⌊x⌋
  let r := x - f
  if r < 1 / 2 then f
  else if 1 / 2 < r then f + 1
  else if f % 2 = 0 then f else f + 1

/-- The number of binary digits of `n`. -/
def bitLength (n : ℕ) : ℕ := (Nat.toDigits 2 n).length

/-- The exponent `e` with `2^e ≤ x < 2^(e+1)`, for `x > 0`: with `a` and `b` the bit lengths
of numerator and denominator, `x` lies between `2^(a-b-1)` and `2^(a-b+1)`. -/
def binaryExponent (x : ℚ) : ℤ :=
  let e : ℤ := (bitLength x.num.natAbs : ℤ) - (bitLength x.den : ℤ)
  if powInt 2 e ≤ x then e else e - 1

/-- The double nearest to `x ≥ 0`, the one with the even significand on a tie (IEEE 754
binary64, 53 significant bits, least exponent -1022); `none` when the result is `Infinity`. -/
def roundToDouble (x : ℚ) : Option ℚ :=
  let e := max (binaryExponent x) (-1022)
  let ulp := powInt 2 (e - 52)
  let d := (roundHalfEven (x / ulp) : ℚ) * ulp
  if powInt 2 1024 ≤ d then none else some d

/-- The `n` with `10^(n-1) ≤ d < 10^n` for a double `d > 0`: the least `n` from -400 on with
`d < 10^n` (the doubles lie between `10^-324` and `10^309`). -/
def decimalExponent (d : ℚ) : ℤ :=
  match (List.range 800).find? (fun (i : ℕ) => decide (d < powInt 10 ((i : ℤ) - 400))) with
  | some i => (i : ℤ) - 400
  | none => 0

/-- The decimal `s × 10^(n-k)` that reads back as the double `d`, among the two multiples of
`10^(n-k)` next to `d`: the nearer one when both do, the one with the even `s` on a tie;
`none` when neither does.  The result is the pair of `s` and `n - k`. -/
def digitsOfLength (d : ℚ) (n : ℤ) (k : ℕ) : Option (ℤ × ℤ) :=
  let unit := powInt 10 (n - k)
  let lo := ⌊d / unit⌋
  let hi := lo + 1
  let okLo := roundToDouble (lo * unit) = some d
  let okHi := roundToDouble (hi * unit) = some d
  if okLo ∧ okHi then
    if d - lo * unit < hi * unit - d then some (lo, n - k)
    else if hi * unit - d < d - lo * unit then some (hi, n - k)
    else if lo % 2 = 0 then some (lo, n - k) else some (hi, n - k)
  else if okLo then some (lo, n - k)
  else if okHi then some (hi, n - k)
  else none

/-- The shortest decimal `s × 10^e` that reads back as the double `d > 0` (step 5 of
`Number::toString`): the one with the least number `k` of digits, `k` from 1 to 17; 17
digits always suffice. -/
def shortestDecimal (d : ℚ) : ℤ × ℤ :=
  let n := decimalExponent d
  ((List.range 17).findSome? (fun i => digitsOfLength d n (i + 1))).getD (0, 0)

/-- A digit string without its trailing zeros. -/
def stripZeros (digits : List Char) : List Char :=
  (digits.reverse.dropWhile (fun c => c == '0')).reverse

/-- The string of `n` zeros. -/
def zeros (n : ℕ) : String := String.mk (List.replicate n '0')

/-- The text of the number `s × 10^e`, `s > 0` (steps 6 to 12 of `Number::toString`):
`digits` are the `k` significant digits and `n` is the position of the decimal point, so
that the number is `0.digits × 10^n`; plain decimal form for `-5 ≤ n ≤ 21`, exponent form
otherwise. -/
def formatDecimal (s e : ℤ) : String :=
  let all := (toString s.toNat).data
  let digits := stripZeros all
  let k : ℤ := digits.length
  let n : ℤ := all.length + e
  if -5 ≤ n ∧ n ≤ 21 then
    if k ≤ n then String.mk digits ++ zeros (n - k).toNat
    else if 0 < n then
      String.mk (digits.take n.toNat) ++ "." ++ String.mk (digits.drop n.toNat)
    else "0." ++ zeros (-n).toNat ++ String.mk digits
  else
    let exponent := (if n - 1 < 0 then "-" else "+") ++ toString (n - 1).natAbs
    if k = 1 then String.mk digits ++ "e" ++ exponent
    else String.mk (digits.take 1) ++ "." ++ String.mk (digits.drop 1) ++ "e" ++ exponent

/-- `String(x)` of a number (ECMAScript `Number::toString`, radix 10), `x` standing for the
double nearest to it: `0` for both zeros, `Infinity` beyond the largest double, else the
sign and the shortest decimal that reads back as the double. -/
def numberToString (x : ℚ) : String :=
  match roundToDouble |x| with
  | none => if x < 0 then "-Infinity" else "Infinity"
  | some d =>
    if d = 0 then "0"
    else (if x < 0 then "-" else "") ++ formatDecimal (shortestDecimal d).1 (shortestDecimal d).2

/-! ### Truthiness, property reads, string conversion -/

/-- JavaScript truthiness (`if (x)`, `!x`, `x || y`); a number is falsy when its double is
zero. -/
def Val.truthy : Val → Bool
  | .undefined => false
  | .null => false
  | .bool b => b
  | .num n => roundToDouble |n| != some 0
  | .str s => s != ""
  | .obj _ => true
  | .arr _ => true
  | .fn _ => true

/-- The expression `a || b`. -/
def Val.or (a b : Val) : Val := if a.truthy then a else b

/-- The function members of `Object.prototype`, which every object literal and every object
read from JSON inherits: the constructor and the built-in methods, each under its name. -/
def objectPrototype : Obj :=
  [ ("constructor", .fn "Object"),
    ("__defineGetter__", .fn "__defineGetter__"),
    ("__defineSetter__", .fn "__defineSetter__"),
    ("hasOwnProperty", .fn "hasOwnProperty"),
    ("__lookupGetter__", .fn "__lookupGetter__"),
    ("__lookupSetter__", .fn "__lookupSetter__"),
    ("isPrototypeOf", .fn "isPrototypeOf"),
    ("propertyIsEnumerable", .fn "propertyIsEnumerable"),
    ("toString", .fn "toString"),
    ("valueOf", .fn "valueOf"),
    ("toLocaleString", .fn "toLocaleString") ]

/-- What a property read finds on the prototype of an object literal when the object has no
own property `k`: the prototype itself for the accessor `__proto__`, a member of
`Object.prototype`, or `undefined`. -/
def Obj.inherited (k : String) : Val :=
  if k = "__proto__" then .obj objectPrototype
  else (objectPrototype.lookup k).getD .undefined

/-- Property read `o[k]` on an object literal: the own property `k` if there is one, else
what the prototype chain gives. -/
def Obj.get (o : Obj) (k : String) : Val :=
  match o.lookup k with
  | some v => v
  | none => Obj.inherited k

/-- Property read `v.k`: a `TypeError` (here `none`) on `undefined` and `null`; on the other
values the named properties the client reads are properties of objects only. -/
def Val.getProp (v : Val) (k : String) : Option Val :=
  match v with
  | .undefined => none
  | .null => none
  | .obj fields => some (Obj.get fields k)
  | _ => some .undefined

/-- Optional chaining `v?.k`: `undefined` on `undefined` and `null`, never throws.  The
properties of strings, arrays and functions (such as `length`) are not modelled: the read
gives `undefined` on them. -/
def Val.optProp (v : Val) (k : String) : Val :=
  match v with
  | .obj fields => Obj.get fields k
  | _ => .undefined

/-- The object `{ ...o, k: v }`: the properties of `o` with `k` set to `v` (overwritten in
place when `o` already has `k`, appended otherwise). -/
def Obj.set (k : String) (v : Val) : Obj → Obj
  | [] => [(k, v)]
  | (k', v') :: rest => if k' = k then (k, v) :: rest else (k', v') :: Obj.set k v rest

/-- The source text of a built-in function as `Function.prototype.toString` gives it, in
the spacing of V8. -/
def nativeSource (name : String) : String := "function " ++ name ++ "() \x7b [native code] \x7d"

mutual
/-- String conversion as performed by `String(v)` and by a template literal.  An object is
converted by the `toString` it inherits from `Object.prototype`; the text given for an object
that has an own property `toString` is not what JavaScript does (see `Val.printable`). -/
def Val.toStr : Val → String
  | .undefined => "undefined"
  | .null => "null"
  | .bool b => if b then "true" else "false"
  | .num n => numberToString n
  | .str s => s
  | .obj _ => "[object Object]"
  | .arr items => Val.joinStr items
  | .fn name => nativeSource name
/-- The string `items.join(',')` of an array. -/
def Val.joinStr : List Val → String
  | [] => ""
  | [x] => Val.elemStr x
  | x :: y :: rest => Val.elemStr x ++ "," ++ Val.joinStr (y :: rest)
/-- An array element inside `join`: `null` and `undefined` give the empty string. -/
def Val.elemStr : Val → String
  | .undefined => ""
  | .null => ""
  | .bool b => if b then "true" else "false"
  | .num n => numberToString n
  | .str s => s
  | .obj _ => "[object Object]"
  | .arr items => Val.joinStr items
  | .fn name => nativeSource name
end

mutual
/-- A condition under which `String(v)` returns a string: an object has no own property
`toString` (coming from JSON such a property is not callable and the inherited `valueOf`
returns the object itself, so the conversion throws a `TypeError`), and an array has
elements that satisfy the condition. -/
def Val.printable : Val → Bool
  | .obj fields => (fields.lookup "toString").isNone
  | .arr items => Val.allPrintable items
  | _ => true
/-- Every element of the list satisfies `Val.printable`. -/
def Val.allPrintable : List Val → Bool
  | [] => true
  | x :: rest => Val.printable x && Val.allPrintable rest
end

/-- A default parameter `(x = d)`: the default is taken exactly when the argument is
`undefined` (also when it is omitted). -/
def defaultArg (x d : Val) : Val :=
  match x with
  | .undefined => d
  | _ => x

/-! ## `context/AppContext.jsx` -/

/-- The state cells of `AppProvider`. -/
structure AppState where
  sessionId : Val
  filename : Val
  summary : Val
  cleaningLog : List Obj
  theme : String

/-- The state on application start; `storedTheme` is `localStorage.getItem('theme')`. -/
def AppState.init (storedTheme : Val) : AppState :=
  { sessionId := .null
    filename := .null
    summary := .null
    cleaningLog := []
    theme := match Val.or storedTheme (.str "dark") with
      | .str t => t
      | _ => "dark" }

def setSessionId (v : Val) (st : AppState) : AppState := { st with sessionId := v }

def setFilename (v : Val) (st : AppState) : AppState := { st with filename := v }

def setSummary (v : Val) (st : AppState) : AppState := { st with summary := v }

def setCleaningLog (f : List Obj → List Obj) (st : AppState) : AppState :=
  { st with cleaningLog := f st.cleaningLog }

/-- `setDataset(sid, fname)`: the four setter calls of lines 24-27, in order. -/
def setDataset (sid fname : Val) (st : AppState) : AppState :=
  setCleaningLog (fun _ => []) (setSummary .null (setFilename fname (setSessionId sid st)))

/-- `addCleaningLog(entry)`; `now` is `new Date().toLocaleTimeString()`. -/
def addCleaningLog (now : String) (entry : Obj) (st : AppState) : AppState :=
  setCleaningLog (fun prev => Obj.set "time" (.str now) entry :: prev) st

/-! ## `services/api.js` -/

inductive Method where
  | GET
  | POST
  deriving DecidableEq, Repr

/-- A browser `File`: what the client reads of it. -/
structure File where
  name : String
  size : Nat
  deriving DecidableEq, Repr

/-- The data argument of an axios call. -/
inductive Body where
  | none
  | json (data : Obj)
  | form (file : File)

/-- One call on the axios instance `api` (whose `baseURL` is `BASE_URL`): method, path
relative to the base URL, the `params` object, the data and the extra headers. -/
structure Request where
  method : Method
  url : String
  params : Obj
  body : Body
  headers : List (String × String)

/-- `BASE_URL = import.meta.env.VITE_API_URL || '/api'`. -/
def BASE_URL (viteApiUrl : Val) : Val := Val.or viteApiUrl (.str "/api")

/-- `api.get(url, { params })`: the requests the call issues. -/
def api.get (url : String) (params : Obj) : List Request :=
  [{ method := .GET, url := url, params := params, body := .none, headers := [] }]

/-- `api.post(url, data, { params, headers })`: the requests the call issues. -/
def api.post (url : String) (data : Body) (params : Obj) (headers : List (String × String)) :
    List Request :=
  [{ method := .POST, url := url, params := params, body := data, headers := headers }]

/-- `uploadFile(file, onProgress)`: a form with the single part `file`. -/
def uploadFile (file : File) : List Request :=
  api.post "/upload" (.form file) [] [("Content-Type", "multipart/form-data")]

def fetchPreview (sessionId : Val) (n : Val) : List Request :=
  api.get "/preview" [("session_id", sessionId), ("n", defaultArg n (.num 50))]

def fetchSummary (sessionId : Val) : List Request :=
  api.get "/summary" [("session_id", sessionId)]

def cleanMissing (sessionId : Val) (strategy : Val) : List Request :=
  api.post "/clean/missing" (.json [("strategy", defaultArg strategy (.str "mean"))])
    [("session_id", sessionId)] []

def cleanDuplicates (sessionId : Val) : List Request :=
  api.post "/clean/duplicates" (.json []) [("session_id", sessionId)] []

def cleanOutliers (sessionId : Val) : List Request :=
  api.post "/clean/outliers" (.json []) [("session_id", sessionId)] []

def cleanNormalize (sessionId : Val) : List Request :=
  api.post "/clean/normalize" (.json []) [("session_id", sessionId)] []

def cleanStandardize (sessionId : Val) : List Request :=
  api.post "/clean/standardize" (.json []) [("session_id", sessionId)] []

def fetchVisualize (sessionId : Val) : List Request :=
  api.get "/visualize" [("session_id", sessionId)]

def resetDataset (sessionId : Val) : List Request :=
  api.post "/reset" (.json []) [("session_id", sessionId)] []

/-- The endpoint table of the interface description (section 6 of the specification), row
by row: path, method, query parameters, fields of the request body. -/
def endpointTable : List (String × Method × List String × List String) :=
  [ ("/upload", .POST, [], []),
    ("/preview", .GET, ["session_id", "n"], []),
    ("/summary", .GET, ["session_id"], []),
    ("/clean/missing", .POST, ["session_id"], ["strategy"]),
    ("/clean/duplicates", .POST, ["session_id"], []),
    ("/clean/outliers", .POST, ["session_id"], []),
    ("/clean/normalize", .POST, ["session_id"], []),
    ("/clean/standardize", .POST, ["session_id"], []),
    ("/visualize", .GET, ["session_id"], []),
    ("/download", .GET, ["session_id", "format"], []),
    ("/report", .GET, ["session_id"], []),
    ("/reset", .POST, ["session_id"], []) ]

/-- The names of the fields of a request body. -/
def Body.fieldNames : Body → List String
  | .none => []
  | .json data => data.map Prod.fst
  | .form _ => ["file"]

/-- The call issues exactly one request; it has the given method and path, these are a row
of the endpoint table, the request has exactly the query parameters and body fields of
that row, and its `session_id` parameter is `s`. -/
def IssuesOne (call : List Request) (m : Method) (path : String) (s : Val) : Prop :=
  ∃ r : Request, call = [r] ∧ r.method = m ∧ r.url = path ∧
    (path, m, r.params.map Prod.fst, r.body.fieldNames) ∈ endpointTable ∧
    r.params.lookup "session_id" = some s

/-! ## Effects and component state -/

/-- The state cells of the context and of the pages. -/
inductive Slot where
  | sessionId | filename | summary | cleaningLog
  | file | uploadProgress | loading | loadingMsg | preview | sessionDone
  | missingStrategy | activeTab
  | data | theme
  deriving DecidableEq, Repr

/-- An observable effect of a handler. -/
inductive Event where
  | request (r : Request)
  | toastError (msg : Val)
  | toastSuccess (msg : Val)
  | set (slot : Slot)
  | navigate (href : String)

/-- The outcome of an awaited axios call: resolved with a response whose `data` is
given, or rejected with an error value. -/
inductive Outcome where
  | resolved (data : Val)
  | rejected (err : Val)

/-- The application context, the state cells of the mounted page, and the effects
performed so far, oldest first. -/
structure World (π : Type) where
  ctx : AppState
  page : π
  trace : List Event

def World.emit {π : Type} (e : Event) (w : World π) : World π :=
  { w with trace := w.trace ++ [e] }

/-- Calling an API wrapper: its requests go out. -/
def World.issue {π : Type} (call : List Request) (w : World π) : World π :=
  { w with trace := w.trace ++ call.map Event.request }

/-- A setter of a context cell. -/
def World.setCtx {π : Type} (slot : Slot) (f : AppState → AppState) (w : World π) : World π :=
  { w with ctx := f w.ctx, trace := w.trace ++ [.set slot] }

/-- A setter of a page cell. -/
def World.setPage {π : Type} (slot : Slot) (f : π → π) (w : World π) : World π :=
  { w with page := f w.page, trace := w.trace ++ [.set slot] }

/-- The context function `setDataset` called from a page. -/
def World.setDataset {π : Type} (sid fname : Val) (w : World π) : World π :=
  w |>.setCtx .sessionId (setSessionId sid)
    |>.setCtx .filename (setFilename fname)
    |>.setCtx .summary (setSummary .null)
    |>.setCtx .cleaningLog (setCleaningLog (fun _ => []))

/-- The value a runtime `TypeError` is caught as: an `Error` object, which has no
`response` property. -/
def typeError : Val := .obj [("name", .str "TypeError")]

/-- The expression `err?.response?.data?.error`. -/
def serverError (err : Val) : Val :=
  ((err.optProp "response").optProp "data").optProp "error"

/-- `downloadCleaned(sessionId, format)`: the assignment to `window.location.href`;
`viteApiUrl` is `import.meta.env.VITE_API_URL`. -/
def downloadCleaned (viteApiUrl : Val) (sessionId : Val) (format : Val) : List Event :=
  [.navigate ((BASE_URL viteApiUrl).toStr ++ "/download?session_id=" ++ sessionId.toStr ++
    "&format=" ++ (defaultArg format (.str "csv")).toStr)]

/-- `downloadReport(sessionId)`. -/
def downloadReport (viteApiUrl : Val) (sessionId : Val) : List Event :=
  [.navigate ((BASE_URL viteApiUrl).toStr ++ "/report?session_id=" ++ sessionId.toStr)]

/-! ## Reading a URL back

How a URL string is taken apart by its receiver, after the URL standard: the fragment
starts at the first `#`, the query at the first `?` before it, and the query is read as
`application/x-www-form-urlencoded` pairs: split at `&`, each piece split at its first
`=`, `+` read as a space and `%XY` as the character with that code. -/

/-- Split at the first occurrence of `c`: the part before it and, when `c` occurs, the
part after it. -/
def splitFirst (c : Char) : List Char → List Char × Option (List Char)
  | [] => ([], none)
  | x :: xs =>
    if x = c then ([], some xs)
    else ((x :: (splitFirst c xs).1), (splitFirst c xs).2)

/-- Split at every occurrence of `c`. -/
def splitAll (c : Char) : List Char → List (List Char)
  | [] => [[]]
  | x :: xs =>
    if x = c then [] :: splitAll c xs
    else
      match splitAll c xs with
      | [] => [[x]]
      | piece :: pieces => (x :: piece) :: pieces

def hexDigit (c : Char) : Option Nat :=
  if '0' ≤ c ∧ c ≤ '9' then some (c.toNat - '0'.toNat)
  else if 'a' ≤ c ∧ c ≤ 'f' then some (c.toNat - 'a'.toNat + 10)
  else if 'A' ≤ c ∧ c ≤ 'F' then some (c.toNat - 'A'.toNat + 10)
  else none

/-- Percent-decoding; an escape stands for the character with its code (the codes below
128 are the ASCII characters). -/
def percentDecode : List Char → List Char
  | [] => []
  | [c] => [c]
  | [c, d] => [c, d]
  | c :: a :: b :: rest =>
    if c = '%' then
      match hexDigit a, hexDigit b with
      | some x, some y => Char.ofNat (16 * x + y) :: percentDecode rest
      | _, _ => c :: percentDecode (a :: b :: rest)
    else c :: percentDecode (a :: b :: rest)

/-- Decoding of a name or value of the query: `+` is a space, then percent-decoding. -/
def formDecode (cs : List Char) : String :=
  String.mk (percentDecode (cs.map (fun c => if c = '+' then ' ' else c)))

/-- The name-value pairs of a query string, in order. -/
def parseQuery (query : List Char) : List (String × String) :=
  ((splitAll '&' query).filter (fun piece => !piece.isEmpty)).map (fun piece =>
    (formDecode (splitFirst '=' piece).1, formDecode ((splitFirst '=' piece).2.getD [])))

/-- The path of a URL string and the name-value pairs of its query. -/
def parseHref (href : String) : String × List (String × String) :=
  let beforeFragment := (splitFirst '#' href.data).1
  (String.mk (splitFirst '?' beforeFragment).1,
    parseQuery ((splitFirst '?' beforeFragment).2.getD []))

/-- A character without a meaning of its own in a URL query. -/
def querySafe (c : Char) : Bool :=
  c != '#' && c != '?' && c != '&' && c != '=' && c != '+' && c != '%'

/-- The URL strings the event list navigates to. -/
def navigations : List Event → List String
  | [] => []
  | .navigate href :: rest => href :: navigations rest
  | _ :: rest => navigations rest

/-! ## `pages/Upload.jsx` -/

def MAX_MB : Nat := 50

/-- The state cells of the `Upload` component. -/
structure UploadPage where
  file : Option File
  uploadProgress : Int
  loading : Bool
  preview : Val
  sessionDone : Val

def UploadPage.init : UploadPage :=
  { file := none, uploadProgress := 0, loading := false, preview := .null, sessionDone := .null }

/-- An entry of the second argument of `onDrop`. -/
structure FileRejection where
  file : File
  errors : List String

def setFile (f : Option File) (w : World UploadPage) : World UploadPage :=
  w.setPage .file (fun p => { p with file := f })

def setPreview (v : Val) (w : World UploadPage) : World UploadPage :=
  w.setPage .preview (fun p => { p with preview := v })

def setSessionDone (v : Val) (w : World UploadPage) : World UploadPage :=
  w.setPage .sessionDone (fun p => { p with sessionDone := v })

def setUploadProgress (n : Int) (w : World UploadPage) : World UploadPage :=
  w.setPage .uploadProgress (fun p => { p with uploadProgress := n })

def UploadPage.setLoading (b : Bool) (w : World UploadPage) : World UploadPage :=
  w.setPage .loading (fun p => { p with loading := b })

/-- `onDrop(accepted, rejected)`.  The result is `none` when the handler throws: with
nothing rejected and nothing accepted, `accepted[0]` is `undefined` and reading its `size`
is a `TypeError`. -/
def onDrop (accepted : List File) (rejected : List FileRejection) (w : World UploadPage) :
    Option (World UploadPage) :=
  if rejected.length > 0 then
    some (w.emit (.toastError (.str "Only CSV and XLSX files are supported.")))
  else
    match accepted with
    | [] => none
    | f :: _ =>
      if f.size > MAX_MB * 1024 * 1024 then
        some (w.emit (.toastError
          (.str ("File too large. Max size is " ++ toString MAX_MB ++ " MB."))))
      else
        some (w |> setFile (some f) |> setPreview .null |> setSessionDone .null
                |> setUploadProgress 0)

/-- The click handler of the clear button (lines 138). -/
def clearFile (w : World UploadPage) : World UploadPage :=
  w |> setFile none |> setPreview .null |> setSessionDone .null

/-- The `catch` block of `handleUpload`. -/
def handleUpload.onError (err : Val) (w : World UploadPage) : World UploadPage :=
  w.emit (.toastError (Val.or (serverError err) (.str "Upload failed. Please try again.")))

/-- The part of the `try` block of `handleUpload` after the upload has resolved with
`data`.  `preview` and `summary` are the outcomes of the two calls handed to
`Promise.all`; when both are rejected, `summaryFirst` tells whose rejection came first. -/
def handleUpload.afterUpload (data : Val) (preview summary : Outcome) (summaryFirst : Bool)
    (w : World UploadPage) : World UploadPage :=
  match data.getProp "session_id", data.getProp "filename", data.getProp "rows",
      data.getProp "columns" with
  | some session_id, some filename, some rows, some columns =>
    let w := w.setDataset session_id filename
    let w := setSessionDone
      (.obj [("session_id", session_id), ("rows", rows), ("columns", columns)]) w
    let w := w.issue (fetchPreview session_id (.num 50))
    let w := w.issue (fetchSummary session_id)
    match preview, summary with
    | .resolved prevData, .resolved sumData =>
      let w := setPreview prevData w
      let w := w.setCtx .summary (setSummary sumData)
      w.emit (.toastSuccess (.str ("✅ Uploaded \"" ++ filename.toStr ++ "\" — " ++
        rows.toStr ++ " rows, " ++ columns.toStr ++ " columns")))
    | .rejected err, .resolved _ => handleUpload.onError err w
    | .resolved _, .rejected err => handleUpload.onError err w
    | .rejected prevErr, .rejected sumErr =>
      handleUpload.onError (if summaryFirst then sumErr else prevErr) w
  | _, _, _, _ => handleUpload.onError typeError w

/-- `handleUpload()`.  `upload` is the outcome of the upload call and `progress` the
percentages its `onUploadProgress` callback reports while the call is pending. -/
def handleUpload (upload : Outcome) (progress : List Int) (preview summary : Outcome)
    (summaryFirst : Bool) (w : World UploadPage) : World UploadPage :=
  match w.page.file with
  | none => w
  | some file =>
    let w := UploadPage.setLoading true w
    let w := w.issue (uploadFile file)
    let w := progress.foldl (fun w p => setUploadProgress p w) w
    let w := match upload with
      | .resolved data => handleUpload.afterUpload data preview summary summaryFirst w
      | .rejected err => handleUpload.onError err w
    UploadPage.setLoading false w

/-! ## `pages/CleanDashboard.jsx` -/

/-- The state cells of the `CleanDashboard` component. -/
structure DashPage where
  loading : Bool
  loadingMsg : String
  missingStrategy : Val
  activeTab : String

def DashPage.init : DashPage :=
  { loading := false, loadingMsg := "", missingStrategy := .str "mean", activeTab := "overview" }

def DashPage.setLoading (b : Bool) (w : World DashPage) : World DashPage :=
  w.setPage .loading (fun p => { p with loading := b })

def DashPage.setLoadingMsg (m : String) (w : World DashPage) : World DashPage :=
  w.setPage .loadingMsg (fun p => { p with loadingMsg := m })

/-- The cleaning-action buttons are on screen: the component returns the "No dataset
uploaded yet." placeholder when `!sessionId` (line 64) and renders the actions panel only
under `s && activeTab === 'overview'` (line 112). -/
def actionsRendered (w : World DashPage) : Bool :=
  w.ctx.sessionId.truthy && w.ctx.summary.truthy && w.page.activeTab == "overview"

/-- `loadSummary()`; `summary` is the outcome of the summary request. -/
def loadSummary (summary : Outcome) (w : World DashPage) : World DashPage :=
  if !w.ctx.sessionId.truthy then w
  else
    let w := DashPage.setLoading true w
    let w := DashPage.setLoadingMsg "Loading summary…" w
    let w := w.issue (fetchSummary w.ctx.sessionId)
    let w := match summary with
      | .resolved data => w.setCtx .summary (setSummary data)
      | .rejected _ => w.emit (.toastError (.str "Failed to load summary."))
    DashPage.setLoading false w

/-- The `catch` block of `runAction`. -/
def runAction.onError (label : String) (err : Val) (w : World DashPage) : World DashPage :=
  w.emit (.toastError (Val.or (serverError err) (.str (label ++ " failed."))))

/-- `runAction(label, fn)`.  `fn` is given by the requests the call `fn()` issues and
`result` by the outcome of the promise it returns; `summary` is the outcome of the summary
request of `loadSummary`, and `now` the time string `addCleaningLog` reads. -/
def runAction (now : String) (label : String) (fn : List Request) (result summary : Outcome)
    (w : World DashPage) : World DashPage :=
  let w := DashPage.setLoading true w
  let w := DashPage.setLoadingMsg (label ++ "…") w
  let w := w.issue fn
  let w := match result with
    | .resolved data =>
      match data.getProp "before", data.getProp "after", data.getProp "message" with
      | some before, some after, some message =>
        let w := w.setCtx .cleaningLog (addCleaningLog now
          [("label", .str label), ("before", before), ("after", after), ("message", message)])
        let w := w.emit (.toastSuccess message)
        loadSummary summary w
      | _, _, _ => runAction.onError label typeError w
    | .rejected err => runAction.onError label err w
  DashPage.setLoading false w

/-- `handleReset()`.  `confirmed` is the answer to `window.confirm`, `reset` the outcome of
the reset request and `summary` that of the summary request of `loadSummary`. -/
def handleReset (confirmed : Bool) (reset summary : Outcome) (w : World DashPage) :
    World DashPage :=
  if !confirmed then w
  else
    let w := DashPage.setLoading true w
    let w := DashPage.setLoadingMsg "Resetting…" w
    let w := w.issue (resetDataset w.ctx.sessionId)
    let w := match reset with
      | .resolved _ =>
        let w := loadSummary summary w
        w.emit (.toastSuccess (.str "Dataset reset to original."))
      | .rejected _ => w.emit (.toastError (.str "Reset failed."))
    DashPage.setLoading false w

def STRATEGIES : List String := ["mean", "median", "mode", "drop"]

/-- The `value` attributes of the `option` elements rendered into the strategy `select`
(line 141): one per entry of `STRATEGIES`. -/
def strategyOptions : List String := STRATEGIES.map (fun s => s)

/-- The `onChange` handler of the strategy `select`; `value` is `e.target.value`. -/
def onStrategyChange (value : String) (w : World DashPage) : World DashPage :=
  w.setPage .missingStrategy (fun p => { p with missingStrategy := .str value })

/-- The click handler of a tab button. -/
def setActiveTab (tab : String) (w : World DashPage) : World DashPage :=
  w.setPage .activeTab (fun p => { p with activeTab := tab })

/-- The click handler of "Apply to Missing" (line 143). -/
def applyMissing (now : String) (result summary : Outcome) (w : World DashPage) :
    World DashPage :=
  runAction now "Fill Missing Values" (cleanMissing w.ctx.sessionId w.page.missingStrategy)
    result summary w

/-- The four cleaning buttons of lines 150-153: label and the call `fn()` makes. -/
def cleaningButtons (sessionId : Val) : List (String × List Request) :=
  [ ("Remove Duplicates", cleanDuplicates sessionId),
    ("Remove Outliers", cleanOutliers sessionId),
    ("Normalize (0–1)", cleanNormalize sessionId),
    ("Standardize (Z)", cleanStandardize sessionId) ]

/-- The states of the dashboard reachable from its initial state by the events of its
markup: selecting an option of the strategy drop-down, "Apply to Missing", the four
cleaning buttons, "Refresh" (also the mount effect), "Reset" and the tab buttons. -/
inductive DashReachable : World DashPage → Prop where
  | start (ctx : AppState) : DashReachable ⟨ctx, DashPage.init, []⟩
  | select {w : World DashPage} (value : String) :
      value ∈ strategyOptions → DashReachable w → DashReachable (onStrategyChange value w)
  | missing {w : World DashPage} (now : String) (result summary : Outcome) :
      DashReachable w → DashReachable (applyMissing now result summary w)
  | button {w : World DashPage} (now label : String) (fn : List Request)
      (result summary : Outcome) :
      (label, fn) ∈ cleaningButtons w.ctx.sessionId → DashReachable w →
      DashReachable (runAction now label fn result summary w)
  | refresh {w : World DashPage} (summary : Outcome) :
      DashReachable w → DashReachable (loadSummary summary w)
  | reset {w : World DashPage} (confirmed : Bool) (reset summary : Outcome) :
      DashReachable w → DashReachable (handleReset confirmed reset summary w)
  | tab {w : World DashPage} (t : String) :
      DashReachable w → DashReachable (setActiveTab t w)

/-- A request to `/clean/missing` carries the body `{strategy}` with one of the four
strategies of `STRATEGIES`. -/
def Request.strategyOk (r : Request) : Prop :=
  r.url = "/clean/missing" → ∃ s ∈ STRATEGIES, r.body = Body.json [("strategy", .str s)]

/-- An axios error whose response body is `{ error: text }`. -/
def errorResponse (text : Val) : Val :=
  .obj [("message", .str "Request failed"), ("response", .obj [("data", .obj [("error", text)])])]

/-- An axios error without a response (the request never reached the server). -/
def networkError : Val :=
  .obj [("message", .str "Network Error")]

/-- A dashboard on which the action buttons are rendered: session `s1`, a summary loaded. -/
def sampleDashWorld : World DashPage :=
  { ctx := { sessionId := .str "s1", filename := .str "data.csv",
             summary := .obj [("rows", .num 3)], cleaningLog := [], theme := "dark" }
    page := DashPage.init
    trace := [] }

/-- A request that carries a file carries one of at most 50 MB. -/
def Event.withinLimit : Event → Prop
  | .request r =>
    match r.body with
    | .form f => f.size ≤ 50 * 1024 * 1024
    | _ => True
  | _ => True

/-- The states of the upload page reachable from its initial state by `onDrop` calls that
complete, clicks on the clear button and runs of `handleUpload`. -/
inductive UploadReachable : World UploadPage → Prop where
  | start (ctx : AppState) : UploadReachable ⟨ctx, UploadPage.init, []⟩
  | drop {w w' : World UploadPage} (accepted : List File) (rejected : List FileRejection) :
      UploadReachable w → onDrop accepted rejected w = some w' → UploadReachable w'
  | clear {w : World UploadPage} : UploadReachable w → UploadReachable (clearFile w)
  | upload {w : World UploadPage} (up : Outcome) (progress : List Int) (pv sm : Outcome)
      (summaryFirst : Bool) :
      UploadReachable w → UploadReachable (handleUpload up progress pv sm summaryFirst w)

/-- The event is a call of the setter of `slot`. -/
def Event.isSet (slot : Slot) : Event → Bool
  | .set s => decide (s = slot)
  | _ => false

/-- The event is a request to `url`. -/
def Event.isRequestTo (url : String) : Event → Bool
  | .request r => decide (r.url = url)
  | _ => false

/-- In the trace `tr`, every event satisfying `q` comes after some event satisfying `p`. -/
def OnlyAfter (p q : Event → Bool) (tr : List Event) : Prop :=
  ∀ pre e post, tr = pre ++ e :: post → q e = true → ∃ x ∈ pre, p x = true

/-- Scanning a trace for the first event satisfying `p` or `q`: `some false` when a `q`
comes first, `some true` when a `p` comes first, `none` when there is neither. -/
def scanFirst (p q : Event → Bool) : List Event → Option Bool
  | [] => none
  | e :: es => if q e then some false else if p e then some true else scanFirst p q es

/-- In the trace `tr`, every event satisfying `q` comes directly after an event satisfying
`p`, with no event in between. -/
def DirectlyAfter (p q : Event → Bool) (tr : List Event) : Prop :=
  ∀ pre e post, tr = pre ++ e :: post → q e = true → ∃ pre' x, pre = pre' ++ [x] ∧ p x = true

/-- Scanning a trace for an event satisfying `q` that does not directly follow one satisfying
`p`: `true` when there is none.  `prev` tells whether the event before the trace satisfies
`p`. -/
def scanDirect (p q : Event → Bool) : Bool → List Event → Bool
  | _, [] => true
  | prev, e :: es => (!q e || prev) && scanDirect p q (p e) es

/-- The context cells and page cells a failed upload attempt is expected to preserve. -/
def SameClientState (w w' : World UploadPage) : Prop :=
  w'.ctx.sessionId = w.ctx.sessionId ∧ w'.ctx.filename = w.ctx.filename ∧
  w'.ctx.summary = w.ctx.summary ∧ w'.ctx.cleaningLog = w.ctx.cleaningLog ∧
  w'.page.preview = w.page.preview ∧ w'.page.sessionDone = w.page.sessionDone

/-- The event is an error notification (`toast.error`). -/
def Event.isToastError : Event → Bool
  | .toastError _ => true
  | _ => false

def Outcome.failed : Outcome → Bool
  | .resolved _ => false
  | .rejected _ => true

/-- A fresh upload page on which a 10-byte file `data.csv` is selected. -/
def sampleUploadWorld : World UploadPage :=
  ⟨AppState.init .null, { UploadPage.init with file := some ⟨"data.csv", 10⟩ }, []⟩

/-- An upload response of the shape of the endpoint table. -/
def sampleUploadData : Val :=
  .obj [("session_id", .str "s1"), ("filename", .str "data.csv"), ("rows", .num 3),
    ("columns", .num 2)]

/-- Every request of the trace that carries a file carries one within the limit. -/
def World.TraceOk {π : Type} (w : World π) : Prop := ∀ e ∈ w.trace, e.withinLimit

/-- The effects of `handleUpload` up to the moment the upload settles. -/
def uploadHead (file : File) (progress : List Int) : List Event :=
  [Event.set .loading] ++ (uploadFile file).map Event.request ++
    progress.map (fun _ => Event.set .uploadProgress)

/-- The effects of storing the upload result and calling the two wrappers handed to
`Promise.all`. -/
def uploadStored (sid : Val) : List Event :=
  [Event.set .sessionId, .set .filename, .set .summary, .set .cleaningLog, .set .sessionDone] ++
    (fetchPreview sid (.num 50)).map Event.request ++ (fetchSummary sid).map Event.request

/-! ## `useApp` (`context/AppContext.jsx`) -/

/-- The object `AppProvider` hands to `AppContext.Provider`: the five state cells; its
function members (`setDataset`, `addCleaningLog`, ...) are the definitions above. -/
structure ContextValue where
  state : AppState

def AppProvider.value (st : AppState) : ContextValue := { state := st }

/-- `useContext(AppContext)` in a component below the given providers, innermost first:
the value of the nearest provider, and the default `null` (here `none`) without one. -/
def useContext (providers : List ContextValue) : Option ContextValue := providers.head?

/-- `useApp()`; `Except.error` is the message of the thrown `Error`. -/
def useApp (providers : List ContextValue) : Except String ContextValue :=
  match useContext providers with
  | none => .error "useApp must be used within AppProvider"
  | some ctx => .ok ctx

/-! ## `components/QualityScore.jsx` -/

/-- `getColor(s)`; the argument is the number the comparisons see, `none` when it is
`NaN` (a score that is `undefined`), for which every comparison is false. -/
def getColor (s : Option ℚ) : String :=
  match s with
  | none => "#f87171"
  | some s =>
    if s ≥ 90 then "#4ade80"
    else if s ≥ 75 then "#a78bfa"
    else if s ≥ 60 then "#fbbf24"
    else if s ≥ 40 then "#f97316"
    else "#f87171"

/-- The grade bands in the words of the specification (section 4.3): at least 90 is A, at
least 75 is B, at least 60 is C, at least 40 is D, else F. -/
def gradeBand (score : ℚ) : String :=
  if score ≥ 90 then "A"
  else if score ≥ 75 then "B"
  else if score ≥ 60 then "C"
  else if score ≥ 40 then "D"
  else "F"

/-! ## `components/DataTable.jsx` -/

def KIND_COLORS : Obj :=
  [ ("numeric", .str "badge-numeric"),
    ("categorical", .str "badge-categorical"),
    ("datetime", .str "badge-datetime"),
    ("boolean", .str "badge-boolean") ]

/-- A `th` of the header row after the `#` cell: the column name, the kind shown and the
class of its badge. -/
structure HeaderCell where
  column : String
  kind : Val
  badgeClass : String

/-- A `td` of a body row after the number cell. -/
structure TableCell where
  className : String
  title : String
  text : String
  deriving DecidableEq, Repr

/-- A `tr` of the body: the number shown in its first cell and its data cells. -/
structure TableRow where
  number : Nat
  cells : List TableCell
  deriving DecidableEq, Repr

/-- What `DataTable` returns: the placeholder `div` or the table. -/
inductive Rendered where
  | placeholder (text : String)
  | table (head : List HeaderCell) (body : List TableRow)

/-- `arr.map((x, i) => f(x, i))`, the index starting at `start`. -/
def mapWithIndex {α β : Type} (f : α → Nat → β) : List α → Nat → List β
  | [], _ => []
  | x :: xs, start => f x start :: mapWithIndex f xs (start + 1)

/-- The header cell of a column (lines 23-34). -/
def headerCell (dataTypes : Val) (col : String) : HeaderCell :=
  let kind := Val.or ((dataTypes.optProp col).optProp "kind") (.str "categorical")
  { column := col
    kind := kind
    badgeClass := "badge " ++ (Val.or (Obj.get KIND_COLORS kind.toStr)
      (.str "badge-categorical")).toStr }

/-- The test `val === null || val === undefined || val === ''`. -/
def isEmptyValue : Val → Bool
  | .null => true
  | .undefined => true
  | .str s => s == ""
  | _ => false

/-- The data cell of `row` for `col` (lines 42-49); `String(val)` is `Val.toStr`, for the
values on which the conversion returns (`Val.printable`). -/
def dataCell (row : Obj) (col : String) : TableCell :=
  let val := Obj.get row col
  let isEmpty := isEmptyValue val
  { className := if isEmpty then "empty" else ""
    title := if isEmpty then "null/empty" else val.toStr
    text := if isEmpty then "null" else val.toStr }

/-- `DataTable({ columns, rows, dataTypes })`; `rows` is `none` when it is `null` or
`undefined`. -/
def DataTable (columns : List String) (rows : Option (List Obj)) (dataTypes : Val) : Rendered :=
  match rows with
  | none => .placeholder "No data to display."
  | some rows =>
    if rows.length = 0 then .placeholder "No data to display."
    else
      .table (columns.map (headerCell dataTypes))
        (mapWithIndex (fun row i => { number := i + 1, cells := columns.map (dataCell row) })
          rows 0)

/-! ## The correlation heatmap (`pages/Visualize.jsx`)

Correlation values are fractions; they are the rationals here, and arithmetic on them is
exact. -/

/-- An entry of the correlation matrix as the server sends it: `null` or a number. -/
inductive CorrValue where
  | null
  | num (v : ℚ)
  deriving DecidableEq

/-- A row of `data.correlation.matrix`: `{ column, values }`, `values` keyed by column. -/
structure CorrRow where
  column : String
  values : List (String × CorrValue)

/-- A CSS colour as `corrColor` builds it: a literal, or `rgba(r,g,b,alpha)` with the
alpha kept as a number. -/
inductive Colour where
  | literal (code : String)
  | rgba (r g b : Nat) (alpha : ℚ)
  deriving DecidableEq

/-- `corrColor(v)`. -/
def corrColor (v : CorrValue) : Colour :=
  match v with
  | .null => .literal "#1e293b"
  | .num v =>
    if v > 0 then .rgba 99 102 241 (0.15 + |v| * 0.85)
    else .rgba 248 113 113 (0.15 + |v| * 0.85)

/-- Left padding with zeros to `f` characters. -/
def padZeros (f : Nat) (s : String) : String :=
  String.mk (List.replicate (f - s.length) '0') ++ s

/-- The digits `toFixed(f)` prints for `0 ≤ x < 10^21`: the integer `n` nearest to
`x * 10^f`, the larger one on a tie, with a point before its last `f` digits. -/
def fixedDigits (f : Nat) (x : ℚ) : String :=
  let n := (Rat.floor (x * 10 ^ f + 1 / 2)).toNat
  if f = 0 then toString n
  else toString (n / 10 ^ f) ++ "." ++ padZeros f (toString (n % 10 ^ f))

/-- The decimal form of a number `x ≥ 10^21`, which is in exponent notation; `sig x` are
the digits of its significand, which depend on the binary representation of `x`. -/
def exponentForm (sig : ℚ → String) (x : ℚ) : String :=
  sig x ++ "e+" ++ toString (Nat.log 10 (Rat.floor x).toNat)

/-- `x.toFixed(f)` (ECMAScript `Number.prototype.toFixed`). -/
def toFixed (sig : ℚ → String) (f : Nat) (x : ℚ) : String :=
  if x < 0 then
    "-" ++ (if -x ≥ 10 ^ 21 then exponentForm sig (-x) else fixedDigits f (-x))
  else if x ≥ 10 ^ 21 then exponentForm sig x
  else fixedDigits f x

/-- A `td` of the heatmap: its `title`, `background`, text `color` and text. -/
structure HeatCell where
  title : String
  background : Colour
  color : String
  text : String

/-- The expression `v ?? 0` for an entry that is `null` or a number. -/
def CorrValue.orZero : CorrValue → ℚ
  | .null => 0
  | .num x => x

/-- The heatmap cell (lines 198-205) for an entry `v` that is `null` or a number. -/
def presentCell (sig : ℚ → String) (v : CorrValue) : HeatCell :=
  { title :=
      match v with
      | .num x => toFixed sig 4 x
      | .null => "N/A"
    background := corrColor v
    color := if |v.orZero| > 0.4 then "white" else "var(--text-primary)"
    text :=
      match v with
      | .num x => toFixed sig 2 x
      | .null => "—" }

/-- The heatmap cell for `v = row.values[col]` (lines 196-206); `v` is `none` when the key
is missing, so `undefined`: then `v !== null` holds and `v.toFixed` is a `TypeError`
(result `none`). -/
def heatCell (sig : ℚ → String) (v : Option CorrValue) : Option HeatCell :=
  match v with
  | none => none
  | some v => some (presentCell sig v)

/-- All results, or `none` as soon as one of them is `none`. -/
def allSome {α : Type} : List (Option α) → Option (List α)
  | [] => some []
  | none :: _ => none
  | some x :: rest =>
    match allSome rest with
    | none => none
    | some xs => some (x :: xs)

/-- The body of the heatmap table (lines 190-209): per matrix row its label and its
cells, one per column of `data.correlation.columns`; `none` when rendering throws. -/
def heatmapBody (sig : ℚ → String) (columns : List String) (matrix : List CorrRow) :
    Option (List (String × List HeatCell)) :=
  allSome (matrix.map (fun row =>
    match allSome (columns.map (fun col => heatCell sig (row.values.lookup col))) with
    | none => none
    | some cells => some (row.column, cells)))

/-! ## The server behind the endpoints (specification, sections 3 and 4)

The client only calls the server; the server's code is not among the sources.  What the
specification says of it is modelled here. -/

/-- Modelled from the spec: a value of a dataset, "one of {number, string, boolean,
null/empty}" (section 3); the server's data model is missing from the sources.  Numbers
are rationals. -/
inductive Cell where
  | null
  | num (q : ℚ)
  | str (s : String)
  | bool (b : Bool)
  deriving DecidableEq

/-- Modelled from the spec: a row of a dataset (missing from the sources), which "maps
column name → value" (section 3). -/
abbrev DataRow := List (String × Cell)

/-- Modelled from the spec: the `Dataset` of section 3 (missing from the sources), "columns:
ordered sequence of column name, rows: ordered sequence of row". -/
structure Dataset where
  columns : List String
  rows : List DataRow
  deriving DecidableEq

/-- Modelled from the spec: the value of a row for a column (missing from the sources);
"every row has a value (possibly null) for every column" (section 3). -/
def DataRow.value (row : DataRow) (col : String) : Cell := (row.lookup col).getD .null

/-- Modelled from the spec: what row equality compares (missing from the sources), "all
columns' string-normalized values" (section 4.2); the normalisation `norm` of a value is
not fixed by the specification and is a parameter. -/
def rowKey (norm : Cell → String) (columns : List String) (row : DataRow) : List String :=
  columns.map (fun col => norm (row.value col))

/-- Modelled from the spec: the scan of `removeDuplicates` (missing from the sources): a
row is dropped when its key equals the key of an earlier row, "first occurrence kept"
(section 4.2); `seen` holds the keys of the earlier rows. -/
def dropSeen (key : DataRow → List String) : List (List String) → List DataRow → List DataRow
  | _, [] => []
  | seen, row :: rest =>
    if key row ∈ seen then dropSeen key seen rest
    else row :: dropSeen key (key row :: seen) rest

/-- Modelled from the spec: the operator `removeDuplicates(dataset)` of section 4.2
(missing from the sources; the client reaches it through `POST /clean/duplicates`): it
"removes rows that are exact value-for-value duplicates of an earlier row (first occurrence
kept)" and deletes no column. -/
def removeDuplicates (norm : Cell → String) (D : Dataset) : Dataset :=
  { columns := D.columns, rows := dropSeen (rowKey norm D.columns) [] D.rows }

/-- Modelled from the spec: the `Session` of section 3 (missing from the sources): id,
filename, the immutable `original` and the working copy `current`. -/
structure Session where
  id : String
  filename : String
  original : Dataset
  current : Dataset
  createdAt : Nat

/-- Modelled from the spec: `create` of the session store (section 4.1, missing from the
sources): it "stores `original` and `current` as deep copies of the parsed Dataset". -/
def Session.create (id filename : String) (createdAt : Nat) (parsed : Dataset) : Session :=
  { id := id, filename := filename, original := parsed, current := parsed,
    createdAt := createdAt }

/-- Modelled from the spec: `replace(sessionId, newDataset)` of section 4.1 (missing from
the sources), which swaps `current`. -/
def Session.replace (newDataset : Dataset) (s : Session) : Session :=
  { s with current := newDataset }

/-- Modelled from the spec: `reset(sessionId)` of section 4.1 (missing from the sources,
reached through `POST /reset`): it "sets `current = deepCopy(original)`". -/
def Session.reset (s : Session) : Session :=
  { s with current := s.original }

/-- Modelled from the spec: one cleaning operation of the pipeline (section 4.2, missing
from the sources): "apply operator, persist result via Session Store.replace".  The
operator is any function of the current dataset; it gives `none` when it fails, and then
`current` is left unchanged (section 7). -/
def Session.clean (operator : Dataset → Option Dataset) (s : Session) : Session :=
  match operator s.current with
  | some result => s.replace result
  | none => s

/-- Modelled from the spec: a sequence of cleaning operations applied in order (missing
from the sources). -/
def Session.cleanAll (operators : List (Dataset → Option Dataset)) (s : Session) : Session :=
  operators.foldl (fun s operator => s.clean operator) s

/-- Modelled from the spec: the least of a first value and further values (missing from
the sources; used for the bounds of `normalize`, section 4.2). -/
def minOf : ℚ → List ℚ → ℚ
  | m, [] => m
  | m, x :: xs => minOf (min m x) xs

/-- Modelled from the spec: the greatest of a first value and further values (missing
from the sources). -/
def maxOf : ℚ → List ℚ → ℚ
  | m, [] => m
  | m, x :: xs => maxOf (max m x) xs

/-- Modelled from the spec: the non-null values of a numeric column, in order (missing
from the sources). -/
def presentValues (column : List (Option ℚ)) : List ℚ :=
  column.filterMap (fun v => v)

/-- Modelled from the spec: the minimum of a numeric column over its non-null values
(missing from the sources); `none` when the column has no value. -/
def columnMin (column : List (Option ℚ)) : Option ℚ :=
  match presentValues column with
  | [] => none
  | x :: rest => some (minOf x rest)

/-- Modelled from the spec: the maximum of a numeric column over its non-null values
(missing from the sources). -/
def columnMax (column : List (Option ℚ)) : Option ℚ :=
  match presentValues column with
  | [] => none
  | x :: rest => some (maxOf x rest)

/-- Modelled from the spec: min-max scaling of one value (section 4.2, missing from the
sources): `(x - min) / (max - min)`, and 0 when the range is zero ("column with zero range
(max == min) maps all values to 0"). -/
def scaleValue (lo hi x : ℚ) : ℚ :=
  if hi = lo then 0 else (x - lo) / (hi - lo)

/-- Modelled from the spec: the operator `normalize` of section 4.2 on one numeric column
(missing from the sources; the client reaches it through `POST /clean/normalize`): it
"min-max scales" the column "to [0,1]", the bounds being "recomputed fresh each call"; a
null stays null. -/
def normalizeColumn (column : List (Option ℚ)) : List (Option ℚ) :=
  match columnMin column, columnMax column with
  | some lo, some hi => column.map (fun v => v.map (scaleValue lo hi))
  | _, _ => column

/-! ## `toggleTheme` (`context/AppContext.jsx`) -/

/-- `toggleTheme()`: `setTheme((t) => (t === 'dark' ? 'light' : 'dark'))`. -/
def toggleTheme (st : AppState) : AppState :=
  { st with theme := if st.theme = "dark" then "light" else "dark" }

/-! ## `pages/Export.jsx` and `pages/Visualize.jsx`: the loaders -/

/-- The state cell of the `Export` component. -/
structure ExportPage where
  loading : Bool

/-- The state cells of the `Visualize` component. -/
structure VisualizePage where
  data : Val
  loading : Bool

def VisualizePage.init : VisualizePage := { data := .null, loading := false }

def ExportPage.setLoading (b : Bool) (w : World ExportPage) : World ExportPage :=
  w.setPage .loading (fun p => { p with loading := b })

def VisualizePage.setLoading (b : Bool) (w : World VisualizePage) : World VisualizePage :=
  w.setPage .loading (fun p => { p with loading := b })

def setData (v : Val) (w : World VisualizePage) : World VisualizePage :=
  w.setPage .data (fun p => { p with data := v })

/-- `refreshSummary()` of the export page; `summary` is the outcome of the request. -/
def refreshSummary (summary : Outcome) (w : World ExportPage) : World ExportPage :=
  if !w.ctx.sessionId.truthy then w
  else
    let w := ExportPage.setLoading true w
    let w := w.issue (fetchSummary w.ctx.sessionId)
    let w := match summary with
      | .resolved data =>
        let w := w.setCtx .summary (setSummary data)
        w.emit (.toastSuccess (.str "Summary refreshed."))
      | .rejected _ => w.emit (.toastError (.str "Failed to refresh summary."))
    ExportPage.setLoading false w

/-- `loadData()` of the visualize page; `result` is the outcome of the request. -/
def loadData (result : Outcome) (w : World VisualizePage) : World VisualizePage :=
  let w := VisualizePage.setLoading true w
  let w := w.issue (fetchVisualize w.ctx.sessionId)
  let w := match result with
    | .resolved data => setData data w
    | .rejected _ => w.emit (.toastError (.str "Failed to load visualizations."))
  VisualizePage.setLoading false w

/-- The mount effect of `CleanDashboard` (lines 27-29):
`if (sessionId && !summary) loadSummary()`. -/
def CleanDashboard.mountEffect (summary : Outcome) (w : World DashPage) : World DashPage :=
  if w.ctx.sessionId.truthy && !w.ctx.summary.truthy then loadSummary summary w else w

/-- The mount effect of `Visualize` (lines 34-36): `if (sessionId) loadData()`. -/
def Visualize.mountEffect (result : Outcome) (w : World VisualizePage) : World VisualizePage :=
  if w.ctx.sessionId.truthy then loadData result w else w

/-! ## The upload progress (`services/api.js`) -/

/-- `Math.round(x)`: the integer nearest to `x`, the larger one on a tie. -/
def mathRound (x : ℚ) : Int := ⌊x + 1 / 2⌋

/-- The value `uploadFile` hands to `onProgress` for a progress event with the byte
counts `loaded` and `total`: `Math.round((e.loaded * 100) / e.total)`, in exact
arithmetic. -/
def progressValue (loaded total : Nat) : Int :=
  mathRound (((loaded : ℚ) * 100) / (total : ℚ))

/-! ## The file name in the navbar (`components/Navbar.jsx`) -/

/-- A UTF-16 code unit; `length` and `slice` of a string count and cut code units. -/
abbrev CodeUnit := Nat

/-- The code unit of the ellipsis character U+2026. -/
def ellipsis : CodeUnit := 0x2026

/-- The text after the folder icon (lines 44-48) for a file name given as its code
units; `none` when nothing is rendered because the file name is the empty string. -/
def Navbar.fileLabel (filename : List CodeUnit) : Option (List CodeUnit) :=
  if filename.length = 0 then none
  else some (if filename.length > 22 then filename.take 22 ++ [ellipsis] else filename)

/-- The red, green and blue parts of an `rgba` colour. -/
def Colour.rgb : Colour → Option (Nat × Nat × Nat)
  | .literal _ => none
  | .rgba r g b _ => some (r, g, b)

/-- The opacity of an `rgba` colour. -/
def Colour.alpha : Colour → Option ℚ
  | .literal _ => none
  | .rgba _ _ _ a => some a

/-! ## Lemmas on object literals -/

theorem Obj.get_set_self (k : String) (v : Val) (o : Obj) :
    Obj.get (Obj.set k v o) k = v := by
  induction o with
  | nil => simp [Obj.set, Obj.get, List.lookup]
  | cons kv rest ih =>
    obtain ⟨k', v'⟩ := kv
    by_cases h : k' = k
    · simp [Obj.set, h, Obj.get, List.lookup]
    · have h' : (k == k') = false := by
        simpa using fun e : k = k' => h e.symm
      simp only [Obj.set, h, if_false]
      simp only [Obj.get, List.lookup, h'] at ih ⊢
      exact ih

theorem Obj.get_set_other (k j : String) (v : Val) (o : Obj) (hj : j ≠ k) :
    Obj.get (Obj.set k v o) j = Obj.get o j := by
  induction o with
  | nil =>
    have h' : (j == k) = false := by simpa using hj
    simp [Obj.set, Obj.get, List.lookup, h']
  | cons kv rest ih =>
    obtain ⟨k', v'⟩ := kv
    by_cases h : k' = k
    · subst h
      have h' : (j == k') = false := by simpa using hj
      simp [Obj.set, Obj.get, List.lookup, h']
    · simp only [Obj.set, h, if_false]
      by_cases hjk : j = k'
      · subst hjk
        simp [Obj.get, List.lookup]
      · have h' : (j == k') = false := by simpa using hjk
        simp only [Obj.get, List.lookup, h'] at ih ⊢
        exact ih

/-! ## Lemmas on traces and page cells -/

theorem World.traceOk_emit {π : Type} (w : World π) (e : Event) (hw : w.TraceOk)
    (he : e.withinLimit) : (w.emit e).TraceOk := by
  intro x hx
  simp only [World.emit, List.mem_append, List.mem_singleton] at hx
  rcases hx with hx | hx
  · exact hw x hx
  · exact hx ▸ he

theorem World.traceOk_setPage {π : Type} (w : World π) (slot : Slot) (f : π → π)
    (hw : w.TraceOk) : (w.setPage slot f).TraceOk := by
  intro x hx
  simp only [World.setPage, List.mem_append, List.mem_singleton] at hx
  rcases hx with hx | hx
  · exact hw x hx
  · exact hx ▸ trivial

theorem World.traceOk_setCtx {π : Type} (w : World π) (slot : Slot) (f : AppState → AppState)
    (hw : w.TraceOk) : (w.setCtx slot f).TraceOk := by
  intro x hx
  simp only [World.setCtx, List.mem_append, List.mem_singleton] at hx
  rcases hx with hx | hx
  · exact hw x hx
  · exact hx ▸ trivial

theorem World.traceOk_issue {π : Type} (w : World π) (call : List Request) (hw : w.TraceOk)
    (hc : ∀ r ∈ call, (Event.request r).withinLimit) : (w.issue call).TraceOk := by
  intro x hx
  simp only [World.issue, List.mem_append, List.mem_map] at hx
  rcases hx with hx | ⟨r, hr, rfl⟩
  · exact hw x hx
  · exact hc r hr

theorem World.traceOk_setDataset {π : Type} (w : World π) (sid fname : Val) (hw : w.TraceOk) :
    (w.setDataset sid fname).TraceOk := by
  unfold World.setDataset
  exact World.traceOk_setCtx _ _ _ (World.traceOk_setCtx _ _ _
    (World.traceOk_setCtx _ _ _ (World.traceOk_setCtx _ _ _ hw)))

theorem progress_traceOk (progress : List Int) (w : World UploadPage) (hw : w.TraceOk) :
    (progress.foldl (fun w p => setUploadProgress p w) w).TraceOk := by
  induction progress generalizing w with
  | nil => exact hw
  | cons p ps ih => exact ih _ (World.traceOk_setPage _ _ _ hw)

theorem progress_file (progress : List Int) (w : World UploadPage) :
    (progress.foldl (fun w p => setUploadProgress p w) w).page.file = w.page.file := by
  induction progress generalizing w with
  | nil => rfl
  | cons p ps ih => exact (ih _).trans rfl

theorem handleUpload.onError_traceOk (err : Val) (w : World UploadPage) (hw : w.TraceOk) :
    (handleUpload.onError err w).TraceOk :=
  World.traceOk_emit _ _ hw trivial

theorem handleUpload.afterUpload_traceOk (data : Val) (pv sm : Outcome) (sf : Bool)
    (w : World UploadPage) (hw : w.TraceOk) :
    (handleUpload.afterUpload data pv sm sf w).TraceOk := by
  unfold handleUpload.afterUpload
  split
  · have h1 : ∀ (sid : Val) (w : World UploadPage), w.TraceOk →
        ((w.issue (fetchPreview sid (.num 50))).issue (fetchSummary sid)).TraceOk := by
      intro sid w hw
      refine World.traceOk_issue _ _ (World.traceOk_issue _ _ hw ?_) ?_
      · intro r hr
        simp only [fetchPreview, api.get, List.mem_singleton] at hr
        subst hr; trivial
      · intro r hr
        simp only [fetchSummary, api.get, List.mem_singleton] at hr
        subst hr; trivial
    rename_i session_id filename rows columns _ _ _ _
    have h2 := h1 session_id
      (setSessionDone (Val.obj [("session_id", session_id), ("rows", rows), ("columns", columns)])
        (w.setDataset session_id filename))
      (World.traceOk_setPage _ _ _ (World.traceOk_setDataset w session_id filename hw))
    split
    · exact World.traceOk_emit _ _
        (World.traceOk_setCtx _ _ _ (World.traceOk_setPage _ _ _ h2)) trivial
    · exact handleUpload.onError_traceOk _ _ h2
    · exact handleUpload.onError_traceOk _ _ h2
    · exact handleUpload.onError_traceOk _ _ h2
  · exact handleUpload.onError_traceOk _ _ hw

theorem handleUpload.afterUpload_file (data : Val) (pv sm : Outcome) (sf : Bool)
    (w : World UploadPage) :
    (handleUpload.afterUpload data pv sm sf w).page.file = w.page.file := by
  unfold handleUpload.afterUpload
  split
  · split <;> rfl
  · rfl

theorem handleUpload_file (up : Outcome) (progress : List Int) (pv sm : Outcome) (sf : Bool)
    (w : World UploadPage) :
    (handleUpload up progress pv sm sf w).page.file = w.page.file := by
  unfold handleUpload
  split
  · rfl
  · rename_i file hfile
    cases up with
    | resolved data =>
      simp only [UploadPage.setLoading, World.setPage]
      rw [handleUpload.afterUpload_file, progress_file]
      rfl
    | rejected err =>
      simp only [UploadPage.setLoading, World.setPage, handleUpload.onError, World.emit]
      rw [progress_file]
      rfl

theorem handleUpload_traceOk (up : Outcome) (progress : List Int) (pv sm : Outcome) (sf : Bool)
    (w : World UploadPage) (hw : w.TraceOk)
    (hf : ∀ f, w.page.file = some f → f.size ≤ 50 * 1024 * 1024) :
    (handleUpload up progress pv sm sf w).TraceOk := by
  unfold handleUpload
  split
  · exact hw
  · rename_i file hfile
    have h0 : (progress.foldl (fun w p => setUploadProgress p w)
        ((UploadPage.setLoading true w).issue (uploadFile file))).TraceOk := by
      refine progress_traceOk _ _ (World.traceOk_issue _ _ (World.traceOk_setPage _ _ _ hw) ?_)
      intro r hr
      simp only [uploadFile, api.post, List.mem_singleton] at hr
      subst hr
      exact hf file hfile
    refine World.traceOk_setPage _ _ _ ?_
    cases up with
    | resolved data => exact handleUpload.afterUpload_traceOk _ _ _ _ _ h0
    | rejected err => exact handleUpload.onError_traceOk _ _ h0

theorem onDrop_file (accepted : List File) (rejected : List FileRejection)
    (w w' : World UploadPage) (h : onDrop accepted rejected w = some w')
    (hf : ∀ f, w.page.file = some f → f.size ≤ 50 * 1024 * 1024) :
    ∀ f, w'.page.file = some f → f.size ≤ 50 * 1024 * 1024 := by
  unfold onDrop at h
  split at h
  · cases h; exact hf
  · split at h
    · cases h
    · rename_i f rest
      split at h
      · cases h; exact hf
      · rename_i hsz
        cases h
        intro g hg
        have : f = g := by
          simpa [setUploadProgress, setSessionDone, setPreview, setFile, World.setPage] using hg
        subst this
        simp only [MAX_MB] at hsz
        omega

theorem onDrop_traceOk (accepted : List File) (rejected : List FileRejection)
    (w w' : World UploadPage) (h : onDrop accepted rejected w = some w') (hw : w.TraceOk) :
    w'.TraceOk := by
  unfold onDrop at h
  split at h
  · cases h; exact World.traceOk_emit _ _ hw trivial
  · split at h
    · cases h
    · split at h
      · cases h; exact World.traceOk_emit _ _ hw trivial
      · cases h
        exact World.traceOk_setPage _ _ _ (World.traceOk_setPage _ _ _
          (World.traceOk_setPage _ _ _ (World.traceOk_setPage _ _ _ hw)))

theorem uploadReachable_inv (w : World UploadPage) (h : UploadReachable w) :
    (∀ f, w.page.file = some f → f.size ≤ 50 * 1024 * 1024) ∧ w.TraceOk := by
  induction h with
  | start ctx =>
    refine ⟨?_, ?_⟩
    · intro f hf
      simp [UploadPage.init] at hf
    · intro e he
      simp at he
  | drop accepted rejected _ hd ih =>
    exact ⟨onDrop_file _ _ _ _ hd ih.1, onDrop_traceOk _ _ _ _ hd ih.2⟩
  | clear _ ih =>
    refine ⟨?_, ?_⟩
    · intro f hf
      simp [clearFile, setSessionDone, setPreview, setFile, World.setPage] at hf
    · exact World.traceOk_setPage _ _ _ (World.traceOk_setPage _ _ _
        (World.traceOk_setPage _ _ _ ih.2))
  | upload up progress pv sm sf _ ih =>
    refine ⟨?_, handleUpload_traceOk _ _ _ _ _ _ ih.2 ih.1⟩
    rw [handleUpload_file]
    exact ih.1

theorem scanFirst_append (p q : Event → Bool) (xs ys : List Event) :
    scanFirst p q (xs ++ ys) =
      match scanFirst p q xs with
      | some b => some b
      | none => scanFirst p q ys := by
  induction xs with
  | nil => rfl
  | cons x xs ih =>
    simp only [List.cons_append, scanFirst]
    by_cases hq : q x = true
    · simp [hq]
    · by_cases hp : p x = true
      · simp [hq, hp]
      · simp [hq, hp, ih]

theorem scanFirst_map_const (p q : Event → Bool) (e : Event) (hp : p e = false)
    (hq : q e = false) {α : Type} (xs : List α) :
    scanFirst p q (xs.map (fun _ => e)) = none := by
  induction xs with
  | nil => rfl
  | cons x xs ih =>
    simp only [List.map_cons, scanFirst, hp, hq]
    simpa using ih

theorem onlyAfter_of_scanFirst (p q : Event → Bool) (tr : List Event)
    (h : scanFirst p q tr ≠ some false) : OnlyAfter p q tr := by
  induction tr with
  | nil =>
    intro pre e post heq _
    simp at heq
  | cons a tr ih =>
    intro pre e post heq hq
    cases pre with
    | nil =>
      simp only [List.nil_append, List.cons.injEq] at heq
      obtain ⟨rfl, -⟩ := heq
      simp [scanFirst, hq] at h
    | cons b pre =>
      simp only [List.cons_append, List.cons.injEq] at heq
      obtain ⟨rfl, htr⟩ := heq
      by_cases hp : p a = true
      · exact ⟨a, List.mem_cons_self _ _, hp⟩
      · have hqa : q a ≠ true := by
          intro hqa
          simp [scanFirst, hqa] at h
        have h' : scanFirst p q tr ≠ some false := by
          simpa [scanFirst, hqa, hp] using h
        obtain ⟨x, hx, hpx⟩ := ih h' pre e post htr hq
        exact ⟨x, List.mem_cons_of_mem _ hx, hpx⟩

theorem progress_trace (progress : List Int) (w : World UploadPage) :
    (progress.foldl (fun w p => setUploadProgress p w) w).trace =
      w.trace ++ progress.map (fun _ => Event.set .uploadProgress) := by
  induction progress generalizing w with
  | nil => simp
  | cons p ps ih =>
    simp only [List.foldl_cons, List.map_cons]
    rw [ih]
    simp [setUploadProgress, World.setPage]

theorem progress_ctx (progress : List Int) (w : World UploadPage) :
    (progress.foldl (fun w p => setUploadProgress p w) w).ctx = w.ctx := by
  induction progress generalizing w with
  | nil => rfl
  | cons p ps ih => exact (ih _).trans rfl

theorem progress_preview (progress : List Int) (w : World UploadPage) :
    (progress.foldl (fun w p => setUploadProgress p w) w).page.preview = w.page.preview := by
  induction progress generalizing w with
  | nil => rfl
  | cons p ps ih => exact (ih _).trans rfl

theorem progress_sessionDone (progress : List Int) (w : World UploadPage) :
    (progress.foldl (fun w p => setUploadProgress p w) w).page.sessionDone =
      w.page.sessionDone := by
  induction progress generalizing w with
  | nil => rfl
  | cons p ps ih => exact (ih _).trans rfl

theorem not_onlyAfter_of_scanFirst (p q : Event → Bool) (tr : List Event)
    (h : scanFirst p q tr = some false) : ¬ OnlyAfter p q tr := by
  induction tr with
  | nil => simp [scanFirst] at h
  | cons a tr ih =>
    intro hoa
    by_cases hq : q a = true
    · obtain ⟨x, hx, -⟩ := hoa [] a tr rfl hq
      simp at hx
    · by_cases hp : p a = true
      · simp [scanFirst, hq, hp] at h
      · have h' : scanFirst p q tr = some false := by
          simpa [scanFirst, hq, hp] using h
        refine ih h' ?_
        intro pre e post heq hqe
        obtain ⟨x, hx, hpx⟩ := hoa (a :: pre) e post (by simp [heq]) hqe
        rcases List.mem_cons.mp hx with rfl | hx
        · exact absurd hpx hp
        · exact ⟨x, hx, hpx⟩

/-- The trace of a run of `handleUpload` that starts with an empty trace and a selected
file: the effects before the upload settles, then those of the rest of the `try` block or
of the `catch` block, then `setLoading(false)`. -/
theorem handleUpload_trace (ctx : AppState) (page : UploadPage) (file : File)
    (hfile : page.file = some file) (up : Outcome) (progress : List Int) (pv sm : Outcome)
    (sf : Bool) :
    ∃ w1 : World UploadPage,
      w1.trace = [Event.set .loading] ++ (uploadFile file).map Event.request ++
        progress.map (fun _ => Event.set .uploadProgress) ∧
      w1.ctx = ctx ∧ w1.page.preview = page.preview ∧ w1.page.sessionDone = page.sessionDone ∧
      handleUpload up progress pv sm sf ⟨ctx, page, []⟩ =
        UploadPage.setLoading false
          (match up with
            | .resolved data => handleUpload.afterUpload data pv sm sf w1
            | .rejected err => handleUpload.onError err w1) := by
  refine ⟨progress.foldl (fun w p => setUploadProgress p w)
    ((UploadPage.setLoading true ⟨ctx, page, []⟩).issue (uploadFile file)), ?_, ?_, ?_, ?_, ?_⟩
  · rw [progress_trace]
    simp [UploadPage.setLoading, World.setPage, World.issue]
  · rw [progress_ctx]; rfl
  · rw [progress_preview]; rfl
  · rw [progress_sessionDone]; rfl
  · simp only [handleUpload, hfile]

/-- The four shapes of the trace of a run of `handleUpload`: nothing (no file selected);
failure before anything was stored; failure of preview or summary; success. -/
theorem handleUpload_trace_shape (ctx : AppState) (page : UploadPage) (up : Outcome)
    (progress : List Int) (pv sm : Outcome) (sf : Bool) :
    (handleUpload up progress pv sm sf ⟨ctx, page, []⟩).trace = [] ∨
    (∃ file msg, (handleUpload up progress pv sm sf ⟨ctx, page, []⟩).trace =
      uploadHead file progress ++ [.toastError msg, .set .loading]) ∨
    (∃ file sid msg, (handleUpload up progress pv sm sf ⟨ctx, page, []⟩).trace =
      uploadHead file progress ++ uploadStored sid ++ [.toastError msg, .set .loading]) ∨
    (∃ file sid msg, (handleUpload up progress pv sm sf ⟨ctx, page, []⟩).trace =
      uploadHead file progress ++ uploadStored sid ++
        [.set .preview, .set .summary, .toastSuccess msg, .set .loading]) := by
  cases hfile : page.file with
  | none => left; simp [handleUpload, hfile]
  | some file =>
    right
    obtain ⟨w1, htr, -, -, -, heq⟩ := handleUpload_trace ctx page file hfile up progress pv sm sf
    rw [heq]
    have hhead : w1.trace = uploadHead file progress := htr
    cases up with
    | rejected err =>
      left
      exact ⟨file, _, by
        simp only [UploadPage.setLoading, World.setPage, handleUpload.onError, World.emit, hhead,
          List.append_assoc, List.singleton_append]
        rfl⟩
    | resolved data =>
      simp only [handleUpload.afterUpload]
      split
      · rename_i sid fname rows cols _ _ _ _
        right
        cases pv <;> cases sm
        · right
          exact ⟨file, sid, _, by
            simp only [UploadPage.setLoading, World.setPage, World.setCtx, World.setDataset,
              World.emit, World.issue, setSessionDone, setPreview, hhead, uploadStored,
              List.append_assoc, List.singleton_append, List.cons_append, List.nil_append]
            rfl⟩
        all_goals
          left
          exact ⟨file, sid, _, by
            simp only [UploadPage.setLoading, World.setPage, World.setCtx, World.setDataset,
              World.emit, World.issue, setSessionDone, handleUpload.onError, hhead,
              uploadStored, List.append_assoc, List.singleton_append, List.cons_append,
              List.nil_append]
            rfl⟩
      · left
        exact ⟨file, _, by
          simp only [UploadPage.setLoading, World.setPage, handleUpload.onError, World.emit,
            hhead, List.append_assoc, List.singleton_append]
          rfl⟩

theorem scanFirst_uploadHead (p q : Event → Bool) (file : File) (progress : List Int)
    (tail : List Event)
    (h1 : p (.set .loading) = false) (h2 : q (.set .loading) = false)
    (h3 : p (.set .uploadProgress) = false) (h4 : q (.set .uploadProgress) = false) :
    scanFirst p q (uploadHead file progress ++ tail) =
      scanFirst p q ((uploadFile file).map Event.request ++ tail) := by
  have hm : scanFirst p q (progress.map (fun _ => Event.set .uploadProgress)) = none :=
    scanFirst_map_const p q _ h3 h4 progress
  show scanFirst p q (Event.set .loading :: Event.request ⟨.POST, "/upload", [], .form file,
    [("Content-Type", "multipart/form-data")]⟩ ::
      (progress.map (fun _ => Event.set .uploadProgress) ++ tail)) =
    scanFirst p q (Event.request ⟨.POST, "/upload", [], .form file,
    [("Content-Type", "multipart/form-data")]⟩ :: tail)
  simp only [scanFirst, h1, h2, scanFirst_append, hm]
  rfl

/-- An ordering property of the traces of `handleUpload`, reduced to the three tails a
run can have after the upload request. -/
theorem handleUpload_onlyAfter (p q : Event → Bool)
    (h1 : p (.set .loading) = false) (h2 : q (.set .loading) = false)
    (h3 : p (.set .uploadProgress) = false) (h4 : q (.set .uploadProgress) = false)
    (hE : ∀ file msg, scanFirst p q ((uploadFile file).map Event.request ++
      [.toastError msg, .set .loading]) ≠ some false)
    (hF : ∀ file sid msg, scanFirst p q ((uploadFile file).map Event.request ++
      (uploadStored sid ++ [.toastError msg, .set .loading])) ≠ some false)
    (hS : ∀ file sid msg, scanFirst p q ((uploadFile file).map Event.request ++
      (uploadStored sid ++ [.set .preview, .set .summary, .toastSuccess msg, .set .loading])) ≠
        some false)
    (ctx : AppState) (page : UploadPage) (up : Outcome) (progress : List Int)
    (pv sm : Outcome) (sf : Bool) :
    OnlyAfter p q (handleUpload up progress pv sm sf ⟨ctx, page, []⟩).trace := by
  apply onlyAfter_of_scanFirst
  rcases handleUpload_trace_shape ctx page up progress pv sm sf with
    h | ⟨file, msg, h⟩ | ⟨file, sid, msg, h⟩ | ⟨file, sid, msg, h⟩
  · rw [h]; simp [scanFirst]
  · rw [h, scanFirst_uploadHead p q file progress _ h1 h2 h3 h4]
    exact hE file msg
  · rw [h, List.append_assoc, scanFirst_uploadHead p q file progress _ h1 h2 h3 h4]
    exact hF file sid msg
  · rw [h, List.append_assoc, scanFirst_uploadHead p q file progress _ h1 h2 h3 h4]
    exact hS file sid msg

theorem scanDirect_sound (p q : Event → Bool) (tr : List Event) (prev : Bool)
    (h : scanDirect p q prev tr = true) :
    ∀ pre e post, tr = pre ++ e :: post → q e = true →
      (pre = [] ∧ prev = true) ∨ ∃ pre' x, pre = pre' ++ [x] ∧ p x = true := by
  induction tr generalizing prev with
  | nil =>
    intro pre e post heq _
    simp at heq
  | cons a tr ih =>
    intro pre e post heq hq
    simp only [scanDirect, Bool.and_eq_true, Bool.or_eq_true, Bool.not_eq_true'] at h
    cases pre with
    | nil =>
      simp only [List.nil_append, List.cons.injEq] at heq
      obtain ⟨rfl, -⟩ := heq
      rcases h.1 with h1 | h1
      · rw [hq] at h1
        cases h1
      · exact Or.inl ⟨rfl, h1⟩
    | cons b pre =>
      simp only [List.cons_append, List.cons.injEq] at heq
      obtain ⟨rfl, htr⟩ := heq
      rcases ih _ h.2 pre e post htr hq with ⟨rfl, hp⟩ | ⟨pre', x, rfl, hp⟩
      · exact Or.inr ⟨[], a, rfl, hp⟩
      · exact Or.inr ⟨a :: pre', x, rfl, hp⟩

theorem directlyAfter_of_scanDirect (p q : Event → Bool) (tr : List Event)
    (h : scanDirect p q false tr = true) : DirectlyAfter p q tr := by
  intro pre e post heq hq
  rcases scanDirect_sound p q tr false h pre e post heq hq with ⟨-, h'⟩ | h'
  · cases h'
  · exact h'

theorem scanDirect_skip (p q : Event → Bool) (xs ys : List Event) (prev : Bool)
    (hx : ∀ x ∈ xs, p x = false ∧ q x = false) (hne : xs ≠ []) :
    scanDirect p q prev (xs ++ ys) = scanDirect p q false ys := by
  induction xs generalizing prev with
  | nil => exact absurd rfl hne
  | cons a xs ih =>
    have ha := hx a (List.mem_cons_self _ _)
    cases xs with
    | nil => simp [scanDirect, ha.1, ha.2]
    | cons b xs =>
      have h' := ih (p a) (fun x hx' => hx x (List.mem_cons_of_mem _ hx')) (by simp)
      simp only [List.cons_append, scanDirect, ha.2, Bool.not_false, Bool.true_or,
        Bool.true_and] at h' ⊢
      exact h'

theorem mem_uploadHead (file : File) (progress : List Int) (x : Event)
    (h : x ∈ uploadHead file progress) :
    x = .set .loading ∨
    x = .request ⟨.POST, "/upload", [], .form file, [("Content-Type", "multipart/form-data")]⟩ ∨
    x = .set .uploadProgress := by
  simp only [uploadHead, uploadFile, api.post, List.mem_append, List.mem_singleton, List.map_cons,
    List.map_nil, List.mem_map] at h
  rcases h with (h | h) | ⟨_, -, h⟩
  · exact Or.inl h
  · exact Or.inr (Or.inl h)
  · exact Or.inr (Or.inr h.symm)

theorem uploadHead_ne_nil (file : File) (progress : List Int) : uploadHead file progress ≠ [] := by
  simp [uploadHead]

/-- The runs of `handleUpload` by the outcomes of its requests: nothing happens (no file
selected); the run fails before anything is stored; the preview or the summary request
fails; all requests succeed and both results are stored. -/
theorem handleUpload_trace_cases (ctx : AppState) (page : UploadPage) (up : Outcome)
    (progress : List Int) (pv sm : Outcome) (sf : Bool) :
    (handleUpload up progress pv sm sf ⟨ctx, page, []⟩).trace = [] ∨
    (∃ file msg, (handleUpload up progress pv sm sf ⟨ctx, page, []⟩).trace =
      uploadHead file progress ++ [.toastError msg, .set .loading]) ∨
    (∃ file sid msg, (pv.failed = true ∨ sm.failed = true) ∧
      (handleUpload up progress pv sm sf ⟨ctx, page, []⟩).trace =
        uploadHead file progress ++ uploadStored sid ++ [.toastError msg, .set .loading]) ∨
    (∃ file sid msg prevData sumData, pv = .resolved prevData ∧ sm = .resolved sumData ∧
      (handleUpload up progress pv sm sf ⟨ctx, page, []⟩).trace =
        uploadHead file progress ++ uploadStored sid ++
          [.set .preview, .set .summary, .toastSuccess msg, .set .loading] ∧
      (handleUpload up progress pv sm sf ⟨ctx, page, []⟩).page.preview = prevData ∧
      (handleUpload up progress pv sm sf ⟨ctx, page, []⟩).ctx.summary = sumData) := by
  cases hfile : page.file with
  | none => left; simp [handleUpload, hfile]
  | some file =>
    right
    obtain ⟨w1, htr, -, -, -, heq⟩ := handleUpload_trace ctx page file hfile up progress pv sm sf
    rw [heq]
    have hhead : w1.trace = uploadHead file progress := htr
    cases up with
    | rejected err =>
      left
      exact ⟨file, _, by
        simp only [UploadPage.setLoading, World.setPage, handleUpload.onError, World.emit, hhead,
          List.append_assoc, List.singleton_append]
        rfl⟩
    | resolved data =>
      simp only [handleUpload.afterUpload]
      split
      · rename_i sid fname rows cols _ _ _ _
        right
        cases pv <;> cases sm
        · right
          exact ⟨file, sid, _, _, _, rfl, rfl, by
            simp only [UploadPage.setLoading, World.setPage, World.setCtx, World.setDataset,
              World.emit, World.issue, setSessionDone, setPreview, hhead, uploadStored,
              List.append_assoc, List.singleton_append, List.cons_append, List.nil_append]
            rfl, rfl, rfl⟩
        all_goals
          left
          exact ⟨file, sid, _, by simp [Outcome.failed], by
            simp only [UploadPage.setLoading, World.setPage, World.setCtx, World.setDataset,
              World.emit, World.issue, setSessionDone, handleUpload.onError, hhead,
              uploadStored, List.append_assoc, List.singleton_append, List.cons_append,
              List.nil_append]
            rfl⟩
      · left
        exact ⟨file, _, by
          simp only [UploadPage.setLoading, World.setPage, handleUpload.onError, World.emit,
            hhead, List.append_assoc, List.singleton_append]
          rfl⟩

/-- An adjacency property of the traces of `handleUpload`, reduced to the three tails a run
can have after the effects that precede the settling of the upload. -/
theorem handleUpload_directlyAfter (p q : Event → Bool)
    (hH : ∀ file progress, ∀ x ∈ uploadHead file progress, p x = false ∧ q x = false)
    (hE : ∀ msg, scanDirect p q false [.toastError msg, .set .loading] = true)
    (hF : ∀ sid msg, scanDirect p q false
      (uploadStored sid ++ [.toastError msg, .set .loading]) = true)
    (hS : ∀ sid msg, scanDirect p q false
      (uploadStored sid ++ [.set .preview, .set .summary, .toastSuccess msg, .set .loading]) =
        true)
    (ctx : AppState) (page : UploadPage) (up : Outcome) (progress : List Int)
    (pv sm : Outcome) (sf : Bool) :
    DirectlyAfter p q (handleUpload up progress pv sm sf ⟨ctx, page, []⟩).trace := by
  apply directlyAfter_of_scanDirect
  rcases handleUpload_trace_cases ctx page up progress pv sm sf with
    h | ⟨file, msg, h⟩ | ⟨file, sid, msg, -, h⟩ | ⟨file, sid, msg, _, _, -, -, h, -, -⟩
  · rw [h]; rfl
  · rw [h, scanDirect_skip p q _ _ _ (hH file progress) (uploadHead_ne_nil file progress)]
    exact hE msg
  · rw [h, List.append_assoc,
      scanDirect_skip p q _ _ _ (hH file progress) (uploadHead_ne_nil file progress)]
    exact hF sid msg
  · rw [h, List.append_assoc,
      scanDirect_skip p q _ _ _ (hH file progress) (uploadHead_ne_nil file progress)]
    exact hS sid msg

/-! ## Lemmas on the dashboard handlers -/

theorem loadSummary_requests (summary : Outcome) (w : World DashPage) (r : Request)
    (h : Event.request r ∈ (loadSummary summary w).trace) :
    Event.request r ∈ w.trace ∨ r ∈ fetchSummary w.ctx.sessionId := by
  unfold loadSummary at h
  split at h
  · exact Or.inl h
  · cases summary <;>
      simp [DashPage.setLoading, DashPage.setLoadingMsg, World.setPage, World.setCtx,
        World.emit, World.issue] at h <;>
      tauto

theorem loadSummary_missingStrategy (summary : Outcome) (w : World DashPage) :
    (loadSummary summary w).page.missingStrategy = w.page.missingStrategy := by
  unfold loadSummary
  split
  · rfl
  · cases summary <;> rfl

theorem loadSummary_sessionId (summary : Outcome) (w : World DashPage) :
    (loadSummary summary w).ctx.sessionId = w.ctx.sessionId := by
  unfold loadSummary
  split
  · rfl
  · cases summary <;> rfl

theorem runAction_requests (now label : String) (fn : List Request) (result summary : Outcome)
    (w : World DashPage) (r : Request)
    (h : Event.request r ∈ (runAction now label fn result summary w).trace) :
    Event.request r ∈ w.trace ∨ r ∈ fn ∨ r ∈ fetchSummary w.ctx.sessionId := by
  unfold runAction at h
  cases result with
  | rejected err =>
    simp [DashPage.setLoading, DashPage.setLoadingMsg, World.setPage, World.emit, World.issue,
      runAction.onError] at h
    tauto
  | resolved data =>
    simp only [] at h
    split at h
    · simp only [DashPage.setLoading, World.setPage, List.mem_append, List.mem_singleton] at h
      rcases h with h | h
      · rcases loadSummary_requests _ _ _ h with h | h
        · simp [DashPage.setLoading, DashPage.setLoadingMsg, World.setPage, World.setCtx,
            World.emit, World.issue] at h
          tauto
        · exact Or.inr (Or.inr h)
      · cases h
    · simp [DashPage.setLoading, DashPage.setLoadingMsg, World.setPage, World.emit, World.issue,
        runAction.onError] at h
      tauto

theorem runAction_missingStrategy (now label : String) (fn : List Request)
    (result summary : Outcome) (w : World DashPage) :
    (runAction now label fn result summary w).page.missingStrategy = w.page.missingStrategy := by
  unfold runAction
  cases result with
  | rejected err => rfl
  | resolved data =>
    simp only []
    split
    · simp only [DashPage.setLoading, World.setPage]
      rw [loadSummary_missingStrategy]
      rfl
    · rfl

theorem handleReset_requests (confirmed : Bool) (reset summary : Outcome) (w : World DashPage)
    (r : Request) (h : Event.request r ∈ (handleReset confirmed reset summary w).trace) :
    Event.request r ∈ w.trace ∨ r ∈ resetDataset w.ctx.sessionId ∨
      r ∈ fetchSummary w.ctx.sessionId := by
  unfold handleReset at h
  split at h
  · exact Or.inl h
  · cases reset with
    | rejected err =>
      simp [DashPage.setLoading, DashPage.setLoadingMsg, World.setPage, World.emit,
        World.issue] at h
      tauto
    | resolved data =>
      simp only [DashPage.setLoading, World.setPage, World.emit, List.mem_append,
        List.mem_singleton] at h
      rcases h with (h | h) | h
      · rcases loadSummary_requests _ _ _ h with h | h
        · simp [DashPage.setLoading, DashPage.setLoadingMsg, World.setPage, World.issue] at h
          tauto
        · exact Or.inr (Or.inr h)
      · cases h
      · cases h

theorem handleReset_missingStrategy (confirmed : Bool) (reset summary : Outcome)
    (w : World DashPage) :
    (handleReset confirmed reset summary w).page.missingStrategy = w.page.missingStrategy := by
  unfold handleReset
  split
  · rfl
  · cases reset with
    | rejected err => rfl
    | resolved data =>
      simp only [DashPage.setLoading, World.setPage, World.emit]
      rw [loadSummary_missingStrategy]
      rfl

theorem cleanMissing_strategyOk (sid : Val) (s : String) (hs : s ∈ STRATEGIES) :
    ∀ r ∈ cleanMissing sid (.str s), r.strategyOk := by
  intro r hr _
  simp only [cleanMissing, api.post, List.mem_singleton] at hr
  subst hr
  exact ⟨s, hs, rfl⟩

theorem fetchSummary_strategyOk (sid : Val) : ∀ r ∈ fetchSummary sid, r.strategyOk := by
  intro r hr hurl
  simp only [fetchSummary, api.get, List.mem_singleton] at hr
  subst hr
  simp at hurl

theorem resetDataset_strategyOk (sid : Val) : ∀ r ∈ resetDataset sid, r.strategyOk := by
  intro r hr hurl
  simp only [resetDataset, api.post, List.mem_singleton] at hr
  subst hr
  simp at hurl

theorem cleaningButtons_strategyOk (sid : Val) (label : String) (fn : List Request)
    (h : (label, fn) ∈ cleaningButtons sid) : ∀ r ∈ fn, r.strategyOk := by
  intro r hr hurl
  simp only [cleaningButtons, List.mem_cons, Prod.mk.injEq, List.mem_nil_iff, or_false] at h
  rcases h with ⟨-, rfl⟩ | ⟨-, rfl⟩ | ⟨-, rfl⟩ | ⟨-, rfl⟩ <;>
    simp only [cleanDuplicates, cleanOutliers, cleanNormalize, cleanStandardize, api.post,
      List.mem_singleton] at hr <;>
    subst hr <;>
    simp at hurl

theorem dashReachable_inv (w : World DashPage) (h : DashReachable w) :
    (∃ s ∈ STRATEGIES, w.page.missingStrategy = .str s) ∧
    ∀ r, Event.request r ∈ w.trace → r.strategyOk := by
  induction h with
  | start ctx =>
    refine ⟨⟨"mean", by decide, rfl⟩, ?_⟩
    intro r hr
    simp at hr
  | select value hv _ ih =>
    refine ⟨⟨value, by simpa [strategyOptions] using hv, rfl⟩, ?_⟩
    intro r hr
    simp only [onStrategyChange, World.setPage, List.mem_append, List.mem_singleton] at hr
    rcases hr with hr | hr
    · exact ih.2 r hr
    · cases hr
  | @missing w now result summary _ ih =>
    obtain ⟨⟨s, hs, hms⟩, htr⟩ := ih
    refine ⟨⟨s, hs, by rw [applyMissing, runAction_missingStrategy]; exact hms⟩, ?_⟩
    intro r hr
    rcases runAction_requests _ _ _ _ _ _ _ hr with hr | hr | hr
    · exact htr r hr
    · rw [hms] at hr
      exact cleanMissing_strategyOk _ s hs r hr
    · exact fetchSummary_strategyOk _ r hr
  | @button w now label fn result summary hb _ ih =>
    obtain ⟨⟨s, hs, hms⟩, htr⟩ := ih
    refine ⟨⟨s, hs, by rw [runAction_missingStrategy]; exact hms⟩, ?_⟩
    intro r hr
    rcases runAction_requests _ _ _ _ _ _ _ hr with hr | hr | hr
    · exact htr r hr
    · exact cleaningButtons_strategyOk _ _ _ hb r hr
    · exact fetchSummary_strategyOk _ r hr
  | @refresh w summary _ ih =>
    obtain ⟨⟨s, hs, hms⟩, htr⟩ := ih
    refine ⟨⟨s, hs, by rw [loadSummary_missingStrategy]; exact hms⟩, ?_⟩
    intro r hr
    rcases loadSummary_requests _ _ _ hr with hr | hr
    · exact htr r hr
    · exact fetchSummary_strategyOk _ r hr
  | @reset w confirmed rs summary _ ih =>
    obtain ⟨⟨s, hs, hms⟩, htr⟩ := ih
    refine ⟨⟨s, hs, by rw [handleReset_missingStrategy]; exact hms⟩, ?_⟩
    intro r hr
    rcases handleReset_requests _ _ _ _ _ hr with hr | hr | hr
    · exact htr r hr
    · exact resetDataset_strategyOk _ r hr
    · exact fetchSummary_strategyOk _ r hr
  | @tab w t _ ih =>
    obtain ⟨⟨s, hs, hms⟩, htr⟩ := ih
    refine ⟨⟨s, hs, hms⟩, ?_⟩
    intro r hr
    simp only [setActiveTab, World.setPage, List.mem_append, List.mem_singleton] at hr
    rcases hr with hr | hr
    · exact htr r hr
    · cases hr

/-! ## Lemmas on the data table -/

theorem mapWithIndex_length {α β : Type} (f : α → Nat → β) (xs : List α) (start : Nat) :
    (mapWithIndex f xs start).length = xs.length := by
  induction xs generalizing start with
  | nil => rfl
  | cons x xs ih => simp [mapWithIndex, ih]

theorem mapWithIndex_getElem? {α β : Type} (f : α → Nat → β) (xs : List α) (start i : Nat) :
    (mapWithIndex f xs start)[i]? = (xs[i]?).map (fun x => f x (start + i)) := by
  induction xs generalizing start i with
  | nil => simp [mapWithIndex]
  | cons x xs ih =>
    cases i with
    | zero => simp [mapWithIndex]
    | succ i =>
      simp only [mapWithIndex, List.getElem?_cons_succ, ih]
      congr 1
      funext y
      congr 1
      omega

/-! ## Lemmas on the heatmap -/

theorem ne_dash_of_mem (s : String) (c : Char) (hc : c ∈ s.data) (hne : c ≠ '—') :
    s ≠ "—" := by
  intro h
  subst h
  have h1 : "—".data = ['—'] := rfl
  rw [h1, List.mem_singleton] at hc
  exact hne hc

theorem fixedDigits_two_ne_dash (x : ℚ) : fixedDigits 2 x ≠ "—" := by
  apply ne_dash_of_mem _ '.'
  · simp [fixedDigits, String.data_append]
  · decide

theorem exponentForm_ne_dash (sig : ℚ → String) (x : ℚ) : exponentForm sig x ≠ "—" := by
  apply ne_dash_of_mem _ 'e'
  · simp [exponentForm, String.data_append]
  · decide

theorem toFixed_two_ne_dash (sig : ℚ → String) (x : ℚ) : toFixed sig 2 x ≠ "—" := by
  unfold toFixed
  split_ifs
  · apply ne_dash_of_mem _ '-'
    · simp [String.data_append]
    · decide
  · apply ne_dash_of_mem _ '-'
    · simp [String.data_append]
    · decide
  · exact exponentForm_ne_dash sig x
  · exact fixedDigits_two_ne_dash x

theorem allSome_map_some {α β : Type} (f : α → Option β) (g : α → β) (xs : List α)
    (h : ∀ x ∈ xs, f x = some (g x)) : allSome (xs.map f) = some (xs.map g) := by
  induction xs with
  | nil => rfl
  | cons x xs ih =>
    have hx := h x (List.mem_cons_self _ _)
    have hxs := ih (fun y hy => h y (List.mem_cons_of_mem _ hy))
    simp only [List.map_cons, hx, allSome, hxs]

/-! ## Lemmas on the server model -/

theorem dropSeen_idem (key : DataRow → List String) (seen : List (List String))
    (rows : List DataRow) :
    dropSeen key seen (dropSeen key seen rows) = dropSeen key seen rows := by
  induction rows generalizing seen with
  | nil => rfl
  | cons row rest ih =>
    by_cases h : key row ∈ seen
    · simp only [dropSeen, h, if_true]
      exact ih seen
    · simp only [dropSeen, h, if_false]
      rw [ih]

theorem Session.clean_original (operator : Dataset → Option Dataset) (s : Session) :
    (s.clean operator).original = s.original := by
  unfold Session.clean
  split <;> rfl

theorem Session.cleanAll_original (operators : List (Dataset → Option Dataset)) (s : Session) :
    (s.cleanAll operators).original = s.original := by
  induction operators generalizing s with
  | nil => rfl
  | cons op ops ih =>
    simp only [Session.cleanAll, List.foldl_cons] at ih ⊢
    rw [ih, Session.clean_original]

theorem minOf_le_first (m : ℚ) (xs : List ℚ) : minOf m xs ≤ m := by
  induction xs generalizing m with
  | nil => exact le_refl m
  | cons x xs ih => exact le_trans (ih (min m x)) (min_le_left m x)

theorem minOf_le_mem (m : ℚ) (xs : List ℚ) : ∀ x ∈ xs, minOf m xs ≤ x := by
  induction xs generalizing m with
  | nil => intro x hx; cases hx
  | cons y ys ih =>
    intro x hx
    rcases List.mem_cons.mp hx with rfl | hx
    · exact le_trans (minOf_le_first _ ys) (min_le_right m x)
    · exact ih _ x hx

theorem minOf_mem (m : ℚ) (xs : List ℚ) : minOf m xs ∈ m :: xs := by
  induction xs generalizing m with
  | nil => exact List.mem_cons_self _ _
  | cons y ys ih =>
    have h := ih (min m y)
    simp only [minOf]
    rcases List.mem_cons.mp h with h | h
    · rcases min_choice m y with hm | hm
      · rw [h, hm]; exact List.mem_cons_self _ _
      · rw [h, hm]; exact List.mem_cons_of_mem _ (List.mem_cons_self _ _)
    · exact List.mem_cons_of_mem _ (List.mem_cons_of_mem _ h)

theorem first_le_maxOf (m : ℚ) (xs : List ℚ) : m ≤ maxOf m xs := by
  induction xs generalizing m with
  | nil => exact le_refl m
  | cons x xs ih => exact le_trans (le_max_left m x) (ih (max m x))

theorem mem_le_maxOf (m : ℚ) (xs : List ℚ) : ∀ x ∈ xs, x ≤ maxOf m xs := by
  induction xs generalizing m with
  | nil => intro x hx; cases hx
  | cons y ys ih =>
    intro x hx
    rcases List.mem_cons.mp hx with rfl | hx
    · exact le_trans (le_max_right m x) (first_le_maxOf _ ys)
    · exact ih _ x hx

theorem maxOf_mem (m : ℚ) (xs : List ℚ) : maxOf m xs ∈ m :: xs := by
  induction xs generalizing m with
  | nil => exact List.mem_cons_self _ _
  | cons y ys ih =>
    have h := ih (max m y)
    simp only [maxOf]
    rcases List.mem_cons.mp h with h | h
    · rcases max_choice m y with hm | hm
      · rw [h, hm]; exact List.mem_cons_self _ _
      · rw [h, hm]; exact List.mem_cons_of_mem _ (List.mem_cons_self _ _)
    · exact List.mem_cons_of_mem _ (List.mem_cons_of_mem _ h)

theorem mem_presentValues (column : List (Option ℚ)) (v : ℚ) :
    v ∈ presentValues column ↔ some v ∈ column := by
  simp [presentValues, List.mem_filterMap]

/-- The bounds of a column are its least and its greatest non-null value. -/
theorem column_bounds (column : List (Option ℚ)) (lo hi : ℚ)
    (hlo : columnMin column = some lo) (hhi : columnMax column = some hi) :
    some lo ∈ column ∧ some hi ∈ column ∧ ∀ v, some v ∈ column → lo ≤ v ∧ v ≤ hi := by
  unfold columnMin at hlo
  unfold columnMax at hhi
  cases hp : presentValues column with
  | nil => simp [hp] at hlo
  | cons x rest =>
    simp only [hp, Option.some.injEq] at hlo hhi
    subst hlo hhi
    refine ⟨?_, ?_, ?_⟩
    · rw [← mem_presentValues, hp]; exact minOf_mem x rest
    · rw [← mem_presentValues, hp]; exact maxOf_mem x rest
    · intro v hv
      rw [← mem_presentValues, hp] at hv
      rcases List.mem_cons.mp hv with rfl | hv
      · exact ⟨minOf_le_first _ _, first_le_maxOf _ _⟩
      · exact ⟨minOf_le_mem _ _ v hv, mem_le_maxOf _ _ v hv⟩

theorem scaleValue_range (lo hi x : ℚ) (h1 : lo ≤ x) (h2 : x ≤ hi) :
    0 ≤ scaleValue lo hi x ∧ scaleValue lo hi x ≤ 1 := by
  unfold scaleValue
  split_ifs with h
  · exact ⟨le_refl 0, zero_le_one⟩
  · have hlt : lo < hi := lt_of_le_of_ne (le_trans h1 h2) (fun e => h e.symm)
    have hpos : 0 < hi - lo := sub_pos.mpr hlt
    constructor
    · exact div_nonneg (sub_nonneg.mpr h1) (le_of_lt hpos)
    · rw [div_le_one hpos]
      linarith

/-! ## Lemmas on the loading flag -/

theorem loadSummary_loading (summary : Outcome) (w : World DashPage) :
    loadSummary summary w = w ∨ (loadSummary summary w).page.loading = false := by
  unfold loadSummary
  split
  · exact Or.inl rfl
  · exact Or.inr rfl

theorem handleReset_loading (confirmed : Bool) (reset summary : Outcome) (w : World DashPage) :
    handleReset confirmed reset summary w = w ∨
      (handleReset confirmed reset summary w).page.loading = false := by
  unfold handleReset
  split
  · exact Or.inl rfl
  · exact Or.inr rfl

theorem refreshSummary_loading (summary : Outcome) (w : World ExportPage) :
    refreshSummary summary w = w ∨ (refreshSummary summary w).page.loading = false := by
  unfold refreshSummary
  split
  · exact Or.inl rfl
  · exact Or.inr rfl

theorem handleUpload_loading (up : Outcome) (progress : List Int) (pv sm : Outcome) (sf : Bool)
    (w : World UploadPage) :
    handleUpload up progress pv sm sf w = w ∨
      (handleUpload up progress pv sm sf w).page.loading = false := by
  unfold handleUpload
  split
  · exact Or.inl rfl
  · exact Or.inr rfl

theorem mathRound_mono {x y : ℚ} (h : x ≤ y) : mathRound x ≤ mathRound y :=
  Int.floor_mono (by linarith)

/-! ## Lemmas on property reads and on the string form of numbers -/

theorem Obj.get_of_lookup (o : Obj) (k : String) (v : Val) (h : o.lookup k = some v) :
    Obj.get o k = v := by
  simp [Obj.get, h]

theorem Obj.get_singleton (k : String) (v : Val) : Obj.get [(k, v)] k = v := by
  simp [Obj.get, List.lookup]

theorem Obj.inherited_undefined (k : String)
    (h : k ∉ ["__proto__", "constructor", "__defineGetter__", "__defineSetter__",
      "hasOwnProperty", "__lookupGetter__", "__lookupSetter__", "isPrototypeOf",
      "propertyIsEnumerable", "toString", "valueOf", "toLocaleString"]) :
    Obj.inherited k = .undefined := by
  simp only [List.mem_cons, List.mem_singleton, List.not_mem_nil, or_false, not_or] at h
  obtain ⟨h0, h1, h2, h3, h4, h5, h6, h7, h8, h9, h10, h11⟩ := h
  have e : ∀ a : String, k ≠ a → (k == a) = false := fun a ha => by simpa using ha
  simp [Obj.inherited, objectPrototype, List.lookup, h0, e _ h1, e _ h2, e _ h3, e _ h4,
    e _ h5, e _ h6, e _ h7, e _ h8, e _ h9, e _ h10, e _ h11]

theorem Obj.inherited_not_empty (k : String)
    (h : k ∈ ["__proto__", "constructor", "__defineGetter__", "__defineSetter__",
      "hasOwnProperty", "__lookupGetter__", "__lookupSetter__", "isPrototypeOf",
      "propertyIsEnumerable", "toString", "valueOf", "toLocaleString"]) :
    isEmptyValue (Obj.inherited k) = false ∧ (Obj.inherited k).toStr ≠ "null" ∧
      (Obj.inherited k = .obj objectPrototype ∨ ∃ name, Obj.inherited k = .fn name) := by
  simp only [List.mem_cons, List.mem_singleton, List.not_mem_nil, or_false] at h
  rcases h with rfl | rfl | rfl | rfl | rfl | rfl | rfl | rfl | rfl | rfl | rfl | rfl
  · exact ⟨rfl, by decide, Or.inl rfl⟩
  all_goals exact ⟨rfl, by decide, Or.inr ⟨_, rfl⟩⟩

theorem powInt_eq_zpow (b : ℕ) (e : ℤ) : powInt b e = (b : ℚ) ^ e := by
  unfold powInt
  split_ifs with h
  · obtain ⟨k, rfl⟩ := Int.eq_ofNat_of_zero_le h
    simp
  · push_neg at h
    obtain ⟨k, hk⟩ := Int.eq_ofNat_of_zero_le (by omega : 0 ≤ -e)
    have : e = -(k : ℤ) := by omega
    subst this
    simp

theorem roundHalfEven_intCast (z : ℤ) : roundHalfEven (z : ℚ) = z := by
  simp [roundHalfEven]

theorem bitLength_le (m : ℕ) (h : m < 2 ^ 53) : bitLength m ≤ 53 := by
  unfold bitLength Nat.toDigits
  exact Nat.toDigitsCore_length 2 (by decide) (m + 1) m 53 h (by decide)

theorem binaryExponent_natCast_le (m : ℕ) (h : m < 2 ^ 53) : binaryExponent (m : ℚ) ≤ 52 := by
  have h1 := bitLength_le m h
  have h2 : bitLength 1 = 1 := by decide
  simp only [binaryExponent, Rat.num_natCast, Int.natAbs_ofNat, Rat.den_natCast, h2]
  split_ifs <;> omega

theorem roundToDouble_natCast (m : ℕ) (h : m < 2 ^ 53) : roundToDouble (m : ℚ) = some (m : ℚ) := by
  have hb := binaryExponent_natCast_le m h
  unfold roundToDouble
  set e := max (binaryExponent (m : ℚ)) (-1022) with he
  have he1 : e ≤ 52 := max_le hb (by norm_num)
  have he2 : -1022 ≤ e := le_max_right _ _
  obtain ⟨t, ht⟩ := Int.eq_ofNat_of_zero_le (by omega : 0 ≤ 52 - e)
  have hulp : powInt 2 (e - 52) = 1 / ((2 ^ t : ℕ) : ℚ) := by
    rw [powInt_eq_zpow]
    have : e - 52 = -(t : ℤ) := by omega
    rw [this]
    simp
  have hdiv : (m : ℚ) / powInt 2 (e - 52) = (((m * 2 ^ t : ℕ) : ℤ) : ℚ) := by
    rw [hulp]
    push_cast
    field_simp
  simp only [hdiv, roundHalfEven_intCast]
  have hd : ((((m * 2 ^ t : ℕ) : ℤ) : ℚ)) * powInt 2 (e - 52) = (m : ℚ) := by
    rw [hulp]
    push_cast
    field_simp
  rw [hd]
  have hlt : ¬ powInt 2 1024 ≤ (m : ℚ) := by
    rw [powInt_eq_zpow]
    push_neg
    have : (m : ℚ) < 2 ^ 53 := by exact_mod_cast h
    calc (m : ℚ) < 2 ^ 53 := this
      _ ≤ ((2 : ℕ) : ℚ) ^ (1024 : ℤ) := by norm_num
  simp [hlt]

theorem find?_range_of_least (p : ℕ → Bool) (N i0 : ℕ) (h0 : i0 < N) (hp : p i0 = true)
    (hlt : ∀ j < i0, p j = false) : (List.range N).find? p = some i0 := by
  induction N with
  | zero => omega
  | succ N ih =>
    rw [List.range_succ, List.find?_append]
    by_cases h : i0 < N
    · rw [ih h]
      rfl
    · have hN : i0 = N := by omega
      subst hN
      have hnone : (List.range i0).find? p = none := by
        rw [List.find?_eq_none]
        intro x hx
        rw [List.mem_range] at hx
        simp [hlt x hx]
      rw [hnone]
      simp [hp]

theorem findSome?_range_of_least {α : Type} (f : ℕ → Option α) (N i0 : ℕ) (v : α) (h0 : i0 < N)
    (hp : f i0 = some v) (hlt : ∀ j < i0, f j = none) : (List.range N).findSome? f = some v := by
  induction N with
  | zero => omega
  | succ N ih =>
    rw [List.range_succ, List.findSome?_append]
    by_cases h : i0 < N
    · rw [ih h]
      rfl
    · have hN : i0 = N := by omega
      subst hN
      have hnone : (List.range i0).findSome? f = none := by
        rw [List.findSome?_eq_none_iff]
        intro x hx
        rw [List.mem_range] at hx
        exact hlt x hx
      rw [hnone]
      simp [hp]

theorem decimalExponent_natCast (n : ℕ) (h1 : 0 < n) (h2 : n < 10 ^ 15) :
    decimalExponent (n : ℚ) = (Nat.log 10 n + 1 : ℕ) := by
  have hlog : Nat.log 10 n < 15 := Nat.log_lt_of_lt_pow (by omega) h2
  have hfind : (List.range 800).find?
      (fun (i : ℕ) => decide ((n : ℚ) < powInt 10 ((i : ℤ) - 400))) =
      some (Nat.log 10 n + 1 + 400) := by
    refine find?_range_of_least (fun (i : ℕ) => decide ((n : ℚ) < powInt 10 ((i : ℤ) - 400))) 800
      (Nat.log 10 n + 1 + 400) ?_ ?_ ?_
    · omega
    · have hlt : n < 10 ^ (Nat.log 10 n + 1) := Nat.lt_pow_succ_log_self (by norm_num) n
      have : ((Nat.log 10 n + 1 + 400 : ℕ) : ℤ) - 400 = ((Nat.log 10 n + 1 : ℕ) : ℤ) := by
        push_cast; ring
      show decide ((n : ℚ) < powInt 10 (((Nat.log 10 n + 1 + 400 : ℕ) : ℤ) - 400)) = true
      rw [this, powInt_eq_zpow, zpow_natCast]
      simp only [decide_eq_true_eq]
      exact_mod_cast hlt
    · intro j hj
      simp only [decide_eq_false_iff_not, not_lt]
      have hle : 10 ^ Nat.log 10 n ≤ n := Nat.pow_log_le_self 10 (by omega)
      rw [powInt_eq_zpow]
      calc ((10 : ℕ) : ℚ) ^ ((j : ℤ) - 400) ≤ ((10 : ℕ) : ℚ) ^ ((Nat.log 10 n : ℕ) : ℤ) := by
            apply zpow_le_zpow_right₀
            · norm_num
            · omega
        _ = ((10 ^ Nat.log 10 n : ℕ) : ℚ) := by rw [zpow_natCast]; push_cast; rfl
        _ ≤ (n : ℚ) := by exact_mod_cast hle
  unfold decimalExponent
  rw [hfind]
  push_cast
  ring


/-- The candidates of `digitsOfLength` for a natural number `n` and a power `10^j`. -/
theorem digitsOfLength_natCast (n L k j : ℕ) (hn : n < 10 ^ 15) (hj : j < 15)
    (hL : (L : ℤ) - (k : ℤ) = (j : ℤ)) :
    (10 ^ j ∣ n → digitsOfLength (n : ℚ) (L : ℤ) k = some (((n / 10 ^ j : ℕ) : ℤ), (j : ℤ))) ∧
    (¬ 10 ^ j ∣ n → digitsOfLength (n : ℚ) (L : ℤ) k = none) := by
  have hpow : (10 : ℕ) ^ j ≤ 10 ^ 14 := Nat.pow_le_pow_right (by norm_num) (by omega)
  have hpos : 0 < (10 : ℕ) ^ j := by positivity
  have hunit : powInt 10 ((L : ℤ) - (k : ℤ)) = ((10 ^ j : ℕ) : ℚ) := by
    rw [hL, powInt_eq_zpow, zpow_natCast]
    push_cast
    rfl
  have hfloor : ⌊(n : ℚ) / ((10 ^ j : ℕ) : ℚ)⌋ = ((n / 10 ^ j : ℕ) : ℤ) := by
    rw [Rat.floor_natCast_div_natCast]
    rfl
  have hdm : n / 10 ^ j * 10 ^ j ≤ n := Nat.div_mul_le_self n (10 ^ j)
  have hlo : ((((n / 10 ^ j : ℕ) : ℤ) : ℚ)) * ((10 ^ j : ℕ) : ℚ) =
      ((n / 10 ^ j * 10 ^ j : ℕ) : ℚ) := by
    rw [Nat.cast_mul, Int.cast_natCast]
  have hhi : (((((n / 10 ^ j : ℕ) : ℤ) + 1 : ℤ) : ℚ)) * ((10 ^ j : ℕ) : ℚ) =
      (((n / 10 ^ j + 1) * 10 ^ j : ℕ) : ℚ) := by
    rw [Nat.cast_mul, Nat.cast_add, Nat.cast_one, Int.cast_add, Int.cast_one, Int.cast_natCast]
  have hrlo : roundToDouble (((n / 10 ^ j * 10 ^ j : ℕ) : ℚ)) =
      some ((n / 10 ^ j * 10 ^ j : ℕ) : ℚ) :=
    roundToDouble_natCast _ (by
      have : (10 : ℕ) ^ 15 < 2 ^ 53 := by norm_num
      omega)
  have hrhi : roundToDouble ((((n / 10 ^ j + 1) * 10 ^ j : ℕ) : ℚ)) =
      some (((n / 10 ^ j + 1) * 10 ^ j : ℕ) : ℚ) :=
    roundToDouble_natCast _ (by
      have h1 : (n / 10 ^ j + 1) * 10 ^ j = n / 10 ^ j * 10 ^ j + 10 ^ j := by ring
      have : (10 : ℕ) ^ 15 + 10 ^ 14 < 2 ^ 53 := by norm_num
      omega)
  have hgt : n < (n / 10 ^ j + 1) * 10 ^ j := by
    have := Nat.lt_succ_self (n / 10 ^ j)
    have h2 := Nat.div_add_mod n (10 ^ j)
    have h3 := Nat.mod_lt n hpos
    have h1 : (n / 10 ^ j + 1) * 10 ^ j = 10 ^ j * (n / 10 ^ j) + 10 ^ j := by ring
    omega
  have hhine : ¬ ((((n / 10 ^ j + 1) * 10 ^ j : ℕ) : ℚ)) = (n : ℚ) := by
    intro h
    have : (n / 10 ^ j + 1) * 10 ^ j = n := by exact_mod_cast h
    omega
  unfold digitsOfLength
  simp only [hunit, hfloor, hlo, hhi, hrlo, hrhi, Option.some.injEq, hhine, and_false, if_false]
  constructor
  · intro hdvd
    have : n / 10 ^ j * 10 ^ j = n := Nat.div_mul_cancel hdvd
    simp [this, hL]
  · intro hdvd
    have : ¬ ((n / 10 ^ j * 10 ^ j : ℕ) : ℚ) = (n : ℚ) := by
      intro h
      have h' : n / 10 ^ j * 10 ^ j = n := by exact_mod_cast h
      exact hdvd (Dvd.intro_left _ h')
    have this' : ¬ ((n / 10 ^ j : ℕ) : ℚ) * 10 ^ j = (n : ℚ) := by exact_mod_cast this
    simp [this, this']

theorem shortestDecimal_natCast (n : ℕ) (h1 : 0 < n) (h2 : n < 10 ^ 15) :
    ∃ m z : ℕ, n = m * 10 ^ z ∧ ¬ 10 ∣ m ∧ 0 < m ∧
      shortestDecimal (n : ℚ) = ((m : ℤ), (z : ℤ)) := by
  have hlog : Nat.log 10 n < 15 := Nat.log_lt_of_lt_pow (by omega) h2
  have hP0 : (10 : ℕ) ^ 0 ∣ n := by simp
  set z := Nat.findGreatest (fun j => 10 ^ j ∣ n) (Nat.log 10 n) with hz
  have hzle : z ≤ Nat.log 10 n := Nat.findGreatest_le _
  have hzdvd : 10 ^ z ∣ n := Nat.findGreatest_spec (P := fun j => 10 ^ j ∣ n) (Nat.zero_le _) hP0
  have hzmax : ∀ j, z < j → j ≤ Nat.log 10 n → ¬ 10 ^ j ∣ n := fun j hj hj' =>
    Nat.findGreatest_is_greatest (P := fun j => 10 ^ j ∣ n) hj hj'
  have hnlt : n < 10 ^ (Nat.log 10 n + 1) := Nat.lt_pow_succ_log_self (by norm_num) n
  refine ⟨n / 10 ^ z, z, (Nat.div_mul_cancel hzdvd).symm, ?_, ?_, ?_⟩
  · intro h10
    have hdvd : 10 ^ (z + 1) ∣ n := by
      obtain ⟨c, hc⟩ := h10
      refine ⟨c, ?_⟩
      have := Nat.div_mul_cancel hzdvd
      rw [hc] at this
      rw [← this]
      ring
    by_cases hlt : z + 1 ≤ Nat.log 10 n
    · exact hzmax (z + 1) (by omega) hlt hdvd
    · have hzeq : z = Nat.log 10 n := by omega
      have := Nat.le_of_dvd h1 hdvd
      rw [hzeq] at this
      omega
  · exact Nat.div_pos (Nat.le_of_dvd h1 hzdvd) (by positivity)
  · unfold shortestDecimal
    rw [decimalExponent_natCast n h1 h2]
    have hfind : (List.range 17).findSome?
        (fun i => digitsOfLength (n : ℚ) ((Nat.log 10 n + 1 : ℕ) : ℤ) (i + 1)) =
        some (((n / 10 ^ z : ℕ) : ℤ), (z : ℤ)) := by
      refine findSome?_range_of_least _ 17 (Nat.log 10 n - z) _ (by omega) ?_ ?_
      · exact (digitsOfLength_natCast n (Nat.log 10 n + 1) (Nat.log 10 n - z + 1) z h2 (by omega)
          (by push_cast; omega)).1 hzdvd
      · intro i hi
        exact (digitsOfLength_natCast n (Nat.log 10 n + 1) (i + 1) (Nat.log 10 n - i) h2
          (by omega) (by push_cast; omega)).2 (hzmax _ (by omega) (by omega))
    dsimp only
    rw [hfind]
    rfl


theorem toDigitsCore_eq_digits (b : ℕ) (hb : 1 < b) :
    ∀ (fuel n : ℕ) (ds : List Char), 0 < n → n < fuel →
      Nat.toDigitsCore b fuel n ds = (Nat.digits b n).reverse.map Nat.digitChar ++ ds := by
  intro fuel
  induction fuel with
  | zero => intro n ds _ h; omega
  | succ fuel ih =>
    intro n ds hn hlt
    rw [Nat.digits_def' hb hn]
    unfold Nat.toDigitsCore
    by_cases h0 : n / b = 0
    · simp [h0]
    · have hpos : 0 < n / b := Nat.pos_of_ne_zero h0
      have hlt' : n / b < fuel := by
        have := Nat.div_lt_self hn hb
        omega
      simp only [h0, if_false]
      rw [ih (n / b) _ hpos hlt']
      simp

theorem toDigits_eq_digits (n : ℕ) (hn : 0 < n) :
    Nat.toDigits 10 n = (Nat.digits 10 n).reverse.map Nat.digitChar := by
  unfold Nat.toDigits
  rw [toDigitsCore_eq_digits 10 (by norm_num) (n + 1) n [] hn (by omega)]
  simp

theorem digitChar_ne_zero (d : ℕ) (h1 : d ≠ 0) (h2 : d < 10) : (Nat.digitChar d == '0') = false := by
  interval_cases d <;> first | exact absurd rfl h1 | decide

theorem stripZeros_toDigits (m : ℕ) (hm : 0 < m) (h10 : ¬ 10 ∣ m) :
    stripZeros (Nat.toDigits 10 m) = Nat.toDigits 10 m := by
  have hmod : m % 10 ≠ 0 := fun h => h10 (Nat.dvd_of_mod_eq_zero h)
  have hc := digitChar_ne_zero (m % 10) hmod (Nat.mod_lt _ (by norm_num))
  rw [toDigits_eq_digits m hm, Nat.digits_def' (by norm_num) hm]
  simp [stripZeros, List.dropWhile, hc]

theorem toDigits_mul_pow (m z : ℕ) (hm : 0 < m) :
    Nat.toDigits 10 (m * 10 ^ z) = Nat.toDigits 10 m ++ List.replicate z '0' := by
  rw [toDigits_eq_digits m hm, toDigits_eq_digits (m * 10 ^ z) (by positivity), mul_comm,
    Nat.digits_base_pow_mul (by norm_num) hm]
  simp [Nat.digitChar]

theorem toDigits_length (m : ℕ) (hm : 0 < m) : (Nat.toDigits 10 m).length = Nat.log 10 m + 1 := by
  rw [toDigits_eq_digits m hm]
  simp [Nat.digits_len 10 m (by norm_num) (by omega)]

theorem formatDecimal_natCast (m z : ℕ) (hm : 0 < m) (h10 : ¬ 10 ∣ m) (h : m * 10 ^ z < 10 ^ 15) :
    formatDecimal (m : ℤ) (z : ℤ) = toString (m * 10 ^ z) := by
  have hlen := toDigits_length m hm
  have hbound : Nat.log 10 m + z < 15 := by
    have h1 : 10 ^ Nat.log 10 m ≤ m := Nat.pow_log_le_self 10 (by omega)
    have h2 : 10 ^ (Nat.log 10 m + z) ≤ m * 10 ^ z := by
      rw [pow_add]
      exact Nat.mul_le_mul_right _ h1
    exact (Nat.pow_lt_pow_iff_right (by norm_num : 1 < 10)).mp (lt_of_le_of_lt h2 h)
  have hall : (toString ((m : ℤ).toNat)).data = Nat.toDigits 10 m := rfl
  unfold formatDecimal
  simp only [hall, stripZeros_toDigits m hm h10, hlen]
  have c1 : (-5 : ℤ) ≤ ((Nat.log 10 m + 1 : ℕ) : ℤ) + (z : ℤ) ∧
      ((Nat.log 10 m + 1 : ℕ) : ℤ) + (z : ℤ) ≤ 21 := by
    constructor <;> push_cast <;> omega
  have c2 : ((Nat.log 10 m + 1 : ℕ) : ℤ) ≤ ((Nat.log 10 m + 1 : ℕ) : ℤ) + (z : ℤ) := by omega
  have c3 : (((Nat.log 10 m + 1 : ℕ) : ℤ) + (z : ℤ) - ((Nat.log 10 m + 1 : ℕ) : ℤ)).toNat = z := by
    simp
  rw [if_pos c1, if_pos c2, c3]
  apply String.ext
  show (String.mk (Nat.toDigits 10 m) ++ zeros z).data = Nat.toDigits 10 (m * 10 ^ z)
  rw [String.data_append, toDigits_mul_pow m z hm]
  rfl

theorem numberToString_natCast (n : ℕ) (h : n < 10 ^ 15) :
    numberToString (n : ℚ) = toString n ∧
    (0 < n → numberToString (-(n : ℚ)) = "-" ++ toString n) := by
  have h53 : n < 2 ^ 53 := lt_trans h (by norm_num)
  have habs : |(n : ℚ)| = (n : ℚ) := abs_of_nonneg (by positivity)
  rcases Nat.eq_zero_or_pos n with rfl | hn
  · refine ⟨by decide!, fun h0 => absurd h0 (by decide)⟩
  · obtain ⟨m, z, hmz, h10, hm, hs⟩ := shortestDecimal_natCast n hn h
    have hfmt := formatDecimal_natCast m z hm h10 (hmz ▸ h)
    rw [← hmz] at hfmt
    have hne : ¬ (n : ℚ) = 0 := by exact_mod_cast (by omega : n ≠ 0)
    have hneg : ¬ (n : ℚ) < 0 := not_lt.mpr (by positivity)
    have hneg' : -(n : ℚ) < 0 := by
      have : (0 : ℚ) < n := by exact_mod_cast hn
      linarith
    constructor
    · unfold numberToString
      rw [habs, roundToDouble_natCast n h53]
      simp only [hne, if_false, hneg, hs, hfmt]
      rfl
    · intro _
      unfold numberToString
      rw [abs_neg, habs, roundToDouble_natCast n h53]
      simp only [hne, if_false, hneg', if_true, hs, hfmt]

/-- Integers of at most 15 digits print as their decimal digits. -/
theorem numberToString_intCast (z : ℤ) (h : |z| < 10 ^ 15) :
    numberToString (z : ℚ) = toString z := by
  rcases z with n | n
  · have hn : n < 10 ^ 15 := by
      have : ((n : ℤ)) < 10 ^ 15 := by simpa using h
      exact_mod_cast this
    exact (numberToString_natCast n hn).1
  · have hn : n + 1 < 10 ^ 15 := by
      have h' : |Int.negSucc n| = ((n + 1 : ℕ) : ℤ) := by
        rw [Int.negSucc_eq]
        rw [abs_neg]
        exact abs_of_nonneg (by positivity)
      rw [h'] at h
      exact_mod_cast h
    have := (numberToString_natCast (n + 1) hn).2 (by omega)
    rw [Int.negSucc_eq]
    push_cast at this ⊢
    rw [this]
    rfl

/-- The string forms of some numbers: integers, fractions, a number from which on the
exponent form is used, and a literal that is not a double. -/
theorem numberToString_examples :
    numberToString 0 = "0" ∧ numberToString 42 = "42" ∧ numberToString (-7) = "-7" ∧
    numberToString 1.5 = "1.5" ∧ numberToString 0.1 = "0.1" ∧
    numberToString 123456789012345680000 = "123456789012345680000" ∧
    numberToString 1e21 = "1e+21" ∧ numberToString 0.000001 = "0.000001" ∧
    numberToString 1e-7 = "1e-7" ∧
    numberToString 9007199254740993 = "9007199254740992" := by
  refine ⟨?_, ?_, ?_, ?_, ?_, ?_, ?_, ?_, ?_, ?_⟩ <;> decide!

/-! ## Claims on the application context -/

/-- C1: for every application state and every pair `(sid, fname)`, `setDataset(sid, fname)`
yields a state with `sessionId = sid`, `filename = fname`, `summary = null`, an empty
`cleaningLog`, and the theme it had before. -/
theorem setDataset_resets (st : AppState) (sid fname : Val) :
    (setDataset sid fname st).sessionId = sid ∧
    (setDataset sid fname st).filename = fname ∧
    (setDataset sid fname st).summary = Val.null ∧
    (setDataset sid fname st).cleaningLog = [] ∧
    (setDataset sid fname st).theme = st.theme := by
  refine ⟨rfl, rfl, rfl, rfl, rfl⟩

/-- C2: for every cleaning log `L` and entry `e`, `addCleaningLog(e)` yields a log of length
`|L| + 1` whose first element has the `label`, `before`, `after` and `message` of `e` and a
`time` field, and whose remaining elements are exactly `L`, in order. -/
theorem addCleaningLog_prepends (st : AppState) (now : String) (e : Obj) :
    (addCleaningLog now e st).cleaningLog.length = st.cleaningLog.length + 1 ∧
    ∃ head : Obj,
      (addCleaningLog now e st).cleaningLog = head :: st.cleaningLog ∧
      Obj.get head "label" = Obj.get e "label" ∧
      Obj.get head "before" = Obj.get e "before" ∧
      Obj.get head "after" = Obj.get e "after" ∧
      Obj.get head "message" = Obj.get e "message" ∧
      Obj.get head "time" = Val.str now := by
  refine ⟨by simp [addCleaningLog, setCleaningLog], Obj.set "time" (.str now) e, rfl, ?_, ?_, ?_, ?_, ?_⟩
  · exact Obj.get_set_other _ _ _ _ (by decide)
  · exact Obj.get_set_other _ _ _ _ (by decide)
  · exact Obj.get_set_other _ _ _ _ (by decide)
  · exact Obj.get_set_other _ _ _ _ (by decide)
  · exact Obj.get_set_self _ _ _

/-! ## Claims on the request layer -/

/-- C9: for every session id `s`, each of the nine wrappers issues exactly one request, with
the method and path of its row of the endpoint table and the query parameter
`session_id = s`; `cleanMissing` sends the body `{strategy}`, the strategy being `'mean'` when
omitted, and `fetchPreview` sends `n`, which is 50 when omitted. -/
theorem api_wrappers_follow_table (sid : String) (n strategy : Val) :
    let s := Val.str sid
    IssuesOne (fetchPreview s n) .GET "/preview" s ∧
    IssuesOne (fetchSummary s) .GET "/summary" s ∧
    IssuesOne (cleanMissing s strategy) .POST "/clean/missing" s ∧
    IssuesOne (cleanDuplicates s) .POST "/clean/duplicates" s ∧
    IssuesOne (cleanOutliers s) .POST "/clean/outliers" s ∧
    IssuesOne (cleanNormalize s) .POST "/clean/normalize" s ∧
    IssuesOne (cleanStandardize s) .POST "/clean/standardize" s ∧
    IssuesOne (fetchVisualize s) .GET "/visualize" s ∧
    IssuesOne (resetDataset s) .POST "/reset" s ∧
    (∃ r, cleanMissing s strategy = [r] ∧
      r.body = Body.json [("strategy", defaultArg strategy (.str "mean"))]) ∧
    (∃ r, cleanMissing s .undefined = [r] ∧ r.body = Body.json [("strategy", .str "mean")]) ∧
    (∃ r, fetchPreview s n = [r] ∧ r.params.lookup "n" = some (defaultArg n (.num 50))) ∧
    (∃ r, fetchPreview s .undefined = [r] ∧ r.params.lookup "n" = some (.num 50)) := by
  intro s
  refine ⟨⟨_, rfl, rfl, rfl, ?_, ?_⟩, ⟨_, rfl, rfl, rfl, ?_, ?_⟩, ⟨_, rfl, rfl, rfl, ?_, ?_⟩,
    ⟨_, rfl, rfl, rfl, ?_, ?_⟩, ⟨_, rfl, rfl, rfl, ?_, ?_⟩, ⟨_, rfl, rfl, rfl, ?_, ?_⟩,
    ⟨_, rfl, rfl, rfl, ?_, ?_⟩, ⟨_, rfl, rfl, rfl, ?_, ?_⟩, ⟨_, rfl, rfl, rfl, ?_, ?_⟩,
    ⟨_, rfl, rfl⟩, ⟨_, rfl, rfl⟩, ⟨_, rfl, ?_⟩, ⟨_, rfl, ?_⟩⟩
  all_goals first
    | (simp [endpointTable, Body.fieldNames]; done)
    | (simp [List.lookup]; done)
    | rfl

/-! ## Claims on the upload page -/

/-- C7: for `onDrop(accepted, rejected)` with a non-empty `accepted`, the dropped file is
selected exactly when `rejected` is empty and `accepted[0].size` is at most 50 * 1024 * 1024
bytes.  When selected, `file` becomes `accepted[0]` and `preview`, `sessionDone`,
`uploadProgress` become `null`, `null`, `0`; otherwise the four cells keep their values and
an error notification is shown. -/
theorem onDrop_selects (w : World UploadPage) (f : File) (rest : List File)
    (rejected : List FileRejection) :
    ∃ w', onDrop (f :: rest) rejected w = some w' ∧ w'.ctx = w.ctx ∧
      ((rejected = [] ∧ f.size ≤ 50 * 1024 * 1024) →
        w'.page.file = some f ∧ w'.page.preview = .null ∧ w'.page.sessionDone = .null ∧
        w'.page.uploadProgress = 0 ∧
        w'.trace = w.trace ++
          [.set .file, .set .preview, .set .sessionDone, .set .uploadProgress]) ∧
      (¬ (rejected = [] ∧ f.size ≤ 50 * 1024 * 1024) →
        w'.page.file = w.page.file ∧ w'.page.preview = w.page.preview ∧
        w'.page.sessionDone = w.page.sessionDone ∧
        w'.page.uploadProgress = w.page.uploadProgress ∧
        ∃ msg, w'.trace = w.trace ++ [.toastError msg]) := by
  cases rejected with
  | cons r rs =>
    refine ⟨w.emit (.toastError (.str "Only CSV and XLSX files are supported.")),
      by simp [onDrop], rfl, ?_, ?_⟩
    · rintro ⟨h, _⟩
      exact absurd h (by simp)
    · intro _
      exact ⟨rfl, rfl, rfl, rfl, _, rfl⟩
  | nil =>
    by_cases hsz : f.size ≤ 50 * 1024 * 1024
    · have hgt : ¬ f.size > MAX_MB * 1024 * 1024 := by
        simp only [MAX_MB]; omega
      refine ⟨w |> setFile (some f) |> setPreview .null |> setSessionDone .null
          |> setUploadProgress 0, by simp [onDrop, hgt], rfl, ?_, ?_⟩
      · intro _
        exact ⟨rfl, rfl, rfl, rfl, by
          simp [setUploadProgress, setSessionDone, setPreview, setFile, World.setPage]⟩
      · intro h
        exact absurd ⟨rfl, hsz⟩ h
    · have hgt : f.size > MAX_MB * 1024 * 1024 := by
        simp only [MAX_MB]; omega
      refine ⟨w.emit (.toastError
          (.str ("File too large. Max size is " ++ toString MAX_MB ++ " MB."))),
        by simp [onDrop, hgt], rfl, ?_, ?_⟩
      · rintro ⟨_, h⟩
        exact absurd h hsz
      · intro _
        exact ⟨rfl, rfl, rfl, rfl, _, rfl⟩

/-- A file of exactly 50 MB dropped on the fresh page is selected. -/
theorem onDrop_selects_witness :
    ∃ w', onDrop [⟨"data.csv", 52428800⟩] [] ⟨AppState.init .null, UploadPage.init, []⟩ = some w' ∧
      w'.page.file = some ⟨"data.csv", 52428800⟩ := by
  obtain ⟨w', h, _, hsel, _⟩ :=
    onDrop_selects ⟨AppState.init .null, UploadPage.init, []⟩ ⟨"data.csv", 52428800⟩ [] []
  exact ⟨w', h, (hsel ⟨rfl, by decide⟩).1⟩

/-- C8: in every state of the upload page reachable from its initial state through `onDrop`
calls and the clear button (and runs of `handleUpload`), the selected file is `null` or has
at most 50 MB; hence every upload request `handleUpload` issues, then or earlier, carries a
file of at most 50 MB, and `handleUpload` does nothing at all, so issues no request, when
no file is selected. -/
theorem upload_respects_size_limit (w : World UploadPage) (h : UploadReachable w) :
    (w.page.file = none ∨ ∃ f, w.page.file = some f ∧ f.size ≤ 50 * 1024 * 1024) ∧
    (∀ up progress pv sm sf, ∀ r file,
      Event.request r ∈ (handleUpload up progress pv sm sf w).trace →
      r.body = Body.form file → file.size ≤ 50 * 1024 * 1024) ∧
    (w.page.file = none → ∀ up progress pv sm sf, handleUpload up progress pv sm sf w = w) := by
  obtain ⟨hfile, htrace⟩ := uploadReachable_inv w h
  refine ⟨?_, ?_, ?_⟩
  · cases hf : w.page.file with
    | none => exact Or.inl rfl
    | some f => exact Or.inr ⟨f, rfl, hfile f hf⟩
  · intro up progress pv sm sf r file hr hbody
    have := handleUpload_traceOk up progress pv sm sf w htrace hfile _ hr
    simp only [Event.withinLimit, hbody] at this
    exact this
  · intro hnone up progress pv sm sf
    simp [handleUpload, hnone]

/-- The fresh page after a 10-byte file was dropped is reachable, and its selected file
is within the limit. -/
theorem upload_respects_size_limit_witness :
    UploadReachable (setUploadProgress 0 (setSessionDone .null (setPreview .null
      (setFile (some ⟨"data.csv", 10⟩) ⟨AppState.init .null, UploadPage.init, []⟩)))) ∧
    ∃ f, some (⟨"data.csv", 10⟩ : File) = some f ∧ f.size ≤ 50 * 1024 * 1024 := by
  have hr : UploadReachable (setUploadProgress 0 (setSessionDone .null (setPreview .null
      (setFile (some ⟨"data.csv", 10⟩) ⟨AppState.init .null, UploadPage.init, []⟩)))) :=
    UploadReachable.drop [⟨"data.csv", 10⟩] [] (UploadReachable.start (AppState.init .null))
      (by simp [onDrop, MAX_MB])
  refine ⟨hr, ?_⟩
  rcases (upload_respects_size_limit _ hr).1 with h | h
  · exact absurd h (by simp [setUploadProgress, setSessionDone, setPreview, setFile,
      World.setPage])
  · exact h

/-- C5, as stated, fails: in the run in which all three requests succeed, the summary
request is issued before the preview result is stored. -/
theorem handleUpload_summary_before_preview_stored :
    ¬ OnlyAfter (Event.isSet .preview) (Event.isRequestTo "/summary")
      (handleUpload (.resolved sampleUploadData) [] (.resolved (.obj [])) (.resolved (.obj []))
        false sampleUploadWorld).trace :=
  not_onlyAfter_of_scanFirst _ _ _ (by decide)

/-- C5, amended: in every run of `handleUpload`, the preview and the summary request are
issued only after the upload result has been stored (`setDataset`, whose last setter is
`setCleaningLog`, then `setSessionDone`), which happens only after the upload request.  The
two requests are issued together: the summary request comes directly after the preview
request, with no effect in between, and whenever the preview request is issued so is the
summary request.  `setPreview` runs only after both requests have been issued, and
`setSummary` runs only directly after `setFilename` (inside `setDataset`) or directly after
`setPreview`.  `setPreview` runs only when both requests have succeeded, and then the
preview and the context summary hold the two results.  For a selected file and an upload
that resolved with an object: when both requests succeed, the effects are those before the
upload settles, the storing of the upload result, the two requests, then `setPreview`,
`setSummary`, one notification and `setLoading(false)`; when one of them fails, the two
requests are followed by the error notification and `setLoading(false)` only, the preview
is as before the run and the context summary is the `null` that `setDataset` stored. -/
theorem handleUpload_stage_order (ctx : AppState) (page : UploadPage) (up : Outcome)
    (progress : List Int) (pv sm : Outcome) (sf : Bool) :
    OnlyAfter (Event.isRequestTo "/upload") (Event.isSet .sessionId)
      (handleUpload up progress pv sm sf ⟨ctx, page, []⟩).trace ∧
    OnlyAfter (Event.isSet .sessionId) (Event.isSet .sessionDone)
      (handleUpload up progress pv sm sf ⟨ctx, page, []⟩).trace ∧
    OnlyAfter (Event.isSet .sessionDone) (Event.isRequestTo "/preview")
      (handleUpload up progress pv sm sf ⟨ctx, page, []⟩).trace ∧
    OnlyAfter (Event.isSet .sessionDone) (Event.isRequestTo "/summary")
      (handleUpload up progress pv sm sf ⟨ctx, page, []⟩).trace ∧
    OnlyAfter (Event.isRequestTo "/preview") (Event.isRequestTo "/summary")
      (handleUpload up progress pv sm sf ⟨ctx, page, []⟩).trace ∧
    OnlyAfter (Event.isRequestTo "/summary") (Event.isSet .preview)
      (handleUpload up progress pv sm sf ⟨ctx, page, []⟩).trace ∧
    OnlyAfter (Event.isSet .cleaningLog) (Event.isSet .sessionDone)
      (handleUpload up progress pv sm sf ⟨ctx, page, []⟩).trace ∧
    DirectlyAfter (Event.isRequestTo "/preview") (Event.isRequestTo "/summary")
      (handleUpload up progress pv sm sf ⟨ctx, page, []⟩).trace ∧
    ((∃ e ∈ (handleUpload up progress pv sm sf ⟨ctx, page, []⟩).trace,
        Event.isRequestTo "/preview" e = true) →
      ∃ e ∈ (handleUpload up progress pv sm sf ⟨ctx, page, []⟩).trace,
        Event.isRequestTo "/summary" e = true) ∧
    DirectlyAfter (fun e => Event.isSet .filename e || Event.isSet .preview e)
      (Event.isSet .summary) (handleUpload up progress pv sm sf ⟨ctx, page, []⟩).trace ∧
    ((∃ e ∈ (handleUpload up progress pv sm sf ⟨ctx, page, []⟩).trace,
        Event.isSet .preview e = true) →
      ∃ prevData sumData, pv = .resolved prevData ∧ sm = .resolved sumData ∧
        (handleUpload up progress pv sm sf ⟨ctx, page, []⟩).page.preview = prevData ∧
        (handleUpload up progress pv sm sf ⟨ctx, page, []⟩).ctx.summary = sumData) ∧
    (∀ (file : File) (d : Obj), page.file = some file → up = .resolved (.obj d) →
      (∀ prevData sumData, pv = .resolved prevData → sm = .resolved sumData →
        (∃ note, (handleUpload up progress pv sm sf ⟨ctx, page, []⟩).trace =
          uploadHead file progress ++ uploadStored (Obj.get d "session_id") ++
            [.set .preview, .set .summary, note, .set .loading]) ∧
        (handleUpload up progress pv sm sf ⟨ctx, page, []⟩).page.preview = prevData ∧
        (handleUpload up progress pv sm sf ⟨ctx, page, []⟩).ctx.summary = sumData) ∧
      (pv.failed = true ∨ sm.failed = true →
        (∃ msg, (handleUpload up progress pv sm sf ⟨ctx, page, []⟩).trace =
          uploadHead file progress ++ uploadStored (Obj.get d "session_id") ++
            [.toastError msg, .set .loading]) ∧
        (handleUpload up progress pv sm sf ⟨ctx, page, []⟩).page.preview = page.preview ∧
        (handleUpload up progress pv sm sf ⟨ctx, page, []⟩).ctx.summary = .null)) := by
  have hmem : ∀ (file : File) (x : Event), x ∈ uploadHead file progress →
      Event.isSet .preview x = false ∧ Event.isRequestTo "/preview" x = false := by
    intro file x hx
    rcases mem_uploadHead file progress x hx with rfl | rfl | rfl <;>
      simp [Event.isSet, Event.isRequestTo]
  refine ⟨?_, ?_, ?_, ?_, ?_, ?_, ?_, ?_, ?_, ?_, ?_, ?_⟩
  iterate 7
    refine handleUpload_onlyAfter _ _ rfl rfl rfl rfl ?_ ?_ ?_ ctx page up progress pv sm sf <;>
      (intros; simp [scanFirst, uploadStored, uploadFile, fetchPreview, fetchSummary, api.get,
        api.post, Event.isSet, Event.isRequestTo] at *)
  · refine handleUpload_directlyAfter _ _ ?_ ?_ ?_ ?_ ctx page up progress pv sm sf
    · intro file progress x hx
      rcases mem_uploadHead file progress x hx with rfl | rfl | rfl <;>
        simp [Event.isSet, Event.isRequestTo]
    all_goals
      intros
      simp [scanDirect, uploadStored, fetchPreview, fetchSummary, api.get, Event.isSet,
        Event.isRequestTo]
  · rintro ⟨e, he, hq⟩
    rcases handleUpload_trace_cases ctx page up progress pv sm sf with
      h | ⟨file, msg, h⟩ | ⟨file, sid, msg, -, h⟩ | ⟨file, sid, msg, _, _, -, -, h, -, -⟩
    · rw [h] at he
      simp at he
    · rw [h] at he
      rcases List.mem_append.mp he with he | he
      · rw [(hmem file e he).2] at hq
        cases hq
      · simp only [List.mem_cons, List.mem_singleton, List.not_mem_nil, or_false] at he
        rcases he with rfl | rfl <;> simp [Event.isRequestTo] at hq
    · rw [h]
      exact ⟨.request ⟨.GET, "/summary", [("session_id", sid)], .none, []⟩,
        by simp [uploadStored, fetchSummary, api.get], by simp [Event.isRequestTo]⟩
    · rw [h]
      exact ⟨.request ⟨.GET, "/summary", [("session_id", sid)], .none, []⟩,
        by simp [uploadStored, fetchSummary, api.get], by simp [Event.isRequestTo]⟩
  · refine handleUpload_directlyAfter _ _ ?_ ?_ ?_ ?_ ctx page up progress pv sm sf
    · intro file progress x hx
      rcases mem_uploadHead file progress x hx with rfl | rfl | rfl <;>
        simp [Event.isSet]
    all_goals
      intros
      simp [scanDirect, uploadStored, fetchPreview, fetchSummary, api.get, Event.isSet]
  · rintro ⟨e, he, hq⟩
    rcases handleUpload_trace_cases ctx page up progress pv sm sf with
      h | ⟨file, msg, h⟩ | ⟨file, sid, msg, -, h⟩ |
      ⟨file, sid, msg, prevData, sumData, hpv, hsm, -, hp, hs⟩
    · rw [h] at he
      simp at he
    · rw [h] at he
      rcases List.mem_append.mp he with he | he
      · rw [(hmem file e he).1] at hq
        cases hq
      · simp only [List.mem_cons, List.mem_singleton, List.not_mem_nil, or_false] at he
        rcases he with rfl | rfl <;> simp [Event.isSet] at hq
    · rw [h, List.append_assoc] at he
      rcases List.mem_append.mp he with he | he
      · rw [(hmem file e he).1] at hq
        cases hq
      · have hno : ∀ x ∈ uploadStored sid ++ [Event.toastError msg, .set .loading],
            Event.isSet .preview x = false := by
          simp [uploadStored, fetchPreview, fetchSummary, api.get, Event.isSet]
        rw [hno e he] at hq
        cases hq
    · exact ⟨prevData, sumData, hpv, hsm, hp, hs⟩
  · intro file d hfile hup
    subst hup
    obtain ⟨w1, htr, -, hprev, -, heq⟩ :=
      handleUpload_trace ctx page file hfile (.resolved (.obj d)) progress pv sm sf
    have hhead : w1.trace = uploadHead file progress := htr
    rw [heq]
    constructor
    · intro prevData sumData hpv hsm
      subst hpv hsm
      refine ⟨?_, rfl, rfl⟩
      exact ⟨_, by
        simp only [handleUpload.afterUpload, Val.getProp, UploadPage.setLoading, World.setPage,
          World.setCtx, World.setDataset, World.emit, World.issue, setSessionDone, setPreview,
          hhead, uploadStored, List.append_assoc, List.singleton_append, List.cons_append,
          List.nil_append]
        rfl⟩
    · intro hfail
      cases pv <;> cases sm <;> simp only [Outcome.failed, or_self, Bool.false_eq_true] at hfail
      all_goals
        refine ⟨?_, ?_, ?_⟩
        · exact ⟨_, by
            simp only [handleUpload.afterUpload, Val.getProp, UploadPage.setLoading,
              World.setPage, World.setCtx, World.setDataset, World.emit, World.issue,
              setSessionDone, handleUpload.onError, hhead, uploadStored, List.append_assoc,
              List.singleton_append, List.cons_append, List.nil_append]
            rfl⟩
        · simp only [handleUpload.afterUpload, Val.getProp, UploadPage.setLoading,
            World.setPage, handleUpload.onError, World.emit, World.issue, setSessionDone,
            World.setDataset, World.setCtx, hprev]
        · simp only [handleUpload.afterUpload, Val.getProp, UploadPage.setLoading,
            World.setPage, handleUpload.onError, World.emit, World.issue, setSessionDone,
            World.setDataset, World.setCtx, setDataset, setCleaningLog, setSummary]

/-- On the sample page with the upload of `sampleUploadData`: when preview and summary
resolve with `"p"` and `"s"`, `setPreview` runs and the two results are stored; when the
summary request fails, the trace ends with the error notification directly after the two
requests, and the preview stays `null`. -/
theorem handleUpload_stage_order_witness :
    (∃ prevData sumData, Outcome.resolved (.str "p") = .resolved prevData ∧
      Outcome.resolved (.str "s") = .resolved sumData ∧
      (handleUpload (.resolved sampleUploadData) [] (.resolved (.str "p")) (.resolved (.str "s"))
        false sampleUploadWorld).page.preview = prevData ∧
      (handleUpload (.resolved sampleUploadData) [] (.resolved (.str "p")) (.resolved (.str "s"))
        false sampleUploadWorld).ctx.summary = sumData) ∧
    ((∃ msg, (handleUpload (.resolved sampleUploadData) [] (.resolved (.str "p"))
        (.rejected networkError) false sampleUploadWorld).trace =
        uploadHead ⟨"data.csv", 10⟩ [] ++
          uploadStored (Obj.get [("session_id", .str "s1"), ("filename", .str "data.csv"),
            ("rows", .num 3), ("columns", .num 2)] "session_id") ++
          [.toastError msg, .set .loading]) ∧
      (handleUpload (.resolved sampleUploadData) [] (.resolved (.str "p"))
        (.rejected networkError) false sampleUploadWorld).page.preview = .null ∧
      (handleUpload (.resolved sampleUploadData) [] (.resolved (.str "p"))
        (.rejected networkError) false sampleUploadWorld).ctx.summary = .null) :=
  ⟨(handleUpload_stage_order (AppState.init .null)
      { UploadPage.init with file := some ⟨"data.csv", 10⟩ } (.resolved sampleUploadData) []
      (.resolved (.str "p")) (.resolved (.str "s")) false).2.2.2.2.2.2.2.2.2.2.1
      ⟨.set .preview, by
        show Event.set .preview ∈ [Event.set Slot.loading,
          .request ⟨.POST, "/upload", [], .form ⟨"data.csv", 10⟩,
            [("Content-Type", "multipart/form-data")]⟩,
          .set .sessionId, .set .filename, .set .summary, .set .cleaningLog, .set .sessionDone,
          .request ⟨.GET, "/preview", [("session_id", .str "s1"), ("n", .num 50)], .none, []⟩,
          .request ⟨.GET, "/summary", [("session_id", .str "s1")], .none, []⟩,
          .set .preview, .set .summary, .toastSuccess _, .set .loading]
        simp, rfl⟩,
   ((handleUpload_stage_order (AppState.init .null)
      { UploadPage.init with file := some ⟨"data.csv", 10⟩ } (.resolved sampleUploadData) []
      (.resolved (.str "p")) (.rejected networkError) false).2.2.2.2.2.2.2.2.2.2.2
      ⟨"data.csv", 10⟩ _ rfl rfl).2 (Or.inr rfl)⟩

/-- C6, as stated, fails: when the upload succeeds and the preview request fails, an error
notification is shown but the context already holds the new session. -/
theorem handleUpload_preview_failure_changes_state :
    (∃ msg, Event.toastError msg ∈
      (handleUpload (.resolved sampleUploadData) [] (.rejected networkError) (.resolved (.obj []))
        false sampleUploadWorld).trace) ∧
    ¬ SameClientState sampleUploadWorld
      (handleUpload (.resolved sampleUploadData) [] (.rejected networkError) (.resolved (.obj []))
        false sampleUploadWorld) := by
  constructor
  · refine ⟨.str "Upload failed. Please try again.", ?_⟩
    have htr : (handleUpload (.resolved sampleUploadData) [] (.rejected networkError)
        (.resolved (.obj [])) false sampleUploadWorld).trace =
        [.set .loading, .request ⟨.POST, "/upload", [], .form ⟨"data.csv", 10⟩,
            [("Content-Type", "multipart/form-data")]⟩,
          .set .sessionId, .set .filename, .set .summary, .set .cleaningLog, .set .sessionDone,
          .request ⟨.GET, "/preview", [("session_id", .str "s1"), ("n", .num 50)], .none, []⟩,
          .request ⟨.GET, "/summary", [("session_id", .str "s1")], .none, []⟩,
          .toastError (.str "Upload failed. Please try again."), .set .loading] := rfl
    rw [htr]
    simp
  · intro h
    have h1 : Val.str "s1" = Val.null := h.1
    cases h1

/-- C6, amended: a failing request of `handleUpload` leads to an error notification.  When
it is the upload request, the context cells `sessionId`, `filename`, `summary`,
`cleaningLog` and the page cells `preview`, `sessionDone` are as before the attempt.  When
it is the preview or the summary request, the upload result stays stored: the context is
the one `setDataset(session_id, filename)` produced, `sessionDone` holds
`{session_id, rows, columns}`, and `preview` is as before the attempt. -/
theorem handleUpload_failure_state (ctx : AppState) (page : UploadPage) (file : File)
    (hfile : page.file = some file) (progress : List Int) (pv sm : Outcome) (sf : Bool) :
    (∀ err,
      Event.toastError (Val.or (serverError err) (.str "Upload failed. Please try again.")) ∈
        (handleUpload (.rejected err) progress pv sm sf ⟨ctx, page, []⟩).trace ∧
      SameClientState ⟨ctx, page, []⟩
        (handleUpload (.rejected err) progress pv sm sf ⟨ctx, page, []⟩)) ∧
    (∀ d : Obj, pv.failed = true ∨ sm.failed = true →
      (handleUpload (.resolved (.obj d)) progress pv sm sf ⟨ctx, page, []⟩).trace.any
        Event.isToastError = true ∧
      (handleUpload (.resolved (.obj d)) progress pv sm sf ⟨ctx, page, []⟩).ctx =
        setDataset (Obj.get d "session_id") (Obj.get d "filename") ctx ∧
      (handleUpload (.resolved (.obj d)) progress pv sm sf ⟨ctx, page, []⟩).page.sessionDone =
        .obj [("session_id", Obj.get d "session_id"), ("rows", Obj.get d "rows"),
          ("columns", Obj.get d "columns")] ∧
      (handleUpload (.resolved (.obj d)) progress pv sm sf ⟨ctx, page, []⟩).page.preview =
        page.preview) := by
  constructor
  · intro err
    obtain ⟨w1, -, hctx, hprev, hsd, heq⟩ :=
      handleUpload_trace ctx page file hfile (.rejected err) progress pv sm sf
    rw [heq]
    refine ⟨?_, ?_⟩
    · simp [UploadPage.setLoading, World.setPage, handleUpload.onError, World.emit]
    · simp only [SameClientState, UploadPage.setLoading, World.setPage, handleUpload.onError,
        World.emit, hctx, hprev, hsd, and_self]
  · intro d hfail
    obtain ⟨w1, -, hctx, hprev, hsd, heq⟩ :=
      handleUpload_trace ctx page file hfile (.resolved (.obj d)) progress pv sm sf
    rw [heq]
    cases pv <;> cases sm <;> simp only [Outcome.failed, or_self, Bool.false_eq_true] at hfail
    all_goals
      refine ⟨?_, ?_, ?_, ?_⟩
      · simp [handleUpload.afterUpload, Val.getProp, UploadPage.setLoading, World.setPage,
          handleUpload.onError, World.emit, Event.isToastError]
      · simp only [handleUpload.afterUpload, Val.getProp, UploadPage.setLoading, World.setPage,
          handleUpload.onError, World.emit, World.issue, setSessionDone, World.setDataset,
          World.setCtx, hctx, setDataset]
      · simp only [handleUpload.afterUpload, Val.getProp, UploadPage.setLoading, World.setPage,
          handleUpload.onError, World.emit, World.issue, setSessionDone, World.setDataset,
          World.setCtx]
      · simp only [handleUpload.afterUpload, Val.getProp, UploadPage.setLoading, World.setPage,
          handleUpload.onError, World.emit, World.issue, setSessionDone, World.setDataset,
          World.setCtx, hprev]

/-- On the sample page, a failed upload request leaves the context and the preview
untouched, and a failed summary request after the upload of `sampleUploadData` leaves the
session `s1` in the context. -/
theorem handleUpload_failure_state_witness :
    SameClientState sampleUploadWorld
      (handleUpload (.rejected .null) [] (.rejected .null) (.rejected .null) false
        sampleUploadWorld) ∧
    (handleUpload (.resolved sampleUploadData) [] (.resolved (.obj [])) (.rejected .null) false
      sampleUploadWorld).ctx =
      setDataset (.str "s1") (.str "data.csv") (AppState.init .null) :=
  ⟨((handleUpload_failure_state (AppState.init .null)
      { UploadPage.init with file := some ⟨"data.csv", 10⟩ } ⟨"data.csv", 10⟩ rfl []
      (.rejected .null) (.rejected .null) false).1 .null).2,
   ((handleUpload_failure_state (AppState.init .null)
      { UploadPage.init with file := some ⟨"data.csv", 10⟩ } ⟨"data.csv", 10⟩ rfl []
      (.resolved (.obj [])) (.rejected .null) false).2 _ (Or.inr rfl)).2.1⟩

/-! ## Claims on the clean dashboard -/

/-- C3: when the action buttons are on screen and the request of a cleaning action
succeeds with response data `d`, `runAction(label, fn)` puts exactly one entry
`{label, before, after, message}` of `d` (with its `time`) at the head of `cleaningLog`,
and afterwards requests the summary of the same session; the response of that request
becomes the new summary when it succeeds. -/
theorem runAction_success (w : World DashPage) (hr : actionsRendered w = true)
    (now label : String) (fn : List Request) (d : Obj) (summary : Outcome) :
    (runAction now label fn (.resolved (.obj d)) summary w).ctx.cleaningLog =
      [("label", .str label), ("before", Obj.get d "before"), ("after", Obj.get d "after"),
        ("message", Obj.get d "message"), ("time", .str now)] :: w.ctx.cleaningLog ∧
    (runAction now label fn (.resolved (.obj d)) summary w).ctx.sessionId = w.ctx.sessionId ∧
    (runAction now label fn (.resolved (.obj d)) summary w).ctx.filename = w.ctx.filename ∧
    (runAction now label fn (.resolved (.obj d)) summary w).trace =
      w.trace ++ [.set .loading, .set .loadingMsg] ++ fn.map Event.request ++
        [.set .cleaningLog, .toastSuccess (Obj.get d "message"), .set .loading, .set .loadingMsg,
          .request ⟨.GET, "/summary", [("session_id", w.ctx.sessionId)], .none, []⟩,
          (match summary with
            | .resolved _ => Event.set .summary
            | .rejected _ => Event.toastError (.str "Failed to load summary.")),
          .set .loading, .set .loading] ∧
    (runAction now label fn (.resolved (.obj d)) summary w).ctx.summary =
      (match summary with
        | .resolved data => data
        | .rejected _ => w.ctx.summary) := by
  have hs : w.ctx.sessionId.truthy = true := by
    simp only [actionsRendered, Bool.and_eq_true] at hr
    exact hr.1.1
  have ht : ("label" = "time") = False := by decide
  have ht2 : ("before" = "time") = False := by decide
  have ht3 : ("after" = "time") = False := by decide
  have ht4 : ("message" = "time") = False := by decide
  cases summary <;>
    simp [runAction, loadSummary, Val.getProp, DashPage.setLoading, DashPage.setLoadingMsg,
      World.setPage, World.setCtx, World.emit, World.issue, addCleaningLog, setCleaningLog,
      setSummary, fetchSummary, api.get, hs, Obj.set, ht, ht2, ht3, ht4]

/-- On the sample dashboard, a successful "Remove Duplicates" puts its entry at the head
of the empty log. -/
theorem runAction_success_witness :
    (runAction "10:00:00" "Remove Duplicates" (cleanDuplicates (.str "s1"))
      (.resolved (.obj [("before", .num 5), ("after", .num 3), ("message", .str "Removed 2")]))
      (.resolved (.obj [("rows", .num 3)])) sampleDashWorld).ctx.cleaningLog =
      [[("label", .str "Remove Duplicates"), ("before", .num 5), ("after", .num 3),
        ("message", .str "Removed 2"), ("time", .str "10:00:00")]] :=
  (runAction_success sampleDashWorld rfl "10:00:00" "Remove Duplicates"
    (cleanDuplicates (.str "s1"))
    [("before", .num 5), ("after", .num 3), ("message", .str "Removed 2")]
    (.resolved (.obj [("rows", .num 3)]))).1

/-- C4: when the request of a cleaning action fails with `err`, `runAction(label, fn)` shows
one error notification, carrying `err.response.data.error` when that is truthy (so the
non-empty error text of the server's response) and `'<label> failed.'` otherwise (so when
there is no response); it issues no request besides those of `fn`, hence no summary request,
and leaves the whole context (`sessionId`, `filename`, `summary`, `cleaningLog`) as it
was. -/
theorem runAction_failure (w : World DashPage) (now label : String) (fn : List Request)
    (err : Val) (summary : Outcome) :
    (runAction now label fn (.rejected err) summary w).ctx = w.ctx ∧
    (runAction now label fn (.rejected err) summary w).trace =
      w.trace ++ [.set .loading, .set .loadingMsg] ++ fn.map Event.request ++
        [.toastError (if (serverError err).truthy then serverError err
            else .str (label ++ " failed.")),
          .set .loading] ∧
    (∀ r, Event.request r ∈ (runAction now label fn (.rejected err) summary w).trace →
      Event.request r ∈ w.trace ∨ r ∈ fn) ∧
    (∀ text : String, serverError (errorResponse (.str text)) = .str text ∧
      ((Val.str text).truthy = true ↔ text ≠ "")) ∧
    (serverError networkError).truthy = false := by
  refine ⟨rfl, ?_, ?_, ?_, rfl⟩
  · simp [runAction, runAction.onError, DashPage.setLoading, DashPage.setLoadingMsg,
      World.setPage, World.emit, World.issue, Val.or]
  · intro r hr
    simp only [runAction, runAction.onError, DashPage.setLoading, DashPage.setLoadingMsg,
      World.setPage, World.emit, World.issue, List.mem_append, List.mem_singleton,
      List.mem_map] at hr
    rcases hr with ((((hr | hr) | hr) | ⟨r', hr', heq⟩) | hr) | hr
    · exact Or.inl hr
    · cases hr
    · cases hr
    · cases heq
      exact Or.inr hr'
    · cases hr
    · cases hr
  · intro text
    refine ⟨rfl, ?_⟩
    simp [Val.truthy]

/-- On the sample dashboard, a failed "Remove Outliers" whose response carries the error
text `Session not found` shows that text and leaves the context unchanged. -/
theorem runAction_failure_witness :
    (runAction "10:00:00" "Remove Outliers" (cleanOutliers (.str "s1"))
      (.rejected (errorResponse (.str "Session not found"))) (.rejected .null)
      sampleDashWorld).ctx = sampleDashWorld.ctx ∧
    (runAction "10:00:00" "Remove Outliers" (cleanOutliers (.str "s1"))
      (.rejected (errorResponse (.str "Session not found"))) (.rejected .null)
      sampleDashWorld).trace =
      [.set .loading, .set .loadingMsg,
        .request ⟨.POST, "/clean/outliers", [("session_id", .str "s1")], .json [], []⟩,
        .toastError (.str "Session not found"), .set .loading] :=
  ⟨(runAction_failure sampleDashWorld "10:00:00" "Remove Outliers" (cleanOutliers (.str "s1"))
      (errorResponse (.str "Session not found")) (.rejected .null)).1,
   (runAction_failure sampleDashWorld "10:00:00" "Remove Outliers" (cleanOutliers (.str "s1"))
      (errorResponse (.str "Session not found")) (.rejected .null)).2.1⟩

/-! ## Claims on the download links -/

/-- C10 at session ids with characters that have a meaning in a query string: the URL
`downloadCleaned` and `downloadReport` navigate to is built without encoding the session
id, so the query read back from it does not carry the session id it was given.  A `+` is
read back as a space; an `&` ends the value and starts further parameters. -/
theorem download_urls_unencoded :
    (navigations (downloadCleaned .undefined (.str "q+8/Zg==") .undefined)).map parseHref =
      [("/api/download", [("session_id", "q 8/Zg=="), ("format", "csv")])] ∧
    (navigations (downloadCleaned .undefined (.str "a&format=xlsx") .undefined)).map parseHref =
      [("/api/download", [("session_id", "a"), ("format", "xlsx"), ("format", "csv")])] ∧
    (navigations (downloadReport .undefined (.str "q+8/Zg=="))).map parseHref =
      [("/api/report", [("session_id", "q 8/Zg==")])] := by
  decide


theorem splitFirst_not_mem (c : Char) (xs : List Char) (h : c ∉ xs) :
    splitFirst c xs = (xs, none) := by
  induction xs with
  | nil => rfl
  | cons x xs ih =>
    have hx : x ≠ c := fun e => h (e ▸ List.mem_cons_self _ _)
    have hxs : c ∉ xs := fun e => h (List.mem_cons_of_mem _ e)
    simp [splitFirst, hx, ih hxs]

theorem splitFirst_append (c : Char) (xs ys : List Char) (h : c ∉ xs) :
    splitFirst c (xs ++ c :: ys) = (xs, some ys) := by
  induction xs with
  | nil => simp [splitFirst]
  | cons x xs ih =>
    have hx : x ≠ c := fun e => h (e ▸ List.mem_cons_self _ _)
    have hxs : c ∉ xs := fun e => h (List.mem_cons_of_mem _ e)
    simp [splitFirst, hx, ih hxs]

theorem splitAll_not_mem (c : Char) (xs : List Char) (h : c ∉ xs) :
    splitAll c xs = [xs] := by
  induction xs with
  | nil => rfl
  | cons x xs ih =>
    have hx : x ≠ c := fun e => h (e ▸ List.mem_cons_self _ _)
    have hxs : c ∉ xs := fun e => h (List.mem_cons_of_mem _ e)
    simp [splitAll, hx, ih hxs]

theorem splitAll_append (c : Char) (xs ys : List Char) (h : c ∉ xs) :
    splitAll c (xs ++ c :: ys) = xs :: splitAll c ys := by
  induction xs with
  | nil => simp [splitAll]
  | cons x xs ih =>
    have hx : x ≠ c := fun e => h (e ▸ List.mem_cons_self _ _)
    have hxs : c ∉ xs := fun e => h (List.mem_cons_of_mem _ e)
    simp [splitAll, hx, ih hxs]

theorem percentDecode_not_mem : ∀ xs : List Char, '%' ∉ xs → percentDecode xs = xs
  | [], _ => rfl
  | [_], _ => rfl
  | [_, _], _ => rfl
  | c :: a :: b :: rest, h => by
    have hc : c ≠ '%' := fun e => h (e ▸ List.mem_cons_self _ _)
    have ih := percentDecode_not_mem (a :: b :: rest) (fun e => h (List.mem_cons_of_mem _ e))
    simp [percentDecode, hc, ih]

theorem formDecode_safe (xs : List Char) (h : ∀ c ∈ xs, querySafe c = true) :
    formDecode xs = String.mk xs := by
  have hplus : xs.map (fun c => if c = '+' then ' ' else c) = xs := by
    have : ∀ c ∈ xs, (if c = '+' then ' ' else c) = c := by
      intro c hc
      have := h c hc
      simp only [querySafe, Bool.and_eq_true, bne_iff_ne, ne_eq] at this
      simp [this.1.2]
    calc xs.map (fun c => if c = '+' then ' ' else c) = xs.map id := List.map_congr_left this
      _ = xs := List.map_id xs
  have hpct : '%' ∉ xs := by
    intro hmem
    have := h _ hmem
    simp [querySafe] at this
  simp only [formDecode, hplus, percentDecode_not_mem xs hpct]

/-- For a session id and a format made of characters without a meaning of their own in a
query, the query read back from the download URL is exactly `session_id`, `format`. -/
theorem download_urls_safe (s f : String) (hs : ∀ c ∈ s.data, querySafe c = true)
    (hf : ∀ c ∈ f.data, querySafe c = true) :
    (navigations (downloadCleaned .undefined (.str s) (.str f))).map parseHref =
      [("/api/download", [("session_id", s), ("format", f)])] ∧
    (navigations (downloadReport .undefined (.str s))).map parseHref =
      [("/api/report", [("session_id", s)])] := by
  have nm : ∀ (c : Char) (t : String), (∀ x ∈ t.data, querySafe x = true) →
      querySafe c = false → c ∉ t.data := by
    intro c t ht hc hmem
    rw [ht c hmem] at hc
    cases hc
  have hq : querySafe '?' = false := rfl
  have hh : querySafe '#' = false := rfl
  have ha : querySafe '&' = false := rfl
  have he : querySafe '=' = false := rfl
  constructor
  · have hhref : (navigations (downloadCleaned .undefined (.str s) (.str f))) =
        [String.mk ("/api/download".data ++ '?' :: (("session_id".data ++ '=' :: s.data) ++
          '&' :: ("format".data ++ '=' :: f.data)))] := by
      simp only [downloadCleaned, navigations, BASE_URL, Val.or, Val.truthy, Val.toStr,
        defaultArg, Bool.false_eq_true, if_false]
      rw [List.cons.injEq]
      refine ⟨?_, rfl⟩
      apply String.ext
      simp only [String.data_append]
      simp
    rw [hhref]
    have h1 : '#' ∉ "/api/download".data ++ '?' :: (("session_id".data ++ '=' :: s.data) ++
          '&' :: ("format".data ++ '=' :: f.data)) := by
      have hs1 := nm '#' s hs hh
      have hf1 := nm '#' f hf hh
      simp only [List.mem_append, List.mem_cons, not_or]
      exact ⟨by decide, by decide, ⟨by decide, by decide, hs1⟩, by decide, by decide,
        by decide, hf1⟩
    have h2 : '&' ∉ "session_id".data ++ '=' :: s.data := by
      have := nm '&' s hs ha
      simp only [List.mem_append, List.mem_cons, not_or]
      exact ⟨by decide, by decide, this⟩
    have h3 : '&' ∉ "format".data ++ '=' :: f.data := by
      have := nm '&' f hf ha
      simp only [List.mem_append, List.mem_cons, not_or]
      exact ⟨by decide, by decide, this⟩
    simp only [List.map_cons, List.map_nil, parseHref, splitFirst_not_mem _ _ h1,
      splitFirst_append '?' "/api/download".data _ (by decide), Option.getD_some, parseQuery,
      splitAll_append '&' _ _ h2, splitAll_not_mem '&' _ h3]
    have f1 : ("session_id".data ++ '=' :: s.data).isEmpty = false := rfl
    have f2 : ("format".data ++ '=' :: f.data).isEmpty = false := rfl
    simp only [List.filter, f1, f2, Bool.not_false, List.map_cons, List.map_nil,
      splitFirst_append '=' "session_id".data _ (by decide),
      splitFirst_append '=' "format".data _ (by decide), Option.getD_some,
      formDecode_safe _ hs, formDecode_safe _ hf]
    rfl
  · have hhref : (navigations (downloadReport .undefined (.str s))) =
        [String.mk ("/api/report".data ++ '?' :: ("session_id".data ++ '=' :: s.data))] := by
      simp only [downloadReport, navigations, BASE_URL, Val.or, Val.truthy, Val.toStr,
        Bool.false_eq_true, if_false]
      rw [List.cons.injEq]
      refine ⟨?_, rfl⟩
      apply String.ext
      simp only [String.data_append]
      simp
    rw [hhref]
    have h1 : '#' ∉ "/api/report".data ++ '?' :: ("session_id".data ++ '=' :: s.data) := by
      have := nm '#' s hs hh
      simp only [List.mem_append, List.mem_cons, not_or]
      exact ⟨by decide, by decide, by decide, by decide, this⟩
    have h2 : '&' ∉ "session_id".data ++ '=' :: s.data := by
      have := nm '&' s hs ha
      simp only [List.mem_append, List.mem_cons, not_or]
      exact ⟨by decide, by decide, this⟩
    simp only [List.map_cons, List.map_nil, parseHref, splitFirst_not_mem _ _ h1,
      splitFirst_append '?' "/api/report".data _ (by decide), Option.getD_some, parseQuery,
      splitAll_not_mem '&' _ h2]
    have f1 : ("session_id".data ++ '=' :: s.data).isEmpty = false := rfl
    simp only [List.filter, f1, Bool.not_false, List.map_cons, List.map_nil,
      splitFirst_append '=' "session_id".data _ (by decide), Option.getD_some,
      formDecode_safe _ hs]
    rfl

/-! ## Claims on the strategy drop-down and on reset -/

/-- C11: in every state of the dashboard reachable from its initial state (by selecting
options of the strategy drop-down and by the other events of the page), the strategy
"Apply to Missing" passes to `cleanMissing` is one of `mean`, `median`, `mode`, `drop`, and
every request to `/clean/missing` issued so far carries one of them.  The initial strategy
is `mean`, and no event other than a selection changes it. -/
theorem dashboard_strategy_recognized (w : World DashPage) (h : DashReachable w) :
    (∃ s ∈ ["mean", "median", "mode", "drop"], w.page.missingStrategy = .str s ∧
      cleanMissing w.ctx.sessionId w.page.missingStrategy =
        [⟨.POST, "/clean/missing", [("session_id", w.ctx.sessionId)],
          .json [("strategy", .str s)], []⟩]) ∧
    (∀ r, Event.request r ∈ w.trace → r.url = "/clean/missing" →
      ∃ s ∈ ["mean", "median", "mode", "drop"], r.body = Body.json [("strategy", .str s)]) ∧
    DashPage.init.missingStrategy = .str "mean" ∧
    (∀ now label fn result summary confirmed t,
      (applyMissing now result summary w).page.missingStrategy = w.page.missingStrategy ∧
      (runAction now label fn result summary w).page.missingStrategy =
        w.page.missingStrategy ∧
      (loadSummary summary w).page.missingStrategy = w.page.missingStrategy ∧
      (handleReset confirmed result summary w).page.missingStrategy =
        w.page.missingStrategy ∧
      (setActiveTab t w).page.missingStrategy = w.page.missingStrategy) := by
  obtain ⟨⟨s, hs, hms⟩, htr⟩ := dashReachable_inv w h
  refine ⟨⟨s, hs, hms, ?_⟩, htr, rfl, ?_⟩
  · rw [hms]
    rfl
  · intro now label fn result summary confirmed t
    exact ⟨runAction_missingStrategy _ _ _ _ _ _, runAction_missingStrategy _ _ _ _ _ _,
      loadSummary_missingStrategy _ _, handleReset_missingStrategy _ _ _ _, rfl⟩

/-- After `median` was selected on the sample dashboard, "Apply to Missing" sends the
strategy `median`. -/
theorem dashboard_strategy_recognized_witness :
    DashReachable (onStrategyChange "median" sampleDashWorld) ∧
    ∃ s ∈ ["mean", "median", "mode", "drop"],
      (onStrategyChange "median" sampleDashWorld).page.missingStrategy = .str s := by
  have hr : DashReachable (onStrategyChange "median" sampleDashWorld) :=
    DashReachable.select "median" (by decide) (DashReachable.start sampleDashWorld.ctx)
  obtain ⟨⟨s, hs, hms, -⟩, -⟩ := dashboard_strategy_recognized _ hr
  exact ⟨hr, s, hs, hms⟩

/-- C20: `handleReset` never modifies `cleaningLog`, `sessionId` or `filename` (nor the
theme), whether the user declines the confirmation, the reset request fails or it
succeeds; the only context cell it can change is `summary`, which after a confirmed and
successful reset holds the response of the fresh summary request when that succeeds. -/
theorem handleReset_frame (w : World DashPage) (confirmed : Bool) (reset summary : Outcome) :
    (handleReset confirmed reset summary w).ctx.cleaningLog = w.ctx.cleaningLog ∧
    (handleReset confirmed reset summary w).ctx.sessionId = w.ctx.sessionId ∧
    (handleReset confirmed reset summary w).ctx.filename = w.ctx.filename ∧
    (handleReset confirmed reset summary w).ctx.theme = w.ctx.theme ∧
    (handleReset confirmed reset summary w).ctx.summary =
      (match confirmed, reset, summary with
        | true, .resolved _, .resolved data => if w.ctx.sessionId.truthy then data else w.ctx.summary
        | _, _, _ => w.ctx.summary) := by
  cases confirmed <;> cases reset <;> cases summary <;>
    by_cases hs : w.ctx.sessionId.truthy = true <;>
    simp [handleReset, loadSummary, DashPage.setLoading, DashPage.setLoadingMsg, World.setPage,
      World.setCtx, World.emit, World.issue, setSummary, hs]

/-! ## Claims on `useApp`, the quality score and the data table -/

/-- C12: `useApp` throws the error `useApp must be used within AppProvider` exactly when
the context value is absent (the default `null`), otherwise it returns the provided value
unchanged; below an `AppProvider` it never throws. -/
theorem useApp_throws_iff_absent (providers : List ContextValue) :
    (useApp providers = .error "useApp must be used within AppProvider" ↔
      useContext providers = none) ∧
    (∀ msg, useApp providers = .error msg → msg = "useApp must be used within AppProvider") ∧
    (∀ v, useContext providers = some v → useApp providers = .ok v) ∧
    (∀ st, useApp (AppProvider.value st :: providers) = .ok (AppProvider.value st)) := by
  refine ⟨?_, ?_, ?_, fun st => rfl⟩
  · cases h : useContext providers with
    | none => simp [useApp, h]
    | some v => simp [useApp, h]
  · intro msg
    cases h : useContext providers with
    | none =>
      intro hm
      simp only [useApp, h, Except.error.injEq] at hm
      exact hm.symm
    | some v =>
      intro hm
      simp [useApp, h] at hm
  · intro v hv
    simp [useApp, hv]

/-- Below an `AppProvider` with the initial state, `useApp` returns the value provided. -/
theorem useApp_throws_iff_absent_witness :
    useApp [AppProvider.value (AppState.init .null)] = .ok (AppProvider.value (AppState.init .null)) :=
  (useApp_throws_iff_absent [AppProvider.value (AppState.init .null)]).2.2.1 _ rfl

/-- C16: the colour `getColor` gives a score depends only on the band of the score among
at least 90, at least 75, at least 60, at least 40 and below 40 (the grade bands): two
scores get the same colour exactly when they are in the same band. -/
theorem getColor_by_band (a b : ℚ) :
    getColor (some a) = getColor (some b) ↔ gradeBand a = gradeBand b := by
  simp only [getColor, gradeBand]
  split_ifs <;> decide

/-- C17: for a non-empty list of rows and any list of columns, `DataTable` renders a table
with exactly one body row per input row, in input order, the `i`-th (from 0) numbered
`i + 1`, each with exactly one cell per column in column order; when `rows` is `null`,
`undefined` or empty it renders only the placeholder `No data to display.`. -/
theorem dataTable_rows (columns : List String) (row : Obj) (rest : List Obj) (dataTypes : Val) :
    (∃ head body, DataTable columns (some (row :: rest)) dataTypes = .table head body ∧
      body.length = (row :: rest).length ∧
      (∀ i r, (row :: rest)[i]? = some r →
        body[i]? = some (TableRow.mk (i + 1) (columns.map (dataCell r)))) ∧
      (∀ tr ∈ body, tr.cells.length = columns.length)) ∧
    DataTable columns none dataTypes = .placeholder "No data to display." ∧
    DataTable columns (some []) dataTypes = .placeholder "No data to display." := by
  refine ⟨⟨_, _, rfl, ?_, ?_, ?_⟩, rfl, rfl⟩
  · exact mapWithIndex_length _ _ _
  · intro i r hr
    rw [mapWithIndex_getElem?, hr]
    simp
  · intro tr htr
    obtain ⟨i, hi, rfl⟩ := List.getElem_of_mem htr
    have h1 := mapWithIndex_getElem? (fun (r : Obj) (i : Nat) =>
      ({ number := i + 1, cells := columns.map (dataCell r) } : TableRow)) (row :: rest) 0 i
    rw [List.getElem?_eq_getElem hi] at h1
    cases h2 : (row :: rest)[i]? with
    | none => simp [h2] at h1
    | some r =>
      simp only [h2, Option.map_some', Option.some.injEq] at h1
      rw [h1]
      simp

/-- Two rows and two columns: the second body row is numbered 2 and shows the cells of
the second input row. -/
theorem dataTable_rows_witness :
    ∃ head body,
      DataTable ["a", "b"] (some [[("a", .num 1), ("b", .str "x")], [("a", .num 0)]]) .undefined =
        .table head body ∧
      body[1]? = some (TableRow.mk 2 [⟨"", "0", "0"⟩, ⟨"empty", "null/empty", "null"⟩]) := by
  obtain ⟨⟨head, body, h, -, hrow, -⟩, -⟩ :=
    dataTable_rows ["a", "b"] [("a", .num 1), ("b", .str "x")] [[("a", .num 0)]] .undefined
  refine ⟨head, body, h, ?_⟩
  rw [hrow 1 [("a", .num 0)] rfl]
  decide!

/-- C18, as stated, fails: the row `{a: 0}` has no key `constructor`, yet its cell for the
column `constructor` is not shown as `null`: the read finds the function `Object` on the
prototype of the row, and the cell shows its source text. -/
theorem dataCell_inherited_member_shown :
    List.lookup "constructor" ([("a", .num 0)] : Obj) = none ∧
    (dataCell [("a", .num 0)] "constructor").className = "" ∧
    (dataCell [("a", .num 0)] "constructor").text = "function Object() \x7b [native code] \x7d" ∧
    (dataCell [("a", .num 0)] "constructor").text ≠ "null" ∧
    (dataCell [("a", .num 0)] "constructor").title ≠ "null/empty" :=
  ⟨rfl, by decide, by decide, by decide, by decide⟩

/-- C18, amended: a data cell is shown as `null` with title `null/empty` if and only if
the value `row[col]` is `null`, `undefined` or the empty string; every other value on which
`String(val)` returns is shown as `String(val)`, which is also its title, in a cell without
class.  `row[col]` is the own value of the row when the row has the key.  When the key is
missing, `row[col]` is `undefined` and the cell shows `null`, unless the column is named
like a member of `Object.prototype`: then the inherited member is read (the prototype
object or a built-in function) and the cell is not shown as `null`.  The string forms:
`false` and `true`; a non-empty string itself; `[object Object]` for an object without an
own `toString`; the elements of an array joined by commas, `null` and `undefined` as the
empty string; the source text of a function; for an integer of at most 15 digits its
decimal digits, with the sign; for a number in general the shortest decimal that reads back
as its double, as `0`, `42`, `-7`, `1.5`, `0.1`, `1e+21`, `1e-7`, and `9007199254740992` for
the literal `9007199254740993`. -/
theorem dataCell_empty_iff (row : Obj) (col : String) :
    (((dataCell row col).text = "null" ∧ (dataCell row col).title = "null/empty") ↔
      (Obj.get row col = .null ∨ Obj.get row col = .undefined ∨ Obj.get row col = .str "")) ∧
    (¬ (Obj.get row col = .null ∨ Obj.get row col = .undefined ∨ Obj.get row col = .str "") →
      (Obj.get row col).printable = true →
      (dataCell row col).text = (Obj.get row col).toStr ∧
      (dataCell row col).title = (Obj.get row col).toStr ∧
      (dataCell row col).className = "") ∧
    (∀ v, row.lookup col = some v → Obj.get row col = v) ∧
    (row.lookup col = none →
      col ∉ ["__proto__", "constructor", "__defineGetter__", "__defineSetter__",
        "hasOwnProperty", "__lookupGetter__", "__lookupSetter__", "isPrototypeOf",
        "propertyIsEnumerable", "toString", "valueOf", "toLocaleString"] →
      Obj.get row col = .undefined ∧ (dataCell row col).text = "null" ∧
        (dataCell row col).title = "null/empty") ∧
    (row.lookup col = none →
      col ∈ ["__proto__", "constructor", "__defineGetter__", "__defineSetter__",
        "hasOwnProperty", "__lookupGetter__", "__lookupSetter__", "isPrototypeOf",
        "propertyIsEnumerable", "toString", "valueOf", "toLocaleString"] →
      (Obj.get row col = .obj objectPrototype ∨ ∃ name, Obj.get row col = .fn name) ∧
        (dataCell row col).className = "" ∧ (dataCell row col).text ≠ "null" ∧
        (dataCell row col).text = (Obj.get row col).toStr) ∧
    (dataCell [(col, .bool false)] col).text = "false" ∧
    (dataCell [(col, .bool true)] col).text = "true" ∧
    (∀ s, s ≠ "" → (dataCell [(col, .str s)] col).text = s) ∧
    (∀ fields : Obj, fields.lookup "toString" = none →
      (dataCell [(col, .obj fields)] col).text = "[object Object]") ∧
    (dataCell [(col, .arr [.num 1, .null, .str "x", .undefined, .bool true])] col).text =
      "1,,x,,true" ∧
    (∀ name, (dataCell [(col, .fn name)] col).text =
      "function " ++ name ++ "() \x7b [native code] \x7d") ∧
    (∀ n : ℤ, |n| < 10 ^ 15 → (dataCell [(col, .num n)] col).text = toString n) ∧
    (dataCell [(col, .num 0)] col).text = "0" ∧
    (dataCell [(col, .num 42)] col).text = "42" ∧
    (dataCell [(col, .num (-7))] col).text = "-7" ∧
    (dataCell [(col, .num 1.5)] col).text = "1.5" ∧
    (dataCell [(col, .num 0.1)] col).text = "0.1" ∧
    (dataCell [(col, .num 123456789012345680000)] col).text = "123456789012345680000" ∧
    (dataCell [(col, .num 1e21)] col).text = "1e+21" ∧
    (dataCell [(col, .num 0.000001)] col).text = "0.000001" ∧
    (dataCell [(col, .num 1e-7)] col).text = "1e-7" ∧
    (dataCell [(col, .num 9007199254740993)] col).text = "9007199254740992" := by
  have key : ∀ v : Val, isEmptyValue v = true ↔ (v = .null ∨ v = .undefined ∨ v = .str "") := by
    intro v
    cases v <;> simp [isEmptyValue]
  have hne : ∀ t : String, ¬ (t = "null" ∧ t = "null/empty") := by
    rintro t ⟨h1, h2⟩
    rw [h1] at h2
    exact absurd h2 (by decide)
  have hnum : ∀ x : ℚ, (dataCell [(col, .num x)] col).text = numberToString x := by
    intro x
    simp [dataCell, Obj.get_singleton, isEmptyValue, Val.toStr]
  obtain ⟨n0, n1, n2, n3, n4, n5, n6, n7, n8, n9⟩ := numberToString_examples
  refine ⟨?_, ?_, ?_, ?_, ?_, ?_, ?_, ?_, ?_, ?_, ?_, ?_, ?_⟩
  · rw [← key]
    by_cases he : isEmptyValue (Obj.get row col) = true
    · simp [dataCell, he]
    · simp only [dataCell, he, Bool.false_eq_true, if_false, iff_false]
      exact hne _
  · intro hn _
    rw [← key] at hn
    simp [dataCell, hn]
  · intro v hv
    exact Obj.get_of_lookup row col v hv
  · intro hl hcol
    have hu : Obj.get row col = .undefined := by
      simp only [Obj.get, hl]
      exact Obj.inherited_undefined col hcol
    refine ⟨hu, ?_, ?_⟩ <;> simp [dataCell, hu, isEmptyValue]
  · intro hl hcol
    have hg : Obj.get row col = Obj.inherited col := by simp only [Obj.get, hl]
    obtain ⟨h1, h2, h3⟩ := Obj.inherited_not_empty col hcol
    refine ⟨by rw [hg]; exact h3, ?_, ?_, ?_⟩
    · simp [dataCell, hg, h1]
    · simpa [dataCell, hg, h1] using h2
    · simp [dataCell, hg, h1]
  · simp [dataCell, Obj.get_singleton, isEmptyValue, Val.toStr]
  · simp [dataCell, Obj.get_singleton, isEmptyValue, Val.toStr]
  · intro s hs
    simp [dataCell, Obj.get_singleton, isEmptyValue, Val.toStr, hs]
  · intro fields _
    simp [dataCell, Obj.get_singleton, isEmptyValue, Val.toStr]
  · have h1 : numberToString 1 = "1" := by decide!
    simp [dataCell, Obj.get_singleton, isEmptyValue, Val.toStr, Val.joinStr, Val.elemStr, h1]
  · intro name
    simp [dataCell, Obj.get_singleton, isEmptyValue, Val.toStr, nativeSource]
  · intro n hn
    exact (hnum _).trans (numberToString_intCast n hn)
  · exact ⟨(hnum _).trans n0, (hnum _).trans n1, (hnum _).trans n2, (hnum _).trans n3,
      (hnum _).trans n4, (hnum _).trans n5, (hnum _).trans n6, (hnum _).trans n7,
      (hnum _).trans n8, (hnum _).trans n9⟩

/-- The row `{a: 0}`: its own value for `a` is read and shown by its string form, the
missing key `b` shows `null`, and the missing key `toString` reads the inherited
function; the number -12345 is shown by its digits and a non-empty string as itself. -/
theorem dataCell_empty_iff_witness :
    (Obj.get [("a", .num 0)] "a" = .num 0) ∧
    ((dataCell [("a", .num 0)] "a").text = (Obj.get [("a", .num 0)] "a").toStr ∧
      (dataCell [("a", .num 0)] "a").title = (Obj.get [("a", .num 0)] "a").toStr ∧
      (dataCell [("a", .num 0)] "a").className = "") ∧
    (Obj.get [("a", .num 0)] "b" = .undefined ∧ (dataCell [("a", .num 0)] "b").text = "null" ∧
      (dataCell [("a", .num 0)] "b").title = "null/empty") ∧
    ((Obj.get [("a", .num 0)] "toString" = .obj objectPrototype ∨
        ∃ name, Obj.get [("a", .num 0)] "toString" = .fn name) ∧
      (dataCell [("a", .num 0)] "toString").className = "" ∧
      (dataCell [("a", .num 0)] "toString").text ≠ "null" ∧
      (dataCell [("a", .num 0)] "toString").text = (Obj.get [("a", .num 0)] "toString").toStr) ∧
    (dataCell [("a", .num ((-12345 : ℤ) : ℚ))] "a").text = "-12345" ∧
    (dataCell [("a", .str "x")] "a").text = "x" :=
  ⟨(dataCell_empty_iff [("a", .num 0)] "a").2.2.1 (.num 0) rfl,
   (dataCell_empty_iff [("a", .num 0)] "a").2.1 (by simp [Obj.get, List.lookup]) rfl,
   (dataCell_empty_iff [("a", .num 0)] "b").2.2.2.1 rfl (by decide),
   (dataCell_empty_iff [("a", .num 0)] "toString").2.2.2.2.1 rfl (by decide),
   ((dataCell_empty_iff [] "a").2.2.2.2.2.2.2.2.2.2.2.1 (-12345) (by decide)).trans (by decide),
   (dataCell_empty_iff [] "a").2.2.2.2.2.2.2.1 "x" (by decide)⟩

/-! ## Claims on the correlation heatmap -/

/-- C19: for a correlation matrix in which every row has, for every column, an entry that
is a number or `null`, the heatmap renders without error, one cell per row and column.  A
`null` entry is shown as `—` with title `N/A`, background `#1e293b` and the text colour
`var(--text-primary)` (not `white`); a number is never shown as `—`. -/
theorem heatmap_renders (sig : ℚ → String) (columns : List String) (matrix : List CorrRow)
    (h : ∀ row ∈ matrix, ∀ col ∈ columns, ∃ e, row.values.lookup col = some e) :
    (∃ body, heatmapBody sig columns matrix = some body ∧ body.length = matrix.length ∧
      ∀ (i : Nat) (row : CorrRow), matrix[i]? = some row →
        ∃ cells : List HeatCell, body[i]? = some (row.column, cells) ∧
          cells.length = columns.length ∧
          ∀ (j : Nat) (col : String) (e : CorrValue), columns[j]? = some col →
            row.values.lookup col = some e → cells[j]? = some (presentCell sig e)) ∧
    presentCell sig .null =
      { title := "N/A", background := .literal "#1e293b", color := "var(--text-primary)",
        text := "—" } ∧
    "var(--text-primary)" ≠ "white" ∧
    (∀ x, (presentCell sig (.num x)).text ≠ "—") := by
  refine ⟨?_, ?_, by decide, fun x => toFixed_two_ne_dash sig x⟩
  · have hrow : ∀ row ∈ matrix,
        (match allSome (columns.map (fun col => heatCell sig (row.values.lookup col))) with
          | none => none
          | some cells => some (row.column, cells)) =
        some (row.column,
          columns.map (fun col => presentCell sig ((row.values.lookup col).getD .null))) := by
      intro row hr
      have hc := allSome_map_some (fun col => heatCell sig (row.values.lookup col))
        (fun col => presentCell sig ((row.values.lookup col).getD .null)) columns (by
          intro col hcol
          obtain ⟨e, he⟩ := h row hr col hcol
          simp [heatCell, he])
      simp only [hc]
    have hbody := allSome_map_some _ _ matrix hrow
    refine ⟨_, hbody, by simp, ?_⟩
    intro i row hi
    refine ⟨columns.map (fun col => presentCell sig ((row.values.lookup col).getD .null)),
      by simp [List.getElem?_map, hi], by simp, ?_⟩
    intro j col e hj he
    simp [List.getElem?_map, hj, he]
  · simp only [presentCell, corrColor, CorrValue.orZero, abs_zero]
    norm_num

/-- A two-column matrix with a `null` entry: the heatmap renders. -/
theorem heatmap_renders_witness :
    ∃ body, heatmapBody (fun _ => "1") ["a", "b"]
      [⟨"a", [("a", .num 1), ("b", .null)]⟩, ⟨"b", [("a", .null), ("b", .num 1)]⟩] =
        some body ∧ body.length = 2 := by
  obtain ⟨⟨body, hb, hl, -⟩, -⟩ := heatmap_renders (fun _ => "1") ["a", "b"]
    [⟨"a", [("a", .num 1), ("b", .null)]⟩, ⟨"b", [("a", .null), ("b", .num 1)]⟩]
    (by
      intro row hrow col hcol
      simp only [List.mem_cons, List.mem_singleton, List.mem_nil_iff, or_false] at hrow hcol
      rcases hrow with rfl | rfl <;> rcases hcol with rfl | rfl <;> simp [List.lookup])
  exact ⟨body, hb, hl⟩

/-! ## Claims on the server behind the endpoints -/

/-- C13: for all datasets `D`, `removeDuplicates(removeDuplicates(D)) = removeDuplicates(D)`,
whatever the string normalisation of values is. -/
theorem removeDuplicates_idempotent (norm : Cell → String) (D : Dataset) :
    removeDuplicates norm (removeDuplicates norm D) = removeDuplicates norm D := by
  simp only [removeDuplicates, dropSeen_idem]

/-- C14: `reset` after any sequence of cleaning operations, failing ones included, makes
the current dataset of the session equal to the dataset that was uploaded, and leaves
`original` equal to it. -/
theorem reset_restores_original (id filename : String) (createdAt : Nat) (uploaded : Dataset)
    (operators : List (Dataset → Option Dataset)) :
    (((Session.create id filename createdAt uploaded).cleanAll operators).reset).current =
      uploaded ∧
    (((Session.create id filename createdAt uploaded).cleanAll operators).reset).original =
      uploaded := by
  have h := Session.cleanAll_original operators (Session.create id filename createdAt uploaded)
  exact ⟨h, h⟩

/-- C15: after `normalize`, every value of a numeric column lies in `[0,1]`; the values
equal to the minimum of the column become 0 and those equal to its maximum become 1,
except that in a constant column (maximum equal to minimum) every value becomes 0.  Nulls
stay in place. -/
theorem normalize_range (column : List (Option ℚ)) :
    (normalizeColumn column).length = column.length ∧
    (∀ y, some y ∈ normalizeColumn column → 0 ≤ y ∧ y ≤ 1) ∧
    (∀ lo hi, columnMin column = some lo → columnMax column = some hi →
      (some lo ∈ column ∧ some hi ∈ column ∧ ∀ v, some v ∈ column → lo ≤ v ∧ v ≤ hi) ∧
      (∀ i : Nat, (normalizeColumn column)[i]? =
        (column[i]?).map (fun v => v.map (scaleValue lo hi))) ∧
      (lo ≠ hi → scaleValue lo hi lo = 0 ∧ scaleValue lo hi hi = 1) ∧
      (lo = hi → ∀ x, scaleValue lo hi x = 0)) := by
  refine ⟨?_, ?_, ?_⟩
  · unfold normalizeColumn
    split <;> simp
  · intro y hy
    unfold normalizeColumn at hy
    split at hy
    · rename_i lo hi hlo hhi
      obtain ⟨-, -, hb⟩ := column_bounds column lo hi hlo hhi
      simp only [List.mem_map] at hy
      obtain ⟨v, hv, hvy⟩ := hy
      cases v with
      | none => simp at hvy
      | some x =>
        simp only [Option.map_some', Option.some.injEq] at hvy
        subst hvy
        exact scaleValue_range lo hi x (hb x hv).1 (hb x hv).2
    · rename_i hnone
      cases hp : presentValues column with
      | nil =>
        have : y ∈ presentValues column := (mem_presentValues column y).mpr hy
        rw [hp] at this
        cases this
      | cons x rest =>
        exact (hnone (minOf x rest) (maxOf x rest)
          (by simp [columnMin, hp]) (by simp [columnMax, hp])).elim
  · intro lo hi hlo hhi
    refine ⟨column_bounds column lo hi hlo hhi, ?_, ?_, ?_⟩
    · intro i
      simp only [normalizeColumn, hlo, hhi, List.getElem?_map]
    · intro hne
      have hne' : hi ≠ lo := fun e => hne e.symm
      have hpos : hi - lo ≠ 0 := sub_ne_zero.mpr hne'
      constructor
      · simp [scaleValue, hne']
      · simp only [scaleValue, hne', if_false]
        exact div_self hpos
    · intro heq x
      simp [scaleValue, heq]

/-- The column 2, null, 4, 3: its bounds are 2 and 4, and its first value becomes 0. -/
theorem normalize_range_witness :
    columnMin [some 2, none, some 4, some 3] = some 2 ∧
    columnMax [some 2, none, some 4, some 3] = some 4 ∧
    scaleValue 2 4 2 = 0 ∧ scaleValue 2 4 4 = 1 := by
  have h1 : columnMin [some 2, none, some 4, some 3] = some 2 := by
    simp only [columnMin, presentValues, List.filterMap, minOf]
    norm_num
  have h2 : columnMax [some 2, none, some 4, some 3] = some 4 := by
    simp only [columnMax, presentValues, List.filterMap, maxOf]
    norm_num
  have h := ((normalize_range [some 2, none, some 4, some 3]).2.2 2 4 h1 h2).2.2.1 (by norm_num)
  exact ⟨h1, h2, h.1, h.2⟩

/-! ## Claims on the loading flag, the guards and the small functions -/

/-- C21: when `loadSummary`, `runAction`, `handleReset`, `refreshSummary`, `loadData` or
`handleUpload` completes after having issued a request, the `loading` cell of its page is
`false`, whatever the outcomes of the requests. -/
theorem loading_cleared_after_request :
    (∀ ctx page summary,
      (∃ r, Event.request r ∈ (loadSummary summary ⟨ctx, page, []⟩).trace) →
      (loadSummary summary ⟨ctx, page, []⟩).page.loading = false) ∧
    (∀ ctx page now label fn result summary,
      (∃ r, Event.request r ∈ (runAction now label fn result summary ⟨ctx, page, []⟩).trace) →
      (runAction now label fn result summary ⟨ctx, page, []⟩).page.loading = false) ∧
    (∀ ctx page confirmed reset summary,
      (∃ r, Event.request r ∈ (handleReset confirmed reset summary ⟨ctx, page, []⟩).trace) →
      (handleReset confirmed reset summary ⟨ctx, page, []⟩).page.loading = false) ∧
    (∀ ctx page summary,
      (∃ r, Event.request r ∈ (refreshSummary summary ⟨ctx, page, []⟩).trace) →
      (refreshSummary summary ⟨ctx, page, []⟩).page.loading = false) ∧
    (∀ ctx page result,
      (∃ r, Event.request r ∈ (loadData result ⟨ctx, page, []⟩).trace) →
      (loadData result ⟨ctx, page, []⟩).page.loading = false) ∧
    (∀ ctx page up progress pv sm sf,
      (∃ r, Event.request r ∈ (handleUpload up progress pv sm sf ⟨ctx, page, []⟩).trace) →
      (handleUpload up progress pv sm sf ⟨ctx, page, []⟩).page.loading = false) := by
  refine ⟨?_, ?_, ?_, ?_, ?_, ?_⟩
  · rintro ctx page summary ⟨r, hr⟩
    rcases loadSummary_loading summary ⟨ctx, page, []⟩ with h | h
    · rw [h] at hr; cases hr
    · exact h
  · intro ctx page now label fn result summary _
    rfl
  · rintro ctx page confirmed reset summary ⟨r, hr⟩
    rcases handleReset_loading confirmed reset summary ⟨ctx, page, []⟩ with h | h
    · rw [h] at hr; cases hr
    · exact h
  · rintro ctx page summary ⟨r, hr⟩
    rcases refreshSummary_loading summary ⟨ctx, page, []⟩ with h | h
    · rw [h] at hr; cases hr
    · exact h
  · intro ctx page result _
    rfl
  · rintro ctx page up progress pv sm sf ⟨r, hr⟩
    rcases handleUpload_loading up progress pv sm sf ⟨ctx, page, []⟩ with h | h
    · rw [h] at hr; cases hr
    · exact h

/-- On the sample dashboard, whose `loading` is set, a summary load that fails still ends
with `loading` false. -/
theorem loading_cleared_after_request_witness :
    (loadSummary (.rejected networkError)
      ⟨sampleDashWorld.ctx, { DashPage.init with loading := true }, []⟩).page.loading = false :=
  loading_cleared_after_request.1 sampleDashWorld.ctx { DashPage.init with loading := true }
    (.rejected networkError)
    ⟨⟨.GET, "/summary", [("session_id", .str "s1")], .none, []⟩, by
      simp [loadSummary, sampleDashWorld, Val.truthy, DashPage.setLoading,
        DashPage.setLoadingMsg, World.setPage, World.emit, World.issue, fetchSummary, api.get]⟩

/-- C22: when `sessionId` is `null`, `loadSummary` and `refreshSummary` do nothing at all
(no request, no state change), and the mount effects of `CleanDashboard` and `Visualize` do
nothing either; the mount effect of `CleanDashboard` also does nothing when a summary is
present. -/
theorem no_session_no_request :
    (∀ (w : World DashPage) (summary : Outcome), w.ctx.sessionId = .null →
      loadSummary summary w = w ∧ CleanDashboard.mountEffect summary w = w) ∧
    (∀ (w : World ExportPage) (summary : Outcome), w.ctx.sessionId = .null →
      refreshSummary summary w = w) ∧
    (∀ (w : World VisualizePage) (result : Outcome), w.ctx.sessionId = .null →
      Visualize.mountEffect result w = w) ∧
    (∀ (w : World DashPage) (summary : Outcome), w.ctx.summary.truthy = true →
      CleanDashboard.mountEffect summary w = w) := by
  refine ⟨?_, ?_, ?_, ?_⟩
  · intro w summary h
    simp [loadSummary, CleanDashboard.mountEffect, h, Val.truthy]
  · intro w summary h
    simp [refreshSummary, h, Val.truthy]
  · intro w result h
    simp [Visualize.mountEffect, h, Val.truthy]
  · intro w summary h
    simp [CleanDashboard.mountEffect, h]

/-- Before any upload the context has no session: the visualize page mounts without a
request. -/
theorem no_session_no_request_witness :
    (Visualize.mountEffect (.rejected networkError)
      ⟨AppState.init .null, VisualizePage.init, []⟩).trace = [] :=
  congrArg World.trace (no_session_no_request.2.2.1
    ⟨AppState.init .null, VisualizePage.init, []⟩ (.rejected networkError) rfl)

/-- C23: for byte counts `0 ≤ loaded ≤ total` with `total > 0`, the progress value
`round(loaded * 100 / total)` is an integer between 0 and 100, is 100 when `loaded = total`,
and does not decrease when `loaded` grows. -/
theorem progressValue_range (loaded total : Nat) (h1 : loaded ≤ total) (h2 : 0 < total) :
    0 ≤ progressValue loaded total ∧ progressValue loaded total ≤ 100 ∧
    progressValue total total = 100 ∧
    (∀ more, loaded ≤ more → more ≤ total →
      progressValue loaded total ≤ progressValue more total) := by
  have ht : (0 : ℚ) < (total : ℚ) := by exact_mod_cast h2
  have hl : (loaded : ℚ) ≤ (total : ℚ) := by exact_mod_cast h1
  have hx0 : (0 : ℚ) ≤ ((loaded : ℚ) * 100) / (total : ℚ) := by positivity
  have hx1 : ((loaded : ℚ) * 100) / (total : ℚ) ≤ 100 := by
    rw [div_le_iff₀ ht]
    linarith
  refine ⟨?_, ?_, ?_, ?_⟩
  · unfold progressValue mathRound
    exact Int.floor_nonneg.mpr (by linarith)
  · unfold progressValue mathRound
    have : ⌊((loaded : ℚ) * 100) / (total : ℚ) + 1 / 2⌋ < 101 := by
      rw [Int.floor_lt]
      push_cast
      linarith
    omega
  · unfold progressValue mathRound
    have hne : (total : ℚ) ≠ 0 := ne_of_gt ht
    have : ((total : ℚ) * 100) / (total : ℚ) = 100 := by
      field_simp
    rw [this]
    norm_num
  · intro more hm1 hm2
    unfold progressValue
    apply mathRound_mono
    have hm : (loaded : ℚ) ≤ (more : ℚ) := by exact_mod_cast hm1
    exact div_le_div_of_nonneg_right (by linarith) (le_of_lt ht)

/-- For a file of 8 bytes, the progress after 3 bytes lies between 0 and 100. -/
theorem progressValue_range_witness :
    0 ≤ progressValue 3 8 ∧ progressValue 3 8 ≤ 100 :=
  ⟨(progressValue_range 3 8 (by decide) (by decide)).1,
   (progressValue_range 3 8 (by decide) (by decide)).2.1⟩

/-- C24: a call `onDrop(accepted, rejected)` in which at least one of the two lists is
non-empty completes without a runtime error; `accepted[0]` is only read once `rejected` was
found empty, so with a non-empty `rejected` the outcome does not depend on `accepted`. -/
theorem onDrop_completes (accepted : List File) (rejected : List FileRejection)
    (w : World UploadPage) (h : accepted ≠ [] ∨ rejected ≠ []) :
    (∃ w', onDrop accepted rejected w = some w') ∧
    (rejected ≠ [] → ∀ other : List File,
      onDrop other rejected w =
        some (w.emit (.toastError (.str "Only CSV and XLSX files are supported.")))) := by
  constructor
  · cases rejected with
    | cons r rs =>
      exact ⟨w.emit (.toastError (.str "Only CSV and XLSX files are supported.")),
        by simp [onDrop]⟩
    | nil =>
      cases accepted with
      | nil => simp at h
      | cons f rest =>
        by_cases hsz : f.size > MAX_MB * 1024 * 1024
        · exact ⟨w.emit (.toastError
            (.str ("File too large. Max size is " ++ toString MAX_MB ++ " MB."))),
            by simp [onDrop, hsz]⟩
        · exact ⟨w |> setFile (some f) |> setPreview .null |> setSessionDone .null
            |> setUploadProgress 0, by simp [onDrop, hsz]⟩
  · intro hr other
    cases rejected with
    | nil => exact absurd rfl hr
    | cons r rs => simp [onDrop]

/-- A drop with nothing accepted and one rejection completes with the error notice. -/
theorem onDrop_completes_witness :
    ∃ w', onDrop [] [⟨⟨"notes.txt", 5⟩, ["file-invalid-type"]⟩] sampleUploadWorld = some w' :=
  (onDrop_completes [] [⟨⟨"notes.txt", 5⟩, ["file-invalid-type"]⟩] sampleUploadWorld
    (Or.inr (by simp))).1

/-- C25: for every theme value `t`, `toggleTheme` yields `light` when `t` is `dark` and
`dark` otherwise, so the result is always `dark` or `light`; for `t` among `dark`, `light`,
toggling twice gives `t` back.  The other cells of the context are untouched. -/
theorem toggleTheme_flips (st : AppState) :
    (st.theme = "dark" → (toggleTheme st).theme = "light") ∧
    (st.theme ≠ "dark" → (toggleTheme st).theme = "dark") ∧
    ((toggleTheme st).theme = "dark" ∨ (toggleTheme st).theme = "light") ∧
    (st.theme = "dark" ∨ st.theme = "light" →
      (toggleTheme (toggleTheme st)).theme = st.theme) ∧
    (toggleTheme st).sessionId = st.sessionId ∧ (toggleTheme st).filename = st.filename ∧
    (toggleTheme st).summary = st.summary ∧ (toggleTheme st).cleaningLog = st.cleaningLog := by
  refine ⟨?_, ?_, ?_, ?_, rfl, rfl, rfl, rfl⟩
  · intro h
    simp [toggleTheme, h]
  · intro h
    simp [toggleTheme, h]
  · by_cases h : st.theme = "dark"
    · exact Or.inr (by simp [toggleTheme, h])
    · exact Or.inl (by simp [toggleTheme, h])
  · rintro (h | h)
    · simp [toggleTheme, h]
    · simp [toggleTheme, h]

/-- From the initial dark theme, one toggle gives `light` and two give `dark` again. -/
theorem toggleTheme_flips_witness :
    (toggleTheme (AppState.init .null)).theme = "light" ∧
    (toggleTheme (toggleTheme (AppState.init .null))).theme = "dark" :=
  ⟨(toggleTheme_flips (AppState.init .null)).1 rfl,
   (toggleTheme_flips (AppState.init .null)).2.2.2.1 (Or.inl rfl)⟩

/-- C26: for a correlation value `v` with `-1 ≤ v ≤ 1` (not `null`), `corrColor` returns an
`rgba` colour whose opacity is `0.15 + 0.85 * |v|`, which lies in `[0.15, 1]` and does not
decrease when `|v|` grows; its hue is indigo `(99,102,241)` exactly when `v > 0` and red
`(248,113,113)` otherwise, so also for `v = 0`. -/
theorem corrColor_opacity (v : ℚ) (h1 : -1 ≤ v) (h2 : v ≤ 1) :
    (corrColor (.num v)).alpha = some (0.15 + 0.85 * |v|) ∧
    (0.15 : ℚ) ≤ 0.15 + 0.85 * |v| ∧ 0.15 + 0.85 * |v| ≤ (1 : ℚ) ∧
    (∀ u : ℚ, |v| ≤ |u| → 0.15 + 0.85 * |v| ≤ 0.15 + 0.85 * |u|) ∧
    ((corrColor (.num v)).rgb = some (99, 102, 241) ↔ v > 0) ∧
    (¬ v > 0 → (corrColor (.num v)).rgb = some (248, 113, 113)) ∧
    (corrColor (.num 0)).rgb = some (248, 113, 113) := by
  have habs : |v| ≤ 1 := abs_le.mpr ⟨h1, h2⟩
  have hnn : 0 ≤ |v| := abs_nonneg v
  refine ⟨?_, ?_, ?_, ?_, ?_, ?_, ?_⟩
  · simp only [corrColor]
    split_ifs <;> simp only [Colour.alpha, Option.some.injEq] <;> ring
  · linarith
  · linarith
  · intro u hu
    linarith
  · simp only [corrColor]
    split_ifs with h
    · simp [Colour.rgb, h]
    · simp [Colour.rgb, h]
  · intro h
    simp [corrColor, Colour.rgb, h]
  · simp [corrColor, Colour.rgb]

/-- At `v = 1/2` the opacity lies in `[0.15, 1]`. -/
theorem corrColor_opacity_witness :
    (0.15 : ℚ) ≤ 0.15 + 0.85 * |(1 / 2 : ℚ)| ∧ 0.15 + 0.85 * |(1 / 2 : ℚ)| ≤ (1 : ℚ) :=
  ⟨(corrColor_opacity (1 / 2) (by norm_num) (by norm_num)).2.1,
   (corrColor_opacity (1 / 2) (by norm_num) (by norm_num)).2.2.1⟩

/-- C27: for a non-empty file name, the navbar shows the file name itself when it has at
most 22 code units, and otherwise its first 22 code units followed by the ellipsis; the
text shown never has more than 23 code units, and what stands before any ellipsis in it is
a beginning of the file name. -/
theorem fileLabel_truncates (filename : List CodeUnit) (h : filename ≠ []) :
    ∃ text, Navbar.fileLabel filename = some text ∧
      (filename.length ≤ 22 → text = filename) ∧
      (22 < filename.length → text = filename.take 22 ++ [ellipsis]) ∧
      text.length ≤ 23 ∧
      (∀ pre post, text = pre ++ ellipsis :: post → pre <+: filename) := by
  have hlen : filename.length ≠ 0 := fun e => h (List.length_eq_zero.mp e)
  by_cases hl : filename.length > 22
  · refine ⟨filename.take 22 ++ [ellipsis], by simp [Navbar.fileLabel, hlen, hl], ?_, ?_, ?_, ?_⟩
    · intro h'
      omega
    · intro _
      rfl
    · simp only [List.length_append, List.length_take, List.length_singleton]
      omega
    · intro pre post heq
      rcases List.append_eq_append_iff.mp heq with ⟨a, ha, hb⟩ | ⟨c, hc, hd⟩
      · cases a with
        | nil =>
          simp only [List.append_nil] at ha
          rw [ha]
          exact List.take_prefix _ _
        | cons x xs =>
          simp only [List.cons_append, List.cons.injEq] at hb
          have := congrArg List.length hb.2
          simp at this
          omega
      · exact (List.prefix_append pre c).trans (hc ▸ List.take_prefix 22 filename)
  · refine ⟨filename, by simp [Navbar.fileLabel, hlen, hl], ?_, ?_, ?_, ?_⟩
    · intro _
      rfl
    · intro h'
      omega
    · omega
    · intro pre post heq
      exact ⟨ellipsis :: post, heq.symm⟩

/-- A file name of 25 code units is cut to 22 and the ellipsis. -/
theorem fileLabel_truncates_witness :
    ∃ text, Navbar.fileLabel (List.replicate 25 97) = some text ∧ text.length ≤ 23 := by
  obtain ⟨text, h, -, -, hl, -⟩ := fileLabel_truncates (List.replicate 25 97) (by decide)
  exact ⟨text, h, hl⟩

end DataCleaning
